import Mathlib

/-!
# A verification development for the ReconForth validation interpreter

This file gives a shallow embedding, in Lean 4, of the core of the
`recon-silly-ation` repository (`src/wasm-modules/`): the ReconForth stack
virtual machine (`reconforth/vm.rs`), its built-in word library
(`reconforth/builtins.rs`), the value/document data model
(`reconforth/types.rs`), format detection (`reconforth/formats.rs`) and the
`normalize_content` surface function (`lib.rs`).

Modelling conventions, used throughout:

* The VM's recursion (user words and quotations re-enter the execution loop)
  is not structurally terminating, so the execution loop `execute` takes a
  fuel parameter and returns a three-way result `ExecRes`:
  `.ok`, `.err` (the Rust `Err(Error)` channel, carrying the partially
  mutated VM state, since Rust mutates the VM in place before an error
  propagates), `.timeout` when the fuel runs out (a model artifact with no
  Rust counterpart; theorems quantify over fuel), or `.panic` for a Rust
  panic (on the wasm32 target an aborting trap: it is not an `Error`
  value, is not catchable by `bundle-validate`'s rule loop, and no VM
  state survives it, so the constructor carries only the panic message).
* Rust `i64` payloads are modelled as unbounded `Int`.  No claim under
  consideration depends on two's-complement overflow of `+`, `-`, `*`
  (whose checks are debug-only; the shipped wasm builds wrap).  The
  overflow checks that are mandatory in every build profile — `/` and `%`
  at `(i64::MIN, -1)` — are modelled explicitly: they panic, a fourth
  `ExecRes` outcome (see below).  Where a cast's wrapping matters (the
  `as usize` cast in `list-get`) it is modelled explicitly; the crate is a
  `wasm_bindgen` wasm32 module, so `usize` is 32 bits and the cast
  truncates with `% 2^32`.
* Rust `f64` payloads are modelled by an opaque-to-the-program `Int`
  payload, standing for the value `f as i64` produces.  The source performs
  no float arithmetic: a Float payload is only ever (a) carried around,
  (b) truncated to an integer by `as_int`, or (c) compared by `=`'s
  catch-all arm, which ignores the payload entirely.
* Strings are Lean `String`s; all string algorithms used by the embedded
  code (trim, lines, split, replace, substring search) are defined in this
  file over `List Char` with exactly the Rust semantics (including Rust's
  Unicode `char::is_whitespace` set, `str::lines` trailing behaviour,
  byte lengths, and `str::split` empty-pattern behaviour), so that every
  definition is kernel-reducible.
* `str::to_uppercase`/`to_lowercase` are modelled with `Char.toUpper`/
  `Char.toLower` (ASCII); the source uses Unicode case mapping.  No claim
  depends on case mapping.
* The debug built-ins `.s` and `.v` print to stderr in the source and do
  not change VM state; they are modelled as state-identities.
-/

namespace RF

/-! ## String primitives with Rust semantics -/

/-- Rust `char::is_whitespace`: the Unicode White_Space property. -/
def rustIsWhitespace (c : Char) : Bool :=
  let n := c.toNat
  (0x09 ≤ n && n ≤ 0x0D) || n == 0x20 || n == 0x85 || n == 0xA0 ||
  n == 0x1680 || (0x2000 ≤ n && n ≤ 0x200A) || n == 0x2028 ||
  n == 0x2029 || n == 0x202F || n == 0x205F || n == 0x3000

/-- Rust `str::trim` over a character list. -/
def trimL (s : List Char) : List Char :=
  ((s.dropWhile rustIsWhitespace).reverse.dropWhile rustIsWhitespace).reverse

/-- Rust `str::trim_end` over a character list. -/
def trimEndL (s : List Char) : List Char :=
  (s.reverse.dropWhile rustIsWhitespace).reverse

/-- Substring search over character lists (Rust `str::contains` with a
string pattern). -/
def containsL (sub : List Char) : List Char → Bool
  | [] => sub.isPrefixOf []
  | c :: cs => sub.isPrefixOf (c :: cs) || containsL sub cs

/-- Greedy leftmost split on a non-empty separator `s0 :: sr`
(Rust `str::split`, which keeps empty segments).  The `Nat` argument is a
length bound making the recursion structural (and hence kernel-reducible);
the wrapper `splitGo` passes the list's length, which every recursive call
preserves as a bound. -/
def splitGoAux (s0 : Char) (sr : List Char) : Nat → List Char → List (List Char)
  | _, [] => [[]]
  | 0, _ :: _ => [[]]
  | n + 1, c :: cs =>
    if (s0 :: sr).isPrefixOf (c :: cs) then
      [] :: splitGoAux s0 sr n (List.drop sr.length cs)
    else
      match splitGoAux s0 sr n cs with
      | [] => [[c]]
      | h :: t => (c :: h) :: t

def splitGo (s0 : Char) (sr : List Char) (s : List Char) : List (List Char) :=
  splitGoAux s0 sr s.length s

/-- Greedy leftmost replacement of a non-empty pattern `s0 :: sr` by `rep`
(Rust `str::replace`), with the same length-bound device as `splitGoAux`. -/
def replaceGoAux (s0 : Char) (sr rep : List Char) : Nat → List Char → List Char
  | _, [] => []
  | 0, _ :: _ => []
  | n + 1, c :: cs =>
    if (s0 :: sr).isPrefixOf (c :: cs) then
      rep ++ replaceGoAux s0 sr rep n (List.drop sr.length cs)
    else
      c :: replaceGoAux s0 sr rep n cs

def replaceGo (s0 : Char) (sr rep : List Char) (s : List Char) : List Char :=
  replaceGoAux s0 sr rep s.length s

/-- Rust `str::split` over character lists.  An empty pattern splits at
every character boundary, with empty pieces at both ends. -/
def splitL (sep : List Char) (s : List Char) : List (List Char) :=
  match sep with
  | [] => [] :: s.map (fun c => [c]) ++ [[]]
  | s0 :: sr => splitGo s0 sr s

/-- Rust `str::replace` over character lists (an empty pattern inserts
`rep` at every boundary; the embedded code never uses an empty pattern). -/
def replaceL (sep rep : List Char) (s : List Char) : List Char :=
  match sep with
  | [] => rep ++ (s.map (fun c => [c] ++ rep)).flatten
  | s0 :: sr => replaceGo s0 sr rep s

/-- Rust `str::lines` over character lists: split on `'\n'`, drop the final
empty piece (so a trailing newline adds no line and `""` has no lines), and
strip one trailing `'\r'` from each line. -/
def linesL (s : List Char) : List (List Char) :=
  let parts := splitGo '\n' [] s
  let parts := if parts.getLast? = some [] then parts.dropLast else parts
  parts.map (fun l => if l.getLast? = some '\r' then l.dropLast else l)

/-- UTF-8 byte count of one character. -/
def charUtf8Size (c : Char) : Nat :=
  if c.toNat < 0x80 then 1
  else if c.toNat < 0x800 then 2
  else if c.toNat < 0x10000 then 3
  else 4

/-- Rust `str::len` (UTF-8 byte length). -/
def byteLen (s : String) : Nat :=
  (s.toList.map charUtf8Size).sum

/-- String-level wrappers. -/
def strContains (hay sub : String) : Bool := containsL sub.toList hay.toList

def strStarts (s p : String) : Bool := p.toList.isPrefixOf s.toList

def strEnds (s p : String) : Bool := p.toList.reverse.isPrefixOf s.toList.reverse

def strTrim (s : String) : String := (trimL s.toList).asString

def strTrimEnd (s : String) : String := (trimEndL s.toList).asString

def strSplit (s sep : String) : List String :=
  (splitL sep.toList s.toList).map List.asString

def strReplace (s sep rep : String) : String :=
  (replaceL sep.toList rep.toList s.toList).asString

def strLines (s : String) : List String :=
  (linesL s.toList).map List.asString

/-! ## SHA-256 (the `sha2` crate computation used by `hash_content`)

All 32-bit arithmetic is `Nat` with explicit `% 2^32`. -/

def utf8EncodeChar (c : Char) : List Nat :=
  let n := c.toNat
  if n < 0x80 then [n]
  else if n < 0x800 then
    [0xC0 ||| (n >>> 6), 0x80 ||| (n &&& 0x3F)]
  else if n < 0x10000 then
    [0xE0 ||| (n >>> 12), 0x80 ||| ((n >>> 6) &&& 0x3F), 0x80 ||| (n &&& 0x3F)]
  else
    [0xF0 ||| (n >>> 18), 0x80 ||| ((n >>> 12) &&& 0x3F),
     0x80 ||| ((n >>> 6) &&& 0x3F), 0x80 ||| (n &&& 0x3F)]

/-- UTF-8 bytes of a string (Rust `str::as_bytes`). -/
def utf8Bytes (s : String) : List Nat := s.toList.flatMap utf8EncodeChar

def rotr32 (x k : Nat) : Nat := ((x >>> k) ||| (x <<< (32 - k))) % 4294967296

def sha256K : List Nat :=
  [1116352408, 1899447441, 3049323471, 3921009573, 961987163, 1508970993,
   2453635748, 2870763221, 3624381080, 310598401, 607225278, 1426881987,
   1925078388, 2162078206, 2614888103, 3248222580, 3835390401, 4022224774,
   264347078, 604807628, 770255983, 1249150122, 1555081692, 1996064986,
   2554220882, 2821834349, 2952996808, 3210313671, 3336571891, 3584528711,
   113926993, 338241895, 666307205, 773529912, 1294757372, 1396182291,
   1695183700, 1986661051, 2177026350, 2456956037, 2730485921, 2820302411,
   3259730800, 3345764771, 3516065817, 3600352804, 4094571909, 275423344,
   430227734, 506948616, 659060556, 883997877, 958139571, 1322822218,
   1537002063, 1747873779, 1955562222, 2024104815, 2227730452, 2361852424,
   2428436474, 2756734187, 3204031479, 3329325298]

def sha256H0 : List Nat :=
  [1779033703, 3144134277, 1013904242, 2773480762, 1359893119, 2600822924,
   528734635, 1541459225]

/-- 8-byte big-endian encoding. -/
def be64 (n : Nat) : List Nat :=
  [(n >>> 56) % 256, (n >>> 48) % 256, (n >>> 40) % 256, (n >>> 32) % 256,
   (n >>> 24) % 256, (n >>> 16) % 256, (n >>> 8) % 256, n % 256]

/-- SHA-256 message padding. -/
def sha256Pad (msg : List Nat) : List Nat :=
  let zeros := (120 - ((msg.length + 1) % 64)) % 64
  msg ++ [0x80] ++ List.replicate zeros 0 ++ be64 (msg.length * 8)

/-- Group a byte list into big-endian 32-bit words, four bytes at a time. -/
def bytesToWords : List Nat → List Nat
  | b0 :: b1 :: b2 :: b3 :: rest =>
    (((b0 <<< 24) ||| (b1 <<< 16) ||| (b2 <<< 8) ||| b3) % 4294967296)
      :: bytesToWords rest
  | _ => []

/-- Group a byte list into 64-byte chunks. -/
def toChunks : List Nat → List (List Nat)
  | [] => []
  | c :: cs => (c :: cs).take 64 :: toChunks ((c :: cs).drop 64)
termination_by l => l.length
decreasing_by
  simp only [List.length_drop, List.length_cons]
  omega

def ssig0 (x : Nat) : Nat := (rotr32 x 7) ^^^ (rotr32 x 18) ^^^ (x >>> 3)

def ssig1 (x : Nat) : Nat := (rotr32 x 17) ^^^ (rotr32 x 19) ^^^ (x >>> 10)

def bsig0 (x : Nat) : Nat := (rotr32 x 2) ^^^ (rotr32 x 13) ^^^ (rotr32 x 22)

def bsig1 (x : Nat) : Nat := (rotr32 x 6) ^^^ (rotr32 x 11) ^^^ (rotr32 x 25)

/-- Extend the 16-word schedule to 64 words. -/
def sha256Schedule (w0 : List Nat) : List Nat :=
  (List.range 48).foldl
    (fun w _ =>
      let n := w.length
      w ++ [(w.getD (n - 16) 0 + ssig0 (w.getD (n - 15) 0) +
             w.getD (n - 7) 0 + ssig1 (w.getD (n - 2) 0)) % 4294967296])
    w0

/-- One compression round. -/
def sha256Round (st : List Nat) (kw : Nat × Nat) : List Nat :=
  match st with
  | [a, b, c, d, e, f, g, h] =>
    let ch := (e &&& f) ^^^ ((e ^^^ 4294967295) &&& g)
    let t1 := (h + bsig1 e + ch + kw.1 + kw.2) % 4294967296
    let mj := (a &&& b) ^^^ (a &&& c) ^^^ (b &&& c)
    let t2 := (bsig0 a + mj) % 4294967296
    [(t1 + t2) % 4294967296, a, b, c, (d + t1) % 4294967296, e, f, g]
  | _ => st

/-- Process one 64-byte chunk. -/
def sha256Chunk (h : List Nat) (chunk : List Nat) : List Nat :=
  let w := sha256Schedule (bytesToWords chunk)
  let st := (sha256K.zip w).foldl sha256Round h
  (h.zip st).map (fun p => (p.1 + p.2) % 4294967296)

def hexDigit (n : Nat) : Char :=
  if n < 10 then Char.ofNat (48 + n) else Char.ofNat (87 + n)

/-- Lowercase hex of one byte (Rust `format!` with 02x). -/
def byteHex (b : Nat) : List Char := [hexDigit ((b / 16) % 16), hexDigit (b % 16)]

/-- Big-endian bytes of a 32-bit word. -/
def wordBytes (w : Nat) : List Nat :=
  [(w >>> 24) % 256, (w >>> 16) % 256, (w >>> 8) % 256, w % 256]

/-- Lowercase hex SHA-256 of a string's UTF-8 bytes: the computation of
`hash_content` in `lib.rs` and of `builtin_hash_content` in `builtins.rs`. -/
def sha256hex (s : String) : String :=
  let digest := (toChunks (sha256Pad (utf8Bytes s))).foldl sha256Chunk sha256H0
  ((digest.flatMap wordBytes).flatMap byteHex).asString

/-! ## Data model (`reconforth/types.rs`) -/

/-- `enum Error` in `types.rs`. -/
inductive Error where
  | stackUnderflow (msg : String)
  | typeError (expected got : String)
  | undefinedWord (name : String)
  | parseError (msg : String)
  | validationError (msg : String)
  | runtimeError (msg : String)
  deriving DecidableEq, Repr

/-- The `thiserror` `Display` strings of `enum Error` (used when a caught
rule error is formatted with `{}` in `builtin_bundle_validate`). -/
def Error.toMessage : Error → String
  | .stackUnderflow m => "Stack underflow: " ++ m
  | .typeError e g => "Type error: expected " ++ e ++ ", got " ++ g
  | .undefinedWord n => "Undefined word: " ++ n
  | .parseError m => "Parse error: " ++ m
  | .validationError m => "Validation error: " ++ m
  | .runtimeError m => "Runtime error: " ++ m

/-- `struct DocumentMetadata`.  `last_modified` is an `f64` timestamp in the
source; it is modelled as `Int` (no claim reads it). -/
structure DocumentMetadata where
  path : String
  document_type : String
  last_modified : Int
  version : Option String
  canonical_source : String
  repository : String
  branch : String
  deriving DecidableEq, Repr

/-- `struct Document` (`created_at` is an `f64` timestamp, modelled as
`Int`; no claim reads it). -/
structure Document where
  hash : String
  content : String
  metadata : DocumentMetadata
  created_at : Int
  deriving DecidableEq, Repr

def Document.doc_type (d : Document) : String := d.metadata.document_type

def Document.is_canonical (d : Document) : Bool :=
  d.metadata.canonical_source ≠ "Inferred"

/-- `struct Bundle`. -/
structure Bundle where
  documents : List Document
  deriving DecidableEq, Repr

def Bundle.new : Bundle := ⟨[]⟩

def Bundle.add (b : Bundle) (doc : Document) : Bundle :=
  ⟨b.documents ++ [doc]⟩

def Bundle.count (b : Bundle) : Nat := b.documents.length

def Bundle.has_type (b : Bundle) (doc_type : String) : Bool :=
  b.documents.any (fun d => d.doc_type == doc_type)

def Bundle.get_type (b : Bundle) (doc_type : String) : Option Document :=
  b.documents.find? (fun d => d.doc_type == doc_type)

/-- `enum Token`.  The `f64` payload of `Float` is modelled as `Int` (see
the header comment). -/
inductive Token where
  | word (s : String)
  | int (n : Int)
  | float (f : Int)
  | str (s : String)
  | quoteStart
  | quoteEnd
  | defStart
  | defEnd
  | stackEffectStart
  | stackEffectEnd
  | comment (s : String)
  deriving DecidableEq, Repr

/-- `struct Rule`. -/
structure Rule where
  name : String
  body : List Token
  deriving DecidableEq, Repr

/-- `struct PackSpec`. -/
structure PackSpec where
  name : String
  required : List String
  optional : List String
  rules : List Rule
  deriving DecidableEq, Repr

def PackSpec.new (name : String) : PackSpec := ⟨name, [], [], []⟩

def PackSpec.require (p : PackSpec) (doc_type : String) : PackSpec :=
  { p with required := p.required ++ [doc_type] }

def PackSpec.optional_type (p : PackSpec) (doc_type : String) : PackSpec :=
  { p with optional := p.optional ++ [doc_type] }

def PackSpec.add_rule (p : PackSpec) (name : String) (body : List Token) :
    PackSpec :=
  { p with rules := p.rules ++ [⟨name, body⟩] }

/-- `struct ValidationMessage`. -/
structure ValidationMessage where
  message : String
  path : Option String
  rule : Option String
  deriving DecidableEq, Repr

def ValidationMessage.new (message : String) : ValidationMessage :=
  ⟨message, none, none⟩

/-- `struct ValidationResult`. -/
structure ValidationResult where
  success : Bool
  errors : List ValidationMessage
  warnings : List ValidationMessage
  suggestions : List ValidationMessage
  deriving DecidableEq, Repr

/-- `impl Default for ValidationResult`. -/
def ValidationResult.default : ValidationResult := ⟨true, [], [], []⟩

/-- `enum Value`. -/
inductive Value where
  | int (n : Int)
  | float (f : Int)
  | bool (b : Bool)
  | str (s : String)
  | hash (s : String)
  | doc (d : Document)
  | bundle (b : Bundle)
  | pack (p : PackSpec)
  | list (l : List Value)
  | quotation (q : List Token)
  | nil
  | validationResult (r : ValidationResult)
  deriving Repr

def Value.type_name : Value → String
  | .int _ => "Int"
  | .float _ => "Float"
  | .bool _ => "Bool"
  | .str _ => "Str"
  | .hash _ => "Hash"
  | .doc _ => "Doc"
  | .bundle _ => "Bundle"
  | .pack _ => "Pack"
  | .list _ => "List"
  | .quotation _ => "Quotation"
  | .nil => "Nil"
  | .validationResult _ => "ValidationResult"

def Value.as_bool : Value → Option Bool
  | .bool b => some b
  | .int i => some (i != 0)
  | .nil => some false
  | _ => none

/-- `Value::as_int`.  For `Float` the source computes `*f as i64`; the model
carries that integer as the payload already. -/
def Value.as_int : Value → Option Int
  | .int i => some i
  | .float f => some f
  | .bool b => some (if b then 1 else 0)
  | _ => none

/-- The native words registered by `register_builtins`.  The Rust source
stores function pointers in the dictionary; the model enumerates them. -/
inductive NativeWord where
  | dup | drop | swap | over | rot | nip | tuck | depth
  | add | sub | mul | div | mod | abs | negate
  | eq | neq | lt | gt | le | ge
  | and_ | or_ | not_ | true_ | false_ | nil_
  | if_ | when_ | unless_ | call_
  | str_concat | str_contains | str_starts | str_ends | str_split
  | str_trim | str_upper | str_lower | str_len
  | list_new | list_push | list_pop | list_get | list_len
  | each | map | filter | reduce
  | doc_hash | doc_type | doc_path | doc_content | doc_version
  | doc_canonical | docs_same_hash | docs_same_type
  | bundle_new | bundle_add | bundle_docs | bundle_count
  | bundle_has_type | bundle_get_type | bundle_validate
  | pack_new | pack_require | pack_optional | pack_rule | pack_ship
  | error_bang | warn_bang | suggest_bang | require_bang
  | hash_content
  | print_stack | print_validation
  deriving DecidableEq, Repr

/-- `enum WordDef`. -/
inductive WordDef where
  | native (w : NativeWord)
  | user (body : List Token)
  deriving DecidableEq, Repr

/-- The dictionary (`HashMap<String, WordDef>` in the source) is modelled as
an association list with replace-on-insert, which has the same lookup
behaviour. -/
abbrev Dictionary := List (String × WordDef)

def dictLookup (name : String) : Dictionary → Option WordDef
  | [] => none
  | (k, v) :: rest => if k == name then some v else dictLookup name rest

/-- `HashMap::insert`: replaces an existing entry for the key. -/
def dictInsert (name : String) (w : WordDef) : Dictionary → Dictionary
  | [] => [(name, w)]
  | (k, v) :: rest =>
    if k == name then (name, w) :: rest else (k, v) :: dictInsert name w rest

/-! ## VM state and its primitive operations (`reconforth/vm.rs`) -/

/-- `struct VM`.  `return_stack` is declared in the source but never read
or written outside `VM::new`; it is kept for fidelity. -/
structure VM where
  stack : List Value
  return_stack : List (List Token)
  dictionary : Dictionary
  current_bundle : Option Bundle
  validation : ValidationResult
  debug : Bool

/-- Result of executing Rust code that can mutate the VM and fail: `.err`
carries the VM as already mutated when the error propagates.  `.timeout`
is the fuel-exhaustion artifact of the model. -/
inductive ExecRes where
  | ok (vm : VM)
  | err (e : Error) (vm : VM)
  | timeout
  | panic (msg : String)

/-- `VM::push` (the debug print has no state effect). -/
def VM.push (vm : VM) (value : Value) : VM :=
  { vm with stack := value :: vm.stack }

/-- `VM::pop`.  The stack's top is the head of the list. -/
def VM.pop (vm : VM) : Except Error (Value × VM) :=
  match vm.stack with
  | [] => .error (.stackUnderflow "Stack is empty")
  | v :: rest => .ok (v, { vm with stack := rest })

/-- `VM::depth`. -/
def VM.depth (vm : VM) : Nat := vm.stack.length

/-- `VM::pop_int`.  Note the Rust helper pops first: on a type error the
value has already been removed, which `×` with the result models. -/
def VM.pop_int (vm : VM) : Except Error Int × VM :=
  match vm.stack with
  | [] => (.error (.stackUnderflow "Stack is empty"), vm)
  | v :: rest =>
    let vm1 := { vm with stack := rest }
    match v.as_int with
    | some i => (.ok i, vm1)
    | none => (.error (.typeError "Int" v.type_name), vm1)

/-- `VM::pop_str` (accepts `Str` and `Hash`). -/
def VM.pop_str (vm : VM) : Except Error String × VM :=
  match vm.stack with
  | [] => (.error (.stackUnderflow "Stack is empty"), vm)
  | v :: rest =>
    let vm1 := { vm with stack := rest }
    match v with
    | .str s => (.ok s, vm1)
    | .hash s => (.ok s, vm1)
    | _ => (.error (.typeError "Str" v.type_name), vm1)

/-- `VM::pop_bool`. -/
def VM.pop_bool (vm : VM) : Except Error Bool × VM :=
  match vm.stack with
  | [] => (.error (.stackUnderflow "Stack is empty"), vm)
  | v :: rest =>
    let vm1 := { vm with stack := rest }
    match v.as_bool with
    | some b => (.ok b, vm1)
    | none => (.error (.typeError "Bool" v.type_name), vm1)

/-- `VM::pop_doc`. -/
def VM.pop_doc (vm : VM) : Except Error Document × VM :=
  match vm.stack with
  | [] => (.error (.stackUnderflow "Stack is empty"), vm)
  | v :: rest =>
    let vm1 := { vm with stack := rest }
    match v with
    | .doc d => (.ok d, vm1)
    | _ => (.error (.typeError "Doc" v.type_name), vm1)

/-- `VM::pop_bundle`. -/
def VM.pop_bundle (vm : VM) : Except Error Bundle × VM :=
  match vm.stack with
  | [] => (.error (.stackUnderflow "Stack is empty"), vm)
  | v :: rest =>
    let vm1 := { vm with stack := rest }
    match v with
    | .bundle b => (.ok b, vm1)
    | _ => (.error (.typeError "Bundle" v.type_name), vm1)

/-- `VM::pop_pack`. -/
def VM.pop_pack (vm : VM) : Except Error PackSpec × VM :=
  match vm.stack with
  | [] => (.error (.stackUnderflow "Stack is empty"), vm)
  | v :: rest =>
    let vm1 := { vm with stack := rest }
    match v with
    | .pack p => (.ok p, vm1)
    | _ => (.error (.typeError "Pack" v.type_name), vm1)

/-- `VM::pop_quotation`. -/
def VM.pop_quotation (vm : VM) : Except Error (List Token) × VM :=
  match vm.stack with
  | [] => (.error (.stackUnderflow "Stack is empty"), vm)
  | v :: rest =>
    let vm1 := { vm with stack := rest }
    match v with
    | .quotation q => (.ok q, vm1)
    | _ => (.error (.typeError "Quotation" v.type_name), vm1)

/-- `VM::pop_list`. -/
def VM.pop_list (vm : VM) : Except Error (List Value) × VM :=
  match vm.stack with
  | [] => (.error (.stackUnderflow "Stack is empty"), vm)
  | v :: rest =>
    let vm1 := { vm with stack := rest }
    match v with
    | .list l => (.ok l, vm1)
    | _ => (.error (.typeError "List" v.type_name), vm1)

/-- `VM::define_word`. -/
def VM.define_word (vm : VM) (name : String) (body : List Token) : VM :=
  { vm with dictionary := dictInsert name (.user body) vm.dictionary }

/-- `VM::register_native`. -/
def VM.register_native (vm : VM) (name : String) (w : NativeWord) : VM :=
  { vm with dictionary := dictInsert name (.native w) vm.dictionary }

/-- `VM::report_error`. -/
def VM.report_error (vm : VM) (message : String) : VM :=
  { vm with validation :=
      { vm.validation with
        success := false
        errors := vm.validation.errors ++ [ValidationMessage.new message] } }

/-- `VM::report_warning`. -/
def VM.report_warning (vm : VM) (message : String) : VM :=
  { vm with validation :=
      { vm.validation with
        warnings := vm.validation.warnings ++ [ValidationMessage.new message] } }

/-- `VM::report_suggestion`. -/
def VM.report_suggestion (vm : VM) (message : String) : VM :=
  { vm with validation :=
      { vm.validation with
        suggestions :=
          vm.validation.suggestions ++ [ValidationMessage.new message] } }

/-- `VM::reset_validation`. -/
def VM.reset_validation (vm : VM) : VM :=
  { vm with validation := ValidationResult.default }

/-- `VM::load_bundle`. -/
def VM.load_bundle (vm : VM) (bundle : Bundle) : VM :=
  ({ vm with current_bundle := some bundle } : VM).push (.bundle bundle)

/-- The discarded pop `let _ = vm.pop();` in `builtin_bundle_validate`:
remove the top of the stack if there is one, ignoring underflow. -/
def VM.dropTop (vm : VM) : VM :=
  { vm with stack := vm.stack.tail }

/-! ## Built-in words (`reconforth/builtins.rs`)

Several Rust built-ins share the same four-line body modulo the computed
value; those are written through small combinators (`binIntWord` etc.)
whose bodies are the literal translation of that shared shape.  Arguments
are passed to the computation in Rust's naming: `a` is the second value
popped (deeper on the stack), `b` the first (top). -/

/-- Pop `b`, pop `a` with `pop_int`, push `g a b`. -/
def binIntWord (g : Int → Int → Value) (vm : VM) : ExecRes :=
  match vm.pop_int with
  | (.error e, vm1) => .err e vm1
  | (.ok b, vm1) =>
    match vm1.pop_int with
    | (.error e, vm2) => .err e vm2
    | (.ok a, vm2) => .ok (vm2.push (g a b))

/-- Pop `a` with `pop_int`, push `g a`. -/
def unaryIntWord (g : Int → Value) (vm : VM) : ExecRes :=
  match vm.pop_int with
  | (.error e, vm1) => .err e vm1
  | (.ok a, vm1) => .ok (vm1.push (g a))

/-- Pop `b`, pop `a` with `pop_bool`, push `g a b`. -/
def binBoolWord (g : Bool → Bool → Value) (vm : VM) : ExecRes :=
  match vm.pop_bool with
  | (.error e, vm1) => .err e vm1
  | (.ok b, vm1) =>
    match vm1.pop_bool with
    | (.error e, vm2) => .err e vm2
    | (.ok a, vm2) => .ok (vm2.push (g a b))

/-- Pop `b`, pop `a` with `pop_str`, push `g a b`. -/
def binStrWord (g : String → String → Value) (vm : VM) : ExecRes :=
  match vm.pop_str with
  | (.error e, vm1) => .err e vm1
  | (.ok b, vm1) =>
    match vm1.pop_str with
    | (.error e, vm2) => .err e vm2
    | (.ok a, vm2) => .ok (vm2.push (g a b))

/-- Pop `s` with `pop_str`, push `g s`. -/
def unaryStrWord (g : String → Value) (vm : VM) : ExecRes :=
  match vm.pop_str with
  | (.error e, vm1) => .err e vm1
  | (.ok s, vm1) => .ok (vm1.push (g s))

/-- Pop `doc` with `pop_doc`, push `g doc`. -/
def unaryDocWord (g : Document → Value) (vm : VM) : ExecRes :=
  match vm.pop_doc with
  | (.error e, vm1) => .err e vm1
  | (.ok d, vm1) => .ok (vm1.push (g d))

/-- Pop `doc2`, pop `doc1` with `pop_doc`, push `g doc1 doc2`. -/
def binDocWord (g : Document → Document → Value) (vm : VM) : ExecRes :=
  match vm.pop_doc with
  | (.error e, vm1) => .err e vm1
  | (.ok d2, vm1) =>
    match vm1.pop_doc with
    | (.error e, vm2) => .err e vm2
    | (.ok d1, vm2) => .ok (vm2.push (g d1 d2))

/-- Push a constant value (`true`, `false`, `nil`, `list-new`,
`bundle-new`). -/
def pushWord (v : Value) (vm : VM) : ExecRes := .ok (vm.push v)

def builtin_dup (vm : VM) : ExecRes :=
  match vm.pop with
  | .error e => .err e vm
  | .ok (val, vm1) => .ok ((vm1.push val).push val)

def builtin_drop (vm : VM) : ExecRes :=
  match vm.pop with
  | .error e => .err e vm
  | .ok (_, vm1) => .ok vm1

def builtin_swap (vm : VM) : ExecRes :=
  match vm.pop with
  | .error e => .err e vm
  | .ok (b, vm1) =>
    match vm1.pop with
    | .error e => .err e vm1
    | .ok (a, vm2) => .ok ((vm2.push b).push a)

def builtin_over (vm : VM) : ExecRes :=
  match vm.pop with
  | .error e => .err e vm
  | .ok (b, vm1) =>
    match vm1.pop with
    | .error e => .err e vm1
    | .ok (a, vm2) => .ok (((vm2.push a).push b).push a)

def builtin_rot (vm : VM) : ExecRes :=
  match vm.pop with
  | .error e => .err e vm
  | .ok (c, vm1) =>
    match vm1.pop with
    | .error e => .err e vm1
    | .ok (b, vm2) =>
      match vm2.pop with
      | .error e => .err e vm2
      | .ok (a, vm3) => .ok (((vm3.push b).push c).push a)

def builtin_nip (vm : VM) : ExecRes :=
  match vm.pop with
  | .error e => .err e vm
  | .ok (b, vm1) =>
    match vm1.pop with
    | .error e => .err e vm1
    | .ok (_, vm2) => .ok (vm2.push b)

def builtin_tuck (vm : VM) : ExecRes :=
  match vm.pop with
  | .error e => .err e vm
  | .ok (b, vm1) =>
    match vm1.pop with
    | .error e => .err e vm1
    | .ok (a, vm2) => .ok (((vm2.push b).push a).push b)

def builtin_depth (vm : VM) : ExecRes :=
  .ok (vm.push (.int (vm.depth : Int)))

def builtin_add : VM → ExecRes := binIntWord (fun a b => .int (a + b))

def builtin_sub : VM → ExecRes := binIntWord (fun a b => .int (a - b))

def builtin_mul : VM → ExecRes := binIntWord (fun a b => .int (a * b))

/-- `/`: Rust `i64` division truncates toward zero (`Int.tdiv`).  At
`(i64::MIN, -1)` the quotient overflows `i64` and Rust panics in every
build profile ("attempt to divide with overflow"). -/
def builtin_div (vm : VM) : ExecRes :=
  match vm.pop_int with
  | (.error e, vm1) => .err e vm1
  | (.ok b, vm1) =>
    match vm1.pop_int with
    | (.error e, vm2) => .err e vm2
    | (.ok a, vm2) =>
      if b == 0 then .err (.runtimeError "Division by zero") vm2
      else if a == -9223372036854775808 && b == -1 then
        .panic "attempt to divide with overflow"
      else .ok (vm2.push (.int (Int.tdiv a b)))

/-- `mod`: Rust `%` is the remainder of truncating division (`Int.tmod`).
At `(i64::MIN, -1)` the operation overflows and Rust panics in every build
profile ("attempt to calculate the remainder with overflow"). -/
def builtin_mod (vm : VM) : ExecRes :=
  match vm.pop_int with
  | (.error e, vm1) => .err e vm1
  | (.ok b, vm1) =>
    match vm1.pop_int with
    | (.error e, vm2) => .err e vm2
    | (.ok a, vm2) =>
      if b == 0 then .err (.runtimeError "Modulo by zero") vm2
      else if a == -9223372036854775808 && b == -1 then
        .panic "attempt to calculate the remainder with overflow"
      else .ok (vm2.push (.int (Int.tmod a b)))

def builtin_abs : VM → ExecRes := unaryIntWord (fun a => .int (|a|))

def builtin_negate : VM → ExecRes := unaryIntWord (fun a => .int (-a))

def builtin_eq (vm : VM) : ExecRes :=
  match vm.pop with
  | .error e => .err e vm
  | .ok (b, vm1) =>
    match vm1.pop with
    | .error e => .err e vm1
    | .ok (a, vm2) =>
      let result :=
        match a, b with
        | .int x, .int y => x == y
        | .str x, .str y => x == y
        | .bool x, .bool y => x == y
        | .hash x, .hash y => x == y
        | .nil, .nil => true
        | _, _ => false
      .ok (vm2.push (.bool result))

def builtin_not (vm : VM) : ExecRes :=
  match vm.pop_bool with
  | (.error e, vm1) => .err e vm1
  | (.ok a, vm1) => .ok (vm1.push (.bool (!a)))

/-- `<>` in the source calls `builtin_eq` then `builtin_not`. -/
def builtin_neq (vm : VM) : ExecRes :=
  match builtin_eq vm with
  | .ok vm1 => builtin_not vm1
  | r => r

def builtin_lt : VM → ExecRes := binIntWord (fun a b => .bool (decide (a < b)))

def builtin_gt : VM → ExecRes := binIntWord (fun a b => .bool (decide (a > b)))

def builtin_le : VM → ExecRes := binIntWord (fun a b => .bool (decide (a ≤ b)))

def builtin_ge : VM → ExecRes := binIntWord (fun a b => .bool (decide (a ≥ b)))

def builtin_and : VM → ExecRes := binBoolWord (fun a b => .bool (a && b))

def builtin_or : VM → ExecRes := binBoolWord (fun a b => .bool (a || b))

def builtin_true : VM → ExecRes := pushWord (.bool true)

def builtin_false : VM → ExecRes := pushWord (.bool false)

def builtin_nil : VM → ExecRes := pushWord .nil

def builtin_str_concat : VM → ExecRes := binStrWord (fun a b => .str (a ++ b))

def builtin_str_contains : VM → ExecRes :=
  binStrWord (fun haystack needle => .bool (strContains haystack needle))

def builtin_str_starts : VM → ExecRes :=
  binStrWord (fun s pre => .bool (strStarts s pre))

def builtin_str_ends : VM → ExecRes :=
  binStrWord (fun s suffix => .bool (strEnds s suffix))

def builtin_str_split : VM → ExecRes :=
  binStrWord (fun s delim => .list ((strSplit s delim).map .str))

def builtin_str_trim : VM → ExecRes := unaryStrWord (fun s => .str (strTrim s))

/-- `to_uppercase` modelled with ASCII `Char.toUpper` (see header). -/
def builtin_str_upper : VM → ExecRes :=
  unaryStrWord (fun s => .str ((s.toList.map Char.toUpper).asString))

/-- `to_lowercase` modelled with ASCII `Char.toLower` (see header). -/
def builtin_str_lower : VM → ExecRes :=
  unaryStrWord (fun s => .str ((s.toList.map Char.toLower).asString))

def builtin_str_len : VM → ExecRes :=
  unaryStrWord (fun s => .int (byteLen s : Int))

def builtin_list_new : VM → ExecRes := pushWord (.list [])

def builtin_list_push (vm : VM) : ExecRes :=
  match vm.pop with
  | .error e => .err e vm
  | .ok (item, vm1) =>
    match vm1.pop_list with
    | (.error e, vm2) => .err e vm2
    | (.ok l, vm2) => .ok (vm2.push (.list (l ++ [item])))

/-- `Vec::pop` removes from the end. -/
def builtin_list_pop (vm : VM) : ExecRes :=
  match vm.pop_list with
  | (.error e, vm1) => .err e vm1
  | (.ok l, vm1) =>
    match l.getLast? with
    | some item => .ok ((vm1.push (.list l.dropLast)).push item)
    | none => .ok ((vm1.push (.list l)).push .nil)

/-- The index is popped as `i64` and cast with `as usize`; the crate is a
wasm32 (`wasm_bindgen`) module, so `usize` is 32 bits and the cast
truncates modulo `2^32`.  An index that lands out of range yields `Nil`. -/
def builtin_list_get (vm : VM) : ExecRes :=
  match vm.pop_int with
  | (.error e, vm1) => .err e vm1
  | (.ok i, vm1) =>
    let idx := (i % 4294967296).toNat
    match vm1.pop_list with
    | (.error e, vm2) => .err e vm2
    | (.ok l, vm2) =>
      match l[idx]? with
      | some item => .ok (vm2.push item)
      | none => .ok (vm2.push .nil)

def builtin_list_len (vm : VM) : ExecRes :=
  match vm.pop_list with
  | (.error e, vm1) => .err e vm1
  | (.ok l, vm1) => .ok ((vm1.push (.list l)).push (.int (l.length : Int)))

def builtin_doc_hash : VM → ExecRes := unaryDocWord (fun d => .hash d.hash)

def builtin_doc_type : VM → ExecRes :=
  unaryDocWord (fun d => .str d.metadata.document_type)

def builtin_doc_path : VM → ExecRes :=
  unaryDocWord (fun d => .str d.metadata.path)

def builtin_doc_content : VM → ExecRes := unaryDocWord (fun d => .str d.content)

def builtin_doc_version : VM → ExecRes :=
  unaryDocWord (fun d =>
    match d.metadata.version with
    | some v => .str v
    | none => .nil)

def builtin_doc_canonical : VM → ExecRes :=
  unaryDocWord (fun d => .bool d.is_canonical)

def builtin_docs_same_hash : VM → ExecRes :=
  binDocWord (fun d1 d2 => .bool (d1.hash == d2.hash))

def builtin_docs_same_type : VM → ExecRes :=
  binDocWord (fun d1 d2 =>
    .bool (d1.metadata.document_type == d2.metadata.document_type))

def builtin_bundle_new : VM → ExecRes := pushWord (.bundle Bundle.new)

def builtin_bundle_add (vm : VM) : ExecRes :=
  match vm.pop_doc with
  | (.error e, vm1) => .err e vm1
  | (.ok doc, vm1) =>
    match vm1.pop_bundle with
    | (.error e, vm2) => .err e vm2
    | (.ok bundle, vm2) => .ok (vm2.push (.bundle (bundle.add doc)))

def builtin_bundle_docs (vm : VM) : ExecRes :=
  match vm.pop_bundle with
  | (.error e, vm1) => .err e vm1
  | (.ok bundle, vm1) => .ok (vm1.push (.list (bundle.documents.map .doc)))

def builtin_bundle_count (vm : VM) : ExecRes :=
  match vm.pop_bundle with
  | (.error e, vm1) => .err e vm1
  | (.ok bundle, vm1) =>
    .ok ((vm1.push (.bundle bundle)).push (.int (bundle.count : Int)))

def builtin_bundle_has_type (vm : VM) : ExecRes :=
  match vm.pop_str with
  | (.error e, vm1) => .err e vm1
  | (.ok doc_type, vm1) =>
    match vm1.pop_bundle with
    | (.error e, vm2) => .err e vm2
    | (.ok bundle, vm2) =>
      let has := bundle.has_type doc_type
      .ok ((vm2.push (.bundle bundle)).push (.bool has))

def builtin_bundle_get_type (vm : VM) : ExecRes :=
  match vm.pop_str with
  | (.error e, vm1) => .err e vm1
  | (.ok doc_type, vm1) =>
    match vm1.pop_bundle with
    | (.error e, vm2) => .err e vm2
    | (.ok bundle, vm2) =>
      match bundle.get_type doc_type with
      | some doc => .ok ((vm2.push (.bundle bundle)).push (.doc doc))
      | none => .ok ((vm2.push (.bundle bundle)).push .nil)

def builtin_pack_new : VM → ExecRes :=
  unaryStrWord (fun name => .pack (PackSpec.new name))

def builtin_pack_require (vm : VM) : ExecRes :=
  match vm.pop_str with
  | (.error e, vm1) => .err e vm1
  | (.ok doc_type, vm1) =>
    match vm1.pop_pack with
    | (.error e, vm2) => .err e vm2
    | (.ok pack, vm2) => .ok (vm2.push (.pack (pack.require doc_type)))

/-- The Rust method called here is `PackSpec::optional`; in the model it is
named `optional_type` because `optional` is the structure field. -/
def builtin_pack_optional (vm : VM) : ExecRes :=
  match vm.pop_str with
  | (.error e, vm1) => .err e vm1
  | (.ok doc_type, vm1) =>
    match vm1.pop_pack with
    | (.error e, vm2) => .err e vm2
    | (.ok pack, vm2) => .ok (vm2.push (.pack (pack.optional_type doc_type)))

def builtin_pack_rule (vm : VM) : ExecRes :=
  match vm.pop_quotation with
  | (.error e, vm1) => .err e vm1
  | (.ok body, vm1) =>
    match vm1.pop_str with
    | (.error e, vm2) => .err e vm2
    | (.ok name, vm2) =>
      match vm2.pop_pack with
      | (.error e, vm3) => .err e vm3
      | (.ok pack, vm3) => .ok (vm3.push (.pack (pack.add_rule name body)))

def builtin_error (vm : VM) : ExecRes :=
  match vm.pop_str with
  | (.error e, vm1) => .err e vm1
  | (.ok msg, vm1) => .ok (vm1.report_error msg)

def builtin_warn (vm : VM) : ExecRes :=
  match vm.pop_str with
  | (.error e, vm1) => .err e vm1
  | (.ok msg, vm1) => .ok (vm1.report_warning msg)

def builtin_suggest (vm : VM) : ExecRes :=
  match vm.pop_str with
  | (.error e, vm1) => .err e vm1
  | (.ok msg, vm1) => .ok (vm1.report_suggestion msg)

def builtin_require (vm : VM) : ExecRes :=
  match vm.pop_str with
  | (.error e, vm1) => .err e vm1
  | (.ok msg, vm1) =>
    match vm1.pop_bool with
    | (.error e, vm2) => .err e vm2
    | (.ok cond, vm2) =>
      if cond then .ok vm2 else .ok (vm2.report_error msg)

def builtin_hash_content : VM → ExecRes :=
  unaryStrWord (fun content => .hash (sha256hex content))

/-- `.s` prints to stderr only. -/
def builtin_print_stack (vm : VM) : ExecRes := .ok vm

/-- `.v` prints to stderr only. -/
def builtin_print_validation (vm : VM) : ExecRes := .ok vm

/-! ## Quotation-invoking built-ins

These receive `recurse`, the model of `VM::call_quotation` (which in the
source re-enters `VM::execute`); the execution loop below passes itself,
at its current fuel, as `recurse`. -/

def builtin_if (recurse : List Token → VM → ExecRes) (vm : VM) : ExecRes :=
  match vm.pop_quotation with
  | (.error e, vm1) => .err e vm1
  | (.ok else_branch, vm1) =>
    match vm1.pop_quotation with
    | (.error e, vm2) => .err e vm2
    | (.ok then_branch, vm2) =>
      match vm2.pop_bool with
      | (.error e, vm3) => .err e vm3
      | (.ok cond, vm3) =>
        if cond then recurse then_branch vm3 else recurse else_branch vm3

def builtin_when (recurse : List Token → VM → ExecRes) (vm : VM) : ExecRes :=
  match vm.pop_quotation with
  | (.error e, vm1) => .err e vm1
  | (.ok body, vm1) =>
    match vm1.pop_bool with
    | (.error e, vm2) => .err e vm2
    | (.ok cond, vm2) => if cond then recurse body vm2 else .ok vm2

def builtin_unless (recurse : List Token → VM → ExecRes) (vm : VM) : ExecRes :=
  match vm.pop_quotation with
  | (.error e, vm1) => .err e vm1
  | (.ok body, vm1) =>
    match vm1.pop_bool with
    | (.error e, vm2) => .err e vm2
    | (.ok cond, vm2) => if !cond then recurse body vm2 else .ok vm2

def builtin_call (recurse : List Token → VM → ExecRes) (vm : VM) : ExecRes :=
  match vm.pop_quotation with
  | (.error e, vm1) => .err e vm1
  | (.ok quotation, vm1) => recurse quotation vm1

/-- The `for item in list` loop of `builtin_each` (also the loop shape of
`builtin_reduce`, whose source loop is literally identical after the
initial value is pushed): push the item, run the body, stop on error. -/
def eachLoop (recurse : List Token → VM → ExecRes) (body : List Token) :
    List Value → VM → ExecRes
  | [], vm => .ok vm
  | item :: items, vm =>
    match recurse body (vm.push item) with
    | .ok vm2 => eachLoop recurse body items vm2
    | r => r

def builtin_each (recurse : List Token → VM → ExecRes) (vm : VM) : ExecRes :=
  match vm.pop_quotation with
  | (.error e, vm1) => .err e vm1
  | (.ok body, vm1) =>
    match vm1.pop_list with
    | (.error e, vm2) => .err e vm2
    | (.ok list, vm2) => eachLoop recurse body list vm2

/-- The loop of `builtin_map`: push the item, run the body, pop the result
into the accumulator. -/
def mapLoop (recurse : List Token → VM → ExecRes) (body : List Token) :
    List Value → List Value → VM → ExecRes
  | [], acc, vm => .ok (vm.push (.list acc))
  | item :: items, acc, vm =>
    match recurse body (vm.push item) with
    | .ok vm2 =>
      match vm2.pop with
      | .error e => .err e vm2
      | .ok (v, vm3) => mapLoop recurse body items (acc ++ [v]) vm3
    | r => r

def builtin_map (recurse : List Token → VM → ExecRes) (vm : VM) : ExecRes :=
  match vm.pop_quotation with
  | (.error e, vm1) => .err e vm1
  | (.ok body, vm1) =>
    match vm1.pop_list with
    | (.error e, vm2) => .err e vm2
    | (.ok list, vm2) => mapLoop recurse body list [] vm2

/-- The loop of `builtin_filter`: push a clone of the item, run the body,
pop a boolean, keep the item if it was true. -/
def filterLoop (recurse : List Token → VM → ExecRes) (body : List Token) :
    List Value → List Value → VM → ExecRes
  | [], acc, vm => .ok (vm.push (.list acc))
  | item :: items, acc, vm =>
    match recurse body (vm.push item) with
    | .ok vm2 =>
      match vm2.pop_bool with
      | (.error e, vm3) => .err e vm3
      | (.ok keep, vm3) =>
        filterLoop recurse body items (if keep then acc ++ [item] else acc) vm3
    | r => r

def builtin_filter (recurse : List Token → VM → ExecRes) (vm : VM) : ExecRes :=
  match vm.pop_quotation with
  | (.error e, vm1) => .err e vm1
  | (.ok body, vm1) =>
    match vm1.pop_list with
    | (.error e, vm2) => .err e vm2
    | (.ok list, vm2) => filterLoop recurse body list [] vm2

def builtin_reduce (recurse : List Token → VM → ExecRes) (vm : VM) : ExecRes :=
  match vm.pop_quotation with
  | (.error e, vm1) => .err e vm1
  | (.ok body, vm1) =>
    match vm1.pop with
    | .error e => .err e vm1
    | .ok (init, vm2) =>
      match vm2.pop_list with
      | (.error e, vm3) => .err e vm3
      | (.ok list, vm3) => eachLoop recurse body list (vm3.push init)

/-! ## `bundle-validate` -/

/-- An apostrophe character, written by code point to keep the source free
of string-embedded quote characters. -/
def squote : String := String.singleton (Char.ofNat 39)

/-- The message `format!("Rule '{}' failed: {}", rule.name, e)`. -/
def ruleFailedMsg (name : String) (e : Error) : String :=
  "Rule " ++ squote ++ name ++ squote ++ " failed: " ++ e.toMessage

/-- The required-documents loop of `builtin_bundle_validate`. -/
def checkRequired (bundle : Bundle) : List String → VM → VM
  | [], vm => vm
  | req :: rest, vm =>
    checkRequired bundle rest
      (if bundle.has_type req then vm
       else vm.report_error ("Missing required document: " ++ req))

/-- The outcome of the rules loop: it completes with a state, runs out of
fuel (model artifact), or a rule body panics — a panic is not an `Error`,
is not caught by the loop's `if let Err(e)`, and aborts the whole run. -/
inductive RulesOut where
  | done (vm : VM)
  | timeout
  | panic (msg : String)

/-- The rules loop of `builtin_bundle_validate`: push a clone of the
bundle, run the rule body, downgrade an execution error to a validation
error, then pop one value regardless (`let _ = vm.pop();`). -/
def runRules (recurse : List Token → VM → ExecRes) (bundle : Bundle) :
    List Rule → VM → RulesOut
  | [], vm => .done vm
  | rule :: rest, vm =>
    match recurse rule.body (vm.push (.bundle bundle)) with
    | .ok vm2 => runRules recurse bundle rest vm2.dropTop
    | .err e vm2 =>
      runRules recurse bundle rest
        ((vm2.report_error (ruleFailedMsg rule.name e)).dropTop)
    | .timeout => .timeout
    | .panic m => .panic m

def builtin_bundle_validate (recurse : List Token → VM → ExecRes) (vm : VM) :
    ExecRes :=
  match vm.pop_pack with
  | (.error e, vm1) => .err e vm1
  | (.ok pack, vm1) =>
    match vm1.pop_bundle with
    | (.error e, vm2) => .err e vm2
    | (.ok bundle, vm2) =>
      let vm3 := checkRequired bundle pack.required vm2.reset_validation
      match runRules recurse bundle pack.rules vm3 with
      | .timeout => .timeout
      | .panic m => .panic m
      | .done vm4 =>
        let result := vm4.validation
        .ok ((vm4.push (.bundle bundle)).push (.validationResult result))

/-- `pack-ship` is `builtin_bundle_validate`. -/
def builtin_pack_ship (recurse : List Token → VM → ExecRes) (vm : VM) :
    ExecRes :=
  builtin_bundle_validate recurse vm

/-- Dispatch a native word (`WordDef::Native(func) => func(self)`). -/
def execNative (recurse : List Token → VM → ExecRes) :
    NativeWord → VM → ExecRes
  | .dup, vm => builtin_dup vm
  | .drop, vm => builtin_drop vm
  | .swap, vm => builtin_swap vm
  | .over, vm => builtin_over vm
  | .rot, vm => builtin_rot vm
  | .nip, vm => builtin_nip vm
  | .tuck, vm => builtin_tuck vm
  | .depth, vm => builtin_depth vm
  | .add, vm => builtin_add vm
  | .sub, vm => builtin_sub vm
  | .mul, vm => builtin_mul vm
  | .div, vm => builtin_div vm
  | .mod, vm => builtin_mod vm
  | .abs, vm => builtin_abs vm
  | .negate, vm => builtin_negate vm
  | .eq, vm => builtin_eq vm
  | .neq, vm => builtin_neq vm
  | .lt, vm => builtin_lt vm
  | .gt, vm => builtin_gt vm
  | .le, vm => builtin_le vm
  | .ge, vm => builtin_ge vm
  | .and_, vm => builtin_and vm
  | .or_, vm => builtin_or vm
  | .not_, vm => builtin_not vm
  | .true_, vm => builtin_true vm
  | .false_, vm => builtin_false vm
  | .nil_, vm => builtin_nil vm
  | .if_, vm => builtin_if recurse vm
  | .when_, vm => builtin_when recurse vm
  | .unless_, vm => builtin_unless recurse vm
  | .call_, vm => builtin_call recurse vm
  | .str_concat, vm => builtin_str_concat vm
  | .str_contains, vm => builtin_str_contains vm
  | .str_starts, vm => builtin_str_starts vm
  | .str_ends, vm => builtin_str_ends vm
  | .str_split, vm => builtin_str_split vm
  | .str_trim, vm => builtin_str_trim vm
  | .str_upper, vm => builtin_str_upper vm
  | .str_lower, vm => builtin_str_lower vm
  | .str_len, vm => builtin_str_len vm
  | .list_new, vm => builtin_list_new vm
  | .list_push, vm => builtin_list_push vm
  | .list_pop, vm => builtin_list_pop vm
  | .list_get, vm => builtin_list_get vm
  | .list_len, vm => builtin_list_len vm
  | .each, vm => builtin_each recurse vm
  | .map, vm => builtin_map recurse vm
  | .filter, vm => builtin_filter recurse vm
  | .reduce, vm => builtin_reduce recurse vm
  | .doc_hash, vm => builtin_doc_hash vm
  | .doc_type, vm => builtin_doc_type vm
  | .doc_path, vm => builtin_doc_path vm
  | .doc_content, vm => builtin_doc_content vm
  | .doc_version, vm => builtin_doc_version vm
  | .doc_canonical, vm => builtin_doc_canonical vm
  | .docs_same_hash, vm => builtin_docs_same_hash vm
  | .docs_same_type, vm => builtin_docs_same_type vm
  | .bundle_new, vm => builtin_bundle_new vm
  | .bundle_add, vm => builtin_bundle_add vm
  | .bundle_docs, vm => builtin_bundle_docs vm
  | .bundle_count, vm => builtin_bundle_count vm
  | .bundle_has_type, vm => builtin_bundle_has_type vm
  | .bundle_get_type, vm => builtin_bundle_get_type vm
  | .bundle_validate, vm => builtin_bundle_validate recurse vm
  | .pack_new, vm => builtin_pack_new vm
  | .pack_require, vm => builtin_pack_require vm
  | .pack_optional, vm => builtin_pack_optional vm
  | .pack_rule, vm => builtin_pack_rule vm
  | .pack_ship, vm => builtin_pack_ship recurse vm
  | .error_bang, vm => builtin_error vm
  | .warn_bang, vm => builtin_warn vm
  | .suggest_bang, vm => builtin_suggest vm
  | .require_bang, vm => builtin_require vm
  | .hash_content, vm => builtin_hash_content vm
  | .print_stack, vm => builtin_print_stack vm
  | .print_validation, vm => builtin_print_validation vm

/-! ## The execution loop (`VM::execute`) -/

/-- The forward scan for the matching `QuoteEnd` in `VM::execute`'s
`QuoteStart` arm, honouring nesting depth.  Returns the interior tokens and
the tokens after the matching `QuoteEnd`, or `none` if the bracket is
unmatched. -/
def scanQuote : List Token → Nat → Option (List Token × List Token)
  | [], _ => none
  | t :: rest, depth =>
    match t with
    | .quoteStart =>
      match scanQuote rest (depth + 1) with
      | none => none
      | some (q, r) => some (.quoteStart :: q, r)
    | .quoteEnd =>
      if depth = 1 then some ([], rest)
      else
        match scanQuote rest (depth - 1) with
        | none => none
        | some (q, r) => some (.quoteEnd :: q, r)
    | _ =>
      match scanQuote rest depth with
      | none => none
      | some (q, r) => some (t :: q, r)

/-- `VM::execute`, with fuel.  One unit of fuel is spent per processed
token and per re-entry into the loop (user-word bodies and quotations run
through `execute fuel`, the `recurse` argument of the native words).  The
source's index loop is expressed as recursion on the token list:

* literals push the corresponding value;
* `QuoteStart` collects up to the matching `QuoteEnd` and pushes a
  `Quotation` (`scanQuote`);
* `DefStart` reads the word name, discards an optional stack-effect
  section, collects the body up to `DefEnd` and installs it;
* `Word` is looked up and dispatched (`VM::execute_word`);
* comments, stack-effect markers and stray closers are skipped. -/
def execute : Nat → List Token → VM → ExecRes
  | 0, _, _ => .timeout
  | _ + 1, [], vm => .ok vm
  | fuel + 1, token :: rest, vm =>
    match token with
    | .int n => execute fuel rest (vm.push (.int n))
    | .float f => execute fuel rest (vm.push (.float f))
    | .str s => execute fuel rest (vm.push (.str s))
    | .quoteStart =>
      match scanQuote rest 1 with
      | none => .err (.parseError "Unmatched quotation bracket") vm
      | some (q, rest2) => execute fuel rest2 (vm.push (.quotation q))
    | .defStart =>
      match rest with
      | .word name :: rest2 =>
        let rest3 :=
          match rest2 with
          | .stackEffectStart :: _ =>
            (rest2.dropWhile (fun t => t != Token.stackEffectEnd)).drop 1
          | _ => rest2
        let body := rest3.takeWhile (fun t => t != Token.defEnd)
        match rest3.dropWhile (fun t => t != Token.defEnd) with
        | .defEnd :: rest4 => execute fuel rest4 (vm.define_word name body)
        | _ => .err (.parseError "Unterminated word definition") vm
      | _ => .err (.parseError "Expected word name after :") vm
    | .word name =>
      match dictLookup name vm.dictionary with
      | none => .err (.undefinedWord name) vm
      | some (.native w) =>
        match execNative (execute fuel) w vm with
        | .ok vm2 => execute fuel rest vm2
        | .err e vm2 => .err e vm2
        | .timeout => .timeout
        | .panic m => .panic m
      | some (.user body) =>
        match execute fuel body vm with
        | .ok vm2 => execute fuel rest vm2
        | .err e vm2 => .err e vm2
        | .timeout => .timeout
        | .panic m => .panic m
    | .comment _ => execute fuel rest vm
    | .stackEffectStart => execute fuel rest vm
    | .stackEffectEnd => execute fuel rest vm
    | .quoteEnd => execute fuel rest vm
    | .defEnd => execute fuel rest vm

set_option maxHeartbeats 1600000 in
/-- The dictionary contents after `register_builtins`, in registration
order (all names are distinct, so the association list looks up exactly as
the `HashMap` does). -/
def builtinsDict : Dictionary :=
  [("dup", .native .dup), ("drop", .native .drop), ("swap", .native .swap),
   ("over", .native .over), ("rot", .native .rot), ("nip", .native .nip),
   ("tuck", .native .tuck), ("depth", .native .depth),
   ("+", .native .add), ("-", .native .sub), ("*", .native .mul),
   ("/", .native .div), ("mod", .native .mod), ("abs", .native .abs),
   ("negate", .native .negate),
   ("=", .native .eq), ("<>", .native .neq), ("<", .native .lt),
   (">", .native .gt), ("<=", .native .le), (">=", .native .ge),
   ("and", .native .and_), ("or", .native .or_), ("not", .native .not_),
   ("true", .native .true_), ("false", .native .false_),
   ("nil", .native .nil_),
   ("if", .native .if_), ("when", .native .when_),
   ("unless", .native .unless_), ("call", .native .call_),
   ("str-concat", .native .str_concat),
   ("str-contains?", .native .str_contains),
   ("str-starts?", .native .str_starts), ("str-ends?", .native .str_ends),
   ("str-split", .native .str_split), ("str-trim", .native .str_trim),
   ("str-upper", .native .str_upper), ("str-lower", .native .str_lower),
   ("str-len", .native .str_len),
   ("list-new", .native .list_new), ("list-push", .native .list_push),
   ("list-pop", .native .list_pop), ("list-get", .native .list_get),
   ("list-len", .native .list_len),
   ("each", .native .each), ("map", .native .map),
   ("filter", .native .filter), ("reduce", .native .reduce),
   ("doc-hash", .native .doc_hash), ("doc-type", .native .doc_type),
   ("doc-path", .native .doc_path), ("doc-content", .native .doc_content),
   ("doc-version", .native .doc_version),
   ("doc-canonical?", .native .doc_canonical),
   ("docs-same-hash?", .native .docs_same_hash),
   ("docs-same-type?", .native .docs_same_type),
   ("bundle-new", .native .bundle_new), ("bundle-add", .native .bundle_add),
   ("bundle-docs", .native .bundle_docs),
   ("bundle-count", .native .bundle_count),
   ("bundle-has-type?", .native .bundle_has_type),
   ("bundle-get-type", .native .bundle_get_type),
   ("bundle-validate", .native .bundle_validate),
   ("pack-new", .native .pack_new), ("pack-require", .native .pack_require),
   ("pack-optional", .native .pack_optional),
   ("pack-rule", .native .pack_rule), ("pack-ship", .native .pack_ship),
   ("error!", .native .error_bang), ("warn!", .native .warn_bang),
   ("suggest!", .native .suggest_bang), ("require!", .native .require_bang),
   ("hash-content", .native .hash_content),
   (".s", .native .print_stack), (".v", .native .print_validation)]

/-- `VM::new`. -/
def VM.new : VM :=
  { stack := []
    return_stack := []
    dictionary := builtinsDict
    current_bundle := none
    validation := ValidationResult.default
    debug := false }

/-! ## Format detection (`reconforth/formats.rs`) -/

/-- `enum Format`. -/
inductive Format where
  | plainText
  | markdown
  | asciiDoc
  | djot
  | orgMode
  | reStructuredText
  | typst
  | unknown
  deriving DecidableEq, Repr

/-- The conditions of `detect_format`'s branches, in source order.  Brace
characters inside string literals are written with `\x7b` escapes. -/
def orgCond1 (t : String) : Bool :=
  strStarts t "#+" || strContains t "\n#+"

def orgCond2 (t : String) : Bool :=
  (strStarts t "* " || strContains t "\n* ") &&
  (strContains t "#+TITLE:" || strContains t "#+AUTHOR:")

def asciidocCond (t : String) : Bool :=
  strStarts t "= " || strStarts t ":toc:" || strContains t "\n= " ||
  strContains t "----\n"

def typstCond (t : String) : Bool :=
  strStarts t "#" && (strContains t "#\x7b" || strContains t "#let")

def djotCond (t : String) : Bool :=
  strContains t "\x7b." || strContains t "[^"

def rstDirectiveCond (t : String) : Bool :=
  strContains t ".. " &&
  (strContains t "::" || strContains t ".. code-block::")

def isUnderlineChar (c : Char) : Bool :=
  c == '=' || c == '-' || c == '~'

/-- The guard of the RST underline block: some line is all `=`/`-`/`~` and
has byte length strictly greater than 3. -/
def rstGate (t : String) : Bool :=
  (strLines t).any (fun l => l.toList.all isUnderlineChar && byteLen l > 3)

/-- The inner `for i in 1..lines.len()` scan: some line (with no length
requirement of its own) is all `=`/`-`/`~` and at least as long as the line
before it. -/
def rstScan (t : String) : Bool :=
  let lines := strLines t
  (lines.zip lines.tail).any
    (fun p => p.2.toList.all isUnderlineChar && byteLen p.2 ≥ byteLen p.1)

def markdownCond (t : String) : Bool :=
  strStarts t "# " || strStarts t "## " || strContains t "\n# " ||
  strContains t "```" || strContains t "[](" || strContains t "!["

/-- `detect_format`: the first matching heuristic wins. -/
def detect_format (content : String) : Format :=
  let trimmed := strTrim content
  if orgCond1 trimmed then .orgMode
  else if orgCond2 trimmed then .orgMode
  else if asciidocCond trimmed then .asciiDoc
  else if typstCond trimmed then .typst
  else if djotCond trimmed then .djot
  else if rstDirectiveCond trimmed then .reStructuredText
  else if rstGate trimmed && rstScan trimmed then .reStructuredText
  else if markdownCond trimmed then .markdown
  else .plainText

/-! ## `normalize_content` (`lib.rs`) -/

/-- `Vec::join` over character lists. -/
def joinSep (sep : List Char) : List (List Char) → List Char
  | [] => []
  | [x] => x
  | x :: y :: rest => x ++ sep ++ joinSep sep (y :: rest)

/-- `normalize_content`: trim, convert `\r\n` to `\n`, right-trim each
line, rejoin with `\n`, then split on `\n\n\n` and rejoin with `\n\n`. -/
def normalize_content (content : String) : String :=
  let t := replaceL "\r\n".toList "\n".toList (trimL content.toList)
  let joined := joinSep "\n".toList ((linesL t).map trimEndL)
  (joinSep "\n\n".toList (splitL "\n\n\n".toList joined)).asString

/-! ## Claim-side definitions

These definitions state properties the claims talk about; they are written
from the claims' and spec's words, to be compared with the code-side
definitions above. -/

/-- The normalization as the spec's sentence describes it, with the final
"collapse any run of three consecutive newlines to two (one pass)"
expressed as a single left-to-right replacement of `\n\n\n` by `\n\n`
(instead of the code's split-and-rejoin). -/
def normalize_content_spec (content : String) : String :=
  let t := replaceL "\r\n".toList "\n".toList (trimL content.toList)
  let joined := joinSep "\n".toList ((linesL t).map trimEndL)
  (replaceL "\n\n\n".toList "\n\n".toList joined).asString

/-- The underline pattern exactly as claim C5 words it: some line of the
trimmed content consists only of `=`/`-`/`~`, has length at least 3, and
follows a line whose length is at most the underline's length. -/
def c5_underline_pattern (content : String) : Bool :=
  let lines := strLines (strTrim content)
  (lines.zip lines.tail).any
    (fun p => p.2.toList.all isUnderlineChar && 3 ≤ byteLen p.2 &&
              byteLen p.1 ≤ byteLen p.2)

/-- The validation messages recorded by `bundle-validate`'s
required-documents phase: one error per required type the bundle lacks, in
`required` order. -/
def missingMsgs (b : Bundle) (reqs : List String) : List ValidationMessage :=
  (reqs.filter (fun t => !(b.has_type t))).map
    (fun t => ValidationMessage.new ("Missing required document: " ++ t))

/-- The accumulator `bundle-validate` holds after its reset and its
required-documents phase. -/
def requiredResult (b : Bundle) (reqs : List String) : ValidationResult :=
  ⟨(missingMsgs b reqs).isEmpty, missingMsgs b reqs, [], []⟩

/-- The C4 invariant: the accumulator's `success` flag holds exactly when
no errors have been recorded. -/
def successInv (vm : VM) : Prop :=
  vm.validation.success = vm.validation.errors.isEmpty

/-- `successInv` at the state an `ExecRes` carries (vacuous for the fuel
artifact). -/
def resInv : ExecRes → Prop
  | .ok vm => successInv vm
  | .err _ vm => successInv vm
  | .timeout => True
  | .panic _ => True

/-- The result's state (if any) carries the same validation accumulator as
the starting state — the shape of the preservation lemmas for built-ins
that never touch the accumulator. -/
def resVldEq : ExecRes → VM → Prop
  | .ok vm', vm => vm'.validation = vm.validation
  | .err _ vm', vm => vm'.validation = vm.validation
  | .timeout, _ => True
  | .panic _, _ => True

/-- VM states reachable from `VM::new` through the mutating surface: any
`execute` run (every `eval` run is an `execute` run on the lexer's output,
so quantifying over all token lists covers `eval`), plus the public
host-callable mutators of `vm.rs`. -/
inductive Reachable : VM → Prop where
  | new : Reachable VM.new
  | step_ok (fuel : Nat) (tokens : List Token) (vm vm' : VM) :
      Reachable vm → execute fuel tokens vm = .ok vm' → Reachable vm'
  | step_err (fuel : Nat) (tokens : List Token) (vm vm' : VM) (e : Error) :
      Reachable vm → execute fuel tokens vm = .err e vm' → Reachable vm'
  | load_bundle (vm : VM) (b : Bundle) :
      Reachable vm → Reachable (vm.load_bundle b)
  | push (vm : VM) (v : Value) : Reachable vm → Reachable (vm.push v)
  | pop (vm : VM) : Reachable vm → Reachable vm.dropTop
  | define_word (vm : VM) (name : String) (body : List Token) :
      Reachable vm → Reachable (vm.define_word name body)
  | register_native (vm : VM) (name : String) (w : NativeWord) :
      Reachable vm → Reachable (vm.register_native name w)
  | report_error (vm : VM) (msg : String) :
      Reachable vm → Reachable (vm.report_error msg)
  | report_warning (vm : VM) (msg : String) :
      Reachable vm → Reachable (vm.report_warning msg)
  | report_suggestion (vm : VM) (msg : String) :
      Reachable vm → Reachable (vm.report_suggestion msg)
  | reset_validation (vm : VM) : Reachable vm → Reachable vm.reset_validation
  | set_debug (vm : VM) (d : Bool) :
      Reachable vm → Reachable { vm with debug := d }

/-- The documented stack effect (number of inputs, number of outputs) of
each built-in, from the stack-effect comments of spec section 4.3.  `none`
for the words that execute quotations (whose net depth change depends on
the quotation) and for the undocumented debug words `.s`/`.v`. -/
def docEffect : NativeWord → Option (Nat × Nat)
  | .dup => some (1, 2)
  | .drop => some (1, 0)
  | .swap => some (2, 2)
  | .over => some (2, 3)
  | .rot => some (3, 3)
  | .nip => some (2, 1)
  | .tuck => some (2, 3)
  | .depth => some (0, 1)
  | .add => some (2, 1)
  | .sub => some (2, 1)
  | .mul => some (2, 1)
  | .div => some (2, 1)
  | .mod => some (2, 1)
  | .abs => some (1, 1)
  | .negate => some (1, 1)
  | .eq => some (2, 1)
  | .neq => some (2, 1)
  | .lt => some (2, 1)
  | .gt => some (2, 1)
  | .le => some (2, 1)
  | .ge => some (2, 1)
  | .and_ => some (2, 1)
  | .or_ => some (2, 1)
  | .not_ => some (1, 1)
  | .true_ => some (0, 1)
  | .false_ => some (0, 1)
  | .nil_ => some (0, 1)
  | .str_concat => some (2, 1)
  | .str_contains => some (2, 1)
  | .str_starts => some (2, 1)
  | .str_ends => some (2, 1)
  | .str_split => some (2, 1)
  | .str_trim => some (1, 1)
  | .str_upper => some (1, 1)
  | .str_lower => some (1, 1)
  | .str_len => some (1, 1)
  | .list_new => some (0, 1)
  | .list_push => some (2, 1)
  | .list_pop => some (1, 2)
  | .list_get => some (2, 1)
  | .list_len => some (1, 2)
  | .doc_hash => some (1, 1)
  | .doc_type => some (1, 1)
  | .doc_path => some (1, 1)
  | .doc_content => some (1, 1)
  | .doc_version => some (1, 1)
  | .doc_canonical => some (1, 1)
  | .docs_same_hash => some (2, 1)
  | .docs_same_type => some (2, 1)
  | .bundle_new => some (0, 1)
  | .bundle_add => some (2, 1)
  | .bundle_docs => some (1, 1)
  | .bundle_count => some (1, 2)
  | .bundle_has_type => some (2, 2)
  | .bundle_get_type => some (2, 2)
  | .pack_new => some (1, 1)
  | .pack_require => some (2, 1)
  | .pack_optional => some (2, 1)
  | .pack_rule => some (3, 1)
  | .error_bang => some (1, 0)
  | .warn_bang => some (1, 0)
  | .suggest_bang => some (1, 0)
  | .require_bang => some (2, 0)
  | .hash_content => some (1, 1)
  | .if_ => none
  | .when_ => none
  | .unless_ => none
  | .call_ => none
  | .each => none
  | .map => none
  | .filter => none
  | .reduce => none
  | .bundle_validate => none
  | .pack_ship => none
  | .print_stack => none
  | .print_validation => none

/-- Acceptance sets of the typed pop helpers (spec section 4.2). -/
def isIntLike (v : Value) : Bool := v.as_int.isSome

def isBoolLike (v : Value) : Bool := v.as_bool.isSome

def isStrLike : Value → Bool
  | .str _ => true
  | .hash _ => true
  | _ => false

def isDocV : Value → Bool
  | .doc _ => true
  | _ => false

def isBundleV : Value → Bool
  | .bundle _ => true
  | _ => false

def isPackV : Value → Bool
  | .pack _ => true
  | _ => false

def isListV : Value → Bool
  | .list _ => true
  | _ => false

def isQuotV : Value → Bool
  | .quotation _ => true
  | _ => false

/-- Any value is accepted by the untyped `pop`. -/
def anyV (_ : Value) : Bool := true

/-- Shape predicates for a word's inputs: the top-most values, in pop
order, satisfy the given acceptance tests. -/
def needTop1 (p : Value → Bool) : List Value → Bool
  | v :: _ => p v
  | _ => false

def needTop2 (p q : Value → Bool) : List Value → Bool
  | b :: a :: _ => p b && q a
  | _ => false

def needTop3 (p q r : Value → Bool) : List Value → Bool
  | c :: b :: a :: _ => p c && q b && r a
  | _ => false

def needNothing (_ : List Value) : Bool := true

/-- "The inputs type-check": each typed pop the word performs succeeds on
the stack's top values (pop order first). -/
def inputsOk : NativeWord → List Value → Bool
  | .dup => needTop1 anyV
  | .drop => needTop1 anyV
  | .swap => needTop2 anyV anyV
  | .over => needTop2 anyV anyV
  | .rot => needTop3 anyV anyV anyV
  | .nip => needTop2 anyV anyV
  | .tuck => needTop2 anyV anyV
  | .depth => needNothing
  | .add => needTop2 isIntLike isIntLike
  | .sub => needTop2 isIntLike isIntLike
  | .mul => needTop2 isIntLike isIntLike
  | .div => needTop2 isIntLike isIntLike
  | .mod => needTop2 isIntLike isIntLike
  | .abs => needTop1 isIntLike
  | .negate => needTop1 isIntLike
  | .eq => needTop2 anyV anyV
  | .neq => needTop2 anyV anyV
  | .lt => needTop2 isIntLike isIntLike
  | .gt => needTop2 isIntLike isIntLike
  | .le => needTop2 isIntLike isIntLike
  | .ge => needTop2 isIntLike isIntLike
  | .and_ => needTop2 isBoolLike isBoolLike
  | .or_ => needTop2 isBoolLike isBoolLike
  | .not_ => needTop1 isBoolLike
  | .true_ => needNothing
  | .false_ => needNothing
  | .nil_ => needNothing
  | .str_concat => needTop2 isStrLike isStrLike
  | .str_contains => needTop2 isStrLike isStrLike
  | .str_starts => needTop2 isStrLike isStrLike
  | .str_ends => needTop2 isStrLike isStrLike
  | .str_split => needTop2 isStrLike isStrLike
  | .str_trim => needTop1 isStrLike
  | .str_upper => needTop1 isStrLike
  | .str_lower => needTop1 isStrLike
  | .str_len => needTop1 isStrLike
  | .list_new => needNothing
  | .list_push => needTop2 anyV isListV
  | .list_pop => needTop1 isListV
  | .list_get => needTop2 isIntLike isListV
  | .list_len => needTop1 isListV
  | .doc_hash => needTop1 isDocV
  | .doc_type => needTop1 isDocV
  | .doc_path => needTop1 isDocV
  | .doc_content => needTop1 isDocV
  | .doc_version => needTop1 isDocV
  | .doc_canonical => needTop1 isDocV
  | .docs_same_hash => needTop2 isDocV isDocV
  | .docs_same_type => needTop2 isDocV isDocV
  | .bundle_new => needNothing
  | .bundle_add => needTop2 isDocV isBundleV
  | .bundle_docs => needTop1 isBundleV
  | .bundle_count => needTop1 isBundleV
  | .bundle_has_type => needTop2 isStrLike isBundleV
  | .bundle_get_type => needTop2 isStrLike isBundleV
  | .pack_new => needTop1 isStrLike
  | .pack_require => needTop2 isStrLike isPackV
  | .pack_optional => needTop2 isStrLike isPackV
  | .pack_rule => needTop3 isQuotV isStrLike isPackV
  | .error_bang => needTop1 isStrLike
  | .warn_bang => needTop1 isStrLike
  | .suggest_bang => needTop1 isStrLike
  | .require_bang => needTop2 isStrLike isBoolLike
  | .hash_content => needTop1 isStrLike
  | _ => fun _ => false

/-- The run-time side conditions a word checks after its pops type-check:
only `/` and `mod` have one (a non-zero divisor). -/
def guardOk : NativeWord → List Value → Bool
  | .div, b :: a :: _ =>
    !(b.as_int == some 0) &&
    !(a.as_int == some (-9223372036854775808) && b.as_int == some (-1))
  | .mod, b :: a :: _ =>
    !(b.as_int == some 0) &&
    !(a.as_int == some (-9223372036854775808) && b.as_int == some (-1))
  | _, _ => true

/-- The error kinds the claim's "type or underflow error" names. -/
def isTypeOrUnderflow : Error → Bool
  | .stackUnderflow _ => true
  | .typeError _ _ => true
  | _ => false

/-! ## Concrete fixtures for witnesses and counterexamples -/

def docREADME : Document :=
  { hash := "h1"
    content := "# recon"
    metadata :=
      { path := "README.md"
        document_type := "README"
        last_modified := 0
        version := none
        canonical_source := "Inferred"
        repository := ""
        branch := "" }
    created_at := 0 }

def bundleR : Bundle := ⟨[docREADME]⟩

/-- A pack with one rule whose body `drop` consumes the bundle pushed for
it — the C2 counterexample. -/
def packDrop : PackSpec :=
  { name := "P", required := [], optional := [],
    rules := [{ name := "r", body := [.word "drop"] }] }

def vmC2 : VM := { VM.new with stack := [.pack packDrop, .bundle Bundle.new, .int 7] }

def vmDiv0 : VM := { VM.new with stack := [.int 0, .int 5] }

/-- A pack with one rule whose body raises `UndefinedWord`. -/
def packBad : PackSpec :=
  { name := "P", required := [], optional := [],
    rules := [{ name := "bad", body := [.word "no-such"] }] }

def vmC3 : VM := { VM.new with stack := [.pack packBad, .bundle bundleR] }

def packLicense : PackSpec :=
  { name := "P", required := ["LICENSE"], optional := [], rules := [] }

def vmC1 : VM := { VM.new with stack := [.pack packLicense, .bundle bundleR] }

def vmC7 : VM := { VM.new with stack := [.int 2, .int (-7)] }

def vmC9 : VM := { VM.new with stack := [.float 1, .float 1] }

def vmC10 : VM :=
  { VM.new with stack := [.int (-1), .list [.int 10, .int 20]] }

def vmC10b : VM :=
  { VM.new with stack := [.int 1, .list [.int 10, .int 20]] }

/-- `i64::MIN` over `-1`: the operand pair whose quotient and remainder
overflow `i64`. -/
def vmOvf : VM :=
  { VM.new with stack := [.int (-1), .int (-9223372036854775808)] }

/-- Index `-2^32` over a two-element list: the `as usize` truncation on
wasm32 maps it to `0`. -/
def vmC10c : VM :=
  { VM.new with stack := [.int (-4294967296), .list [.int 10, .int 20]] }

/-- The shape of the typed-pop preservation lemmas: the helper never
changes the validation accumulator (it only removes a stack value). -/
def popPreserves {γ : Type} (pop : VM → Except Error γ × VM) : Prop :=
  ∀ vm : VM, ((pop vm).2).validation = vm.validation

/-! ## Theorems -/

theorem pop_int_pos (v : Value) (hv : isIntLike v = true) (rest : List Value)
    (rs : List (List Token)) (dict : Dictionary) (cb : Option Bundle)
    (vld : ValidationResult) (dbg : Bool) :
    ∃ x, v.as_int = some x ∧
      VM.pop_int ⟨v :: rest, rs, dict, cb, vld, dbg⟩ =
        (.ok x, ⟨rest, rs, dict, cb, vld, dbg⟩) := by
  cases v <;> simp_all [VM.pop_int, isIntLike, Value.as_int]

theorem pop_int_neg (v : Value) (hv : isIntLike v = false) (rest : List Value)
    (rs : List (List Token)) (dict : Dictionary) (cb : Option Bundle)
    (vld : ValidationResult) (dbg : Bool) :
    VM.pop_int ⟨v :: rest, rs, dict, cb, vld, dbg⟩ =
      (.error (.typeError "Int" v.type_name), ⟨rest, rs, dict, cb, vld, dbg⟩) := by
  cases v <;> simp_all [VM.pop_int, isIntLike, Value.as_int, Value.type_name]

theorem pop_bool_pos (v : Value) (hv : isBoolLike v = true) (rest : List Value)
    (rs : List (List Token)) (dict : Dictionary) (cb : Option Bundle)
    (vld : ValidationResult) (dbg : Bool) :
    ∃ x, v.as_bool = some x ∧
      VM.pop_bool ⟨v :: rest, rs, dict, cb, vld, dbg⟩ =
        (.ok x, ⟨rest, rs, dict, cb, vld, dbg⟩) := by
  cases v <;> simp_all [VM.pop_bool, isBoolLike, Value.as_bool]

theorem pop_bool_neg (v : Value) (hv : isBoolLike v = false) (rest : List Value)
    (rs : List (List Token)) (dict : Dictionary) (cb : Option Bundle)
    (vld : ValidationResult) (dbg : Bool) :
    VM.pop_bool ⟨v :: rest, rs, dict, cb, vld, dbg⟩ =
      (.error (.typeError "Bool" v.type_name), ⟨rest, rs, dict, cb, vld, dbg⟩) := by
  cases v <;> simp_all [VM.pop_bool, isBoolLike, Value.as_bool, Value.type_name]

theorem pop_str_pos (v : Value) (hv : isStrLike v = true) (rest : List Value)
    (rs : List (List Token)) (dict : Dictionary) (cb : Option Bundle)
    (vld : ValidationResult) (dbg : Bool) :
    ∃ x, VM.pop_str ⟨v :: rest, rs, dict, cb, vld, dbg⟩ =
      (.ok x, ⟨rest, rs, dict, cb, vld, dbg⟩) := by
  cases v <;> simp_all [VM.pop_str, isStrLike]

theorem pop_str_neg (v : Value) (hv : isStrLike v = false) (rest : List Value)
    (rs : List (List Token)) (dict : Dictionary) (cb : Option Bundle)
    (vld : ValidationResult) (dbg : Bool) :
    VM.pop_str ⟨v :: rest, rs, dict, cb, vld, dbg⟩ =
      (.error (.typeError "Str" v.type_name), ⟨rest, rs, dict, cb, vld, dbg⟩) := by
  cases v <;> simp_all [VM.pop_str, isStrLike, Value.type_name]

theorem pop_doc_pos (v : Value) (hv : isDocV v = true) (rest : List Value)
    (rs : List (List Token)) (dict : Dictionary) (cb : Option Bundle)
    (vld : ValidationResult) (dbg : Bool) :
    ∃ x, VM.pop_doc ⟨v :: rest, rs, dict, cb, vld, dbg⟩ =
      (.ok x, ⟨rest, rs, dict, cb, vld, dbg⟩) := by
  cases v <;> simp_all [VM.pop_doc, isDocV]

theorem pop_doc_neg (v : Value) (hv : isDocV v = false) (rest : List Value)
    (rs : List (List Token)) (dict : Dictionary) (cb : Option Bundle)
    (vld : ValidationResult) (dbg : Bool) :
    VM.pop_doc ⟨v :: rest, rs, dict, cb, vld, dbg⟩ =
      (.error (.typeError "Doc" v.type_name), ⟨rest, rs, dict, cb, vld, dbg⟩) := by
  cases v <;> simp_all [VM.pop_doc, isDocV, Value.type_name]

theorem pop_bundle_pos (v : Value) (hv : isBundleV v = true) (rest : List Value)
    (rs : List (List Token)) (dict : Dictionary) (cb : Option Bundle)
    (vld : ValidationResult) (dbg : Bool) :
    ∃ x, VM.pop_bundle ⟨v :: rest, rs, dict, cb, vld, dbg⟩ =
      (.ok x, ⟨rest, rs, dict, cb, vld, dbg⟩) := by
  cases v <;> simp_all [VM.pop_bundle, isBundleV]

theorem pop_bundle_neg (v : Value) (hv : isBundleV v = false) (rest : List Value)
    (rs : List (List Token)) (dict : Dictionary) (cb : Option Bundle)
    (vld : ValidationResult) (dbg : Bool) :
    VM.pop_bundle ⟨v :: rest, rs, dict, cb, vld, dbg⟩ =
      (.error (.typeError "Bundle" v.type_name), ⟨rest, rs, dict, cb, vld, dbg⟩) := by
  cases v <;> simp_all [VM.pop_bundle, isBundleV, Value.type_name]

theorem pop_pack_pos (v : Value) (hv : isPackV v = true) (rest : List Value)
    (rs : List (List Token)) (dict : Dictionary) (cb : Option Bundle)
    (vld : ValidationResult) (dbg : Bool) :
    ∃ x, VM.pop_pack ⟨v :: rest, rs, dict, cb, vld, dbg⟩ =
      (.ok x, ⟨rest, rs, dict, cb, vld, dbg⟩) := by
  cases v <;> simp_all [VM.pop_pack, isPackV]

theorem pop_pack_neg (v : Value) (hv : isPackV v = false) (rest : List Value)
    (rs : List (List Token)) (dict : Dictionary) (cb : Option Bundle)
    (vld : ValidationResult) (dbg : Bool) :
    VM.pop_pack ⟨v :: rest, rs, dict, cb, vld, dbg⟩ =
      (.error (.typeError "Pack" v.type_name), ⟨rest, rs, dict, cb, vld, dbg⟩) := by
  cases v <;> simp_all [VM.pop_pack, isPackV, Value.type_name]

theorem pop_list_pos (v : Value) (hv : isListV v = true) (rest : List Value)
    (rs : List (List Token)) (dict : Dictionary) (cb : Option Bundle)
    (vld : ValidationResult) (dbg : Bool) :
    ∃ x, VM.pop_list ⟨v :: rest, rs, dict, cb, vld, dbg⟩ =
      (.ok x, ⟨rest, rs, dict, cb, vld, dbg⟩) := by
  cases v <;> simp_all [VM.pop_list, isListV]

theorem pop_list_neg (v : Value) (hv : isListV v = false) (rest : List Value)
    (rs : List (List Token)) (dict : Dictionary) (cb : Option Bundle)
    (vld : ValidationResult) (dbg : Bool) :
    VM.pop_list ⟨v :: rest, rs, dict, cb, vld, dbg⟩ =
      (.error (.typeError "List" v.type_name), ⟨rest, rs, dict, cb, vld, dbg⟩) := by
  cases v <;> simp_all [VM.pop_list, isListV, Value.type_name]

theorem pop_quot_pos (v : Value) (hv : isQuotV v = true) (rest : List Value)
    (rs : List (List Token)) (dict : Dictionary) (cb : Option Bundle)
    (vld : ValidationResult) (dbg : Bool) :
    ∃ x, VM.pop_quotation ⟨v :: rest, rs, dict, cb, vld, dbg⟩ =
      (.ok x, ⟨rest, rs, dict, cb, vld, dbg⟩) := by
  cases v <;> simp_all [VM.pop_quotation, isQuotV]

theorem pop_quot_neg (v : Value) (hv : isQuotV v = false) (rest : List Value)
    (rs : List (List Token)) (dict : Dictionary) (cb : Option Bundle)
    (vld : ValidationResult) (dbg : Bool) :
    VM.pop_quotation ⟨v :: rest, rs, dict, cb, vld, dbg⟩ =
      (.error (.typeError "Quotation" v.type_name), ⟨rest, rs, dict, cb, vld, dbg⟩) := by
  cases v <;> simp_all [VM.pop_quotation, isQuotV, Value.type_name]

theorem c2_binInt (g : Int → Int → Value) (vm : VM) :
    (needTop2 isIntLike isIntLike vm.stack = true →
      ∃ vm', binIntWord g vm = .ok vm' ∧
        vm'.stack.length + 2 = vm.stack.length + 1) ∧
    (needTop2 isIntLike isIntLike vm.stack = false →
      ∃ e vm', binIntWord g vm = .err e vm' ∧ isTypeOrUnderflow e = true) := by
  obtain ⟨stack, rs, dict, cb, vld, dbg⟩ := vm
  rcases stack with _ | ⟨b, _ | ⟨a, rest⟩⟩
  · exact ⟨fun h => by simp [needTop2] at h,
      fun _ => ⟨.stackUnderflow "Stack is empty", _, rfl, rfl⟩⟩
  · refine ⟨fun h => by simp [needTop2] at h, fun _ => ?_⟩
    by_cases hb : isIntLike b
    · obtain ⟨bi, hbv, hbi⟩ := pop_int_pos b hb [] rs dict cb vld dbg
      exact ⟨.stackUnderflow "Stack is empty", _,
        by simp only [binIntWord, hbi]; rfl, rfl⟩
    · simp only [Bool.not_eq_true] at hb
      exact ⟨.typeError "Int" b.type_name, _,
        by simp only [binIntWord, pop_int_neg b hb [] rs dict cb vld dbg]; rfl, rfl⟩
  · by_cases hb : isIntLike b
    · obtain ⟨bi, hbv, hbi⟩ := pop_int_pos b hb (a :: rest) rs dict cb vld dbg
      by_cases ha : isIntLike a
      · obtain ⟨ai, hav, hai⟩ := pop_int_pos a ha rest rs dict cb vld dbg
        refine ⟨fun _ => ⟨_, by simp only [binIntWord, hbi, hai]; rfl, by simp [VM.push]⟩,
                fun h => absurd h (by simp [needTop2, hb, ha])⟩
      · simp only [Bool.not_eq_true] at ha
        refine ⟨fun h => absurd h (by simp [needTop2, hb, ha]), fun _ => ?_⟩
        exact ⟨.typeError "Int" a.type_name, _,
          by simp only [binIntWord, hbi, pop_int_neg a ha rest rs dict cb vld dbg]; rfl, rfl⟩
    · simp only [Bool.not_eq_true] at hb
      refine ⟨fun h => absurd h (by simp [needTop2, hb]), fun _ => ?_⟩
      exact ⟨.typeError "Int" b.type_name, _,
        by simp only [binIntWord, pop_int_neg b hb (a :: rest) rs dict cb vld dbg]; rfl, rfl⟩

theorem c2_binBool (g : Bool → Bool → Value) (vm : VM) :
    (needTop2 isBoolLike isBoolLike vm.stack = true →
      ∃ vm', binBoolWord g vm = .ok vm' ∧
        vm'.stack.length + 2 = vm.stack.length + 1) ∧
    (needTop2 isBoolLike isBoolLike vm.stack = false →
      ∃ e vm', binBoolWord g vm = .err e vm' ∧ isTypeOrUnderflow e = true) := by
  obtain ⟨stack, rs, dict, cb, vld, dbg⟩ := vm
  rcases stack with _ | ⟨b, _ | ⟨a, rest⟩⟩
  · exact ⟨fun h => by simp [needTop2] at h,
      fun _ => ⟨.stackUnderflow "Stack is empty", _, rfl, rfl⟩⟩
  · refine ⟨fun h => by simp [needTop2] at h, fun _ => ?_⟩
    by_cases hb : isBoolLike b
    · obtain ⟨bi, hbv, hbi⟩ := pop_bool_pos b hb [] rs dict cb vld dbg
      exact ⟨.stackUnderflow "Stack is empty", _,
        by simp only [binBoolWord, hbi]; rfl, rfl⟩
    · simp only [Bool.not_eq_true] at hb
      exact ⟨.typeError "Bool" b.type_name, _,
        by simp only [binBoolWord, pop_bool_neg b hb [] rs dict cb vld dbg]; rfl, rfl⟩
  · by_cases hb : isBoolLike b
    · obtain ⟨bi, hbv, hbi⟩ := pop_bool_pos b hb (a :: rest) rs dict cb vld dbg
      by_cases ha : isBoolLike a
      · obtain ⟨ai, hav, hai⟩ := pop_bool_pos a ha rest rs dict cb vld dbg
        refine ⟨fun _ => ⟨_, by simp only [binBoolWord, hbi, hai]; rfl, by simp [VM.push]⟩,
                fun h => absurd h (by simp [needTop2, hb, ha])⟩
      · simp only [Bool.not_eq_true] at ha
        refine ⟨fun h => absurd h (by simp [needTop2, hb, ha]), fun _ => ?_⟩
        exact ⟨.typeError "Bool" a.type_name, _,
          by simp only [binBoolWord, hbi, pop_bool_neg a ha rest rs dict cb vld dbg]; rfl, rfl⟩
    · simp only [Bool.not_eq_true] at hb
      refine ⟨fun h => absurd h (by simp [needTop2, hb]), fun _ => ?_⟩
      exact ⟨.typeError "Bool" b.type_name, _,
        by simp only [binBoolWord, pop_bool_neg b hb (a :: rest) rs dict cb vld dbg]; rfl, rfl⟩

theorem c2_binStr (g : String → String → Value) (vm : VM) :
    (needTop2 isStrLike isStrLike vm.stack = true →
      ∃ vm', binStrWord g vm = .ok vm' ∧
        vm'.stack.length + 2 = vm.stack.length + 1) ∧
    (needTop2 isStrLike isStrLike vm.stack = false →
      ∃ e vm', binStrWord g vm = .err e vm' ∧ isTypeOrUnderflow e = true) := by
  obtain ⟨stack, rs, dict, cb, vld, dbg⟩ := vm
  rcases stack with _ | ⟨b, _ | ⟨a, rest⟩⟩
  · exact ⟨fun h => by simp [needTop2] at h,
      fun _ => ⟨.stackUnderflow "Stack is empty", _, rfl, rfl⟩⟩
  · refine ⟨fun h => by simp [needTop2] at h, fun _ => ?_⟩
    by_cases hb : isStrLike b
    · obtain ⟨bi, hbi⟩ := pop_str_pos b hb [] rs dict cb vld dbg
      exact ⟨.stackUnderflow "Stack is empty", _,
        by simp only [binStrWord, hbi]; rfl, rfl⟩
    · simp only [Bool.not_eq_true] at hb
      exact ⟨.typeError "Str" b.type_name, _,
        by simp only [binStrWord, pop_str_neg b hb [] rs dict cb vld dbg]; rfl, rfl⟩
  · by_cases hb : isStrLike b
    · obtain ⟨bi, hbi⟩ := pop_str_pos b hb (a :: rest) rs dict cb vld dbg
      by_cases ha : isStrLike a
      · obtain ⟨ai, hai⟩ := pop_str_pos a ha rest rs dict cb vld dbg
        refine ⟨fun _ => ⟨_, by simp only [binStrWord, hbi, hai]; rfl, by simp [VM.push]⟩,
                fun h => absurd h (by simp [needTop2, hb, ha])⟩
      · simp only [Bool.not_eq_true] at ha
        refine ⟨fun h => absurd h (by simp [needTop2, hb, ha]), fun _ => ?_⟩
        exact ⟨.typeError "Str" a.type_name, _,
          by simp only [binStrWord, hbi, pop_str_neg a ha rest rs dict cb vld dbg]; rfl, rfl⟩
    · simp only [Bool.not_eq_true] at hb
      refine ⟨fun h => absurd h (by simp [needTop2, hb]), fun _ => ?_⟩
      exact ⟨.typeError "Str" b.type_name, _,
        by simp only [binStrWord, pop_str_neg b hb (a :: rest) rs dict cb vld dbg]; rfl, rfl⟩

theorem c2_binDoc (g : Document → Document → Value) (vm : VM) :
    (needTop2 isDocV isDocV vm.stack = true →
      ∃ vm', binDocWord g vm = .ok vm' ∧
        vm'.stack.length + 2 = vm.stack.length + 1) ∧
    (needTop2 isDocV isDocV vm.stack = false →
      ∃ e vm', binDocWord g vm = .err e vm' ∧ isTypeOrUnderflow e = true) := by
  obtain ⟨stack, rs, dict, cb, vld, dbg⟩ := vm
  rcases stack with _ | ⟨b, _ | ⟨a, rest⟩⟩
  · exact ⟨fun h => by simp [needTop2] at h,
      fun _ => ⟨.stackUnderflow "Stack is empty", _, rfl, rfl⟩⟩
  · refine ⟨fun h => by simp [needTop2] at h, fun _ => ?_⟩
    by_cases hb : isDocV b
    · obtain ⟨bi, hbi⟩ := pop_doc_pos b hb [] rs dict cb vld dbg
      exact ⟨.stackUnderflow "Stack is empty", _,
        by simp only [binDocWord, hbi]; rfl, rfl⟩
    · simp only [Bool.not_eq_true] at hb
      exact ⟨.typeError "Doc" b.type_name, _,
        by simp only [binDocWord, pop_doc_neg b hb [] rs dict cb vld dbg]; rfl, rfl⟩
  · by_cases hb : isDocV b
    · obtain ⟨bi, hbi⟩ := pop_doc_pos b hb (a :: rest) rs dict cb vld dbg
      by_cases ha : isDocV a
      · obtain ⟨ai, hai⟩ := pop_doc_pos a ha rest rs dict cb vld dbg
        refine ⟨fun _ => ⟨_, by simp only [binDocWord, hbi, hai]; rfl, by simp [VM.push]⟩,
                fun h => absurd h (by simp [needTop2, hb, ha])⟩
      · simp only [Bool.not_eq_true] at ha
        refine ⟨fun h => absurd h (by simp [needTop2, hb, ha]), fun _ => ?_⟩
        exact ⟨.typeError "Doc" a.type_name, _,
          by simp only [binDocWord, hbi, pop_doc_neg a ha rest rs dict cb vld dbg]; rfl, rfl⟩
    · simp only [Bool.not_eq_true] at hb
      refine ⟨fun h => absurd h (by simp [needTop2, hb]), fun _ => ?_⟩
      exact ⟨.typeError "Doc" b.type_name, _,
        by simp only [binDocWord, pop_doc_neg b hb (a :: rest) rs dict cb vld dbg]; rfl, rfl⟩

theorem c2_unaryInt (g : Int → Value) (vm : VM) :
    (needTop1 isIntLike vm.stack = true →
      ∃ vm', unaryIntWord g vm = .ok vm' ∧
        vm'.stack.length + 1 = vm.stack.length + 1) ∧
    (needTop1 isIntLike vm.stack = false →
      ∃ e vm', unaryIntWord g vm = .err e vm' ∧ isTypeOrUnderflow e = true) := by
  obtain ⟨stack, rs, dict, cb, vld, dbg⟩ := vm
  rcases stack with _ | ⟨v, rest⟩
  · exact ⟨fun h => by simp [needTop1] at h,
      fun _ => ⟨.stackUnderflow "Stack is empty", _, rfl, rfl⟩⟩
  · by_cases hv : isIntLike v
    · obtain ⟨x, hxv, hx⟩ := pop_int_pos v hv rest rs dict cb vld dbg
      refine ⟨fun _ => ⟨_, by simp only [unaryIntWord, hx]; rfl, by simp [VM.push]⟩,
              fun h => absurd h (by simp [needTop1, hv])⟩
    · simp only [Bool.not_eq_true] at hv
      refine ⟨fun h => absurd h (by simp [needTop1, hv]), fun _ => ?_⟩
      exact ⟨.typeError "Int" v.type_name, _,
        by simp only [unaryIntWord, pop_int_neg v hv rest rs dict cb vld dbg]; rfl, rfl⟩

theorem c2_unaryStr (g : String → Value) (vm : VM) :
    (needTop1 isStrLike vm.stack = true →
      ∃ vm', unaryStrWord g vm = .ok vm' ∧
        vm'.stack.length + 1 = vm.stack.length + 1) ∧
    (needTop1 isStrLike vm.stack = false →
      ∃ e vm', unaryStrWord g vm = .err e vm' ∧ isTypeOrUnderflow e = true) := by
  obtain ⟨stack, rs, dict, cb, vld, dbg⟩ := vm
  rcases stack with _ | ⟨v, rest⟩
  · exact ⟨fun h => by simp [needTop1] at h,
      fun _ => ⟨.stackUnderflow "Stack is empty", _, rfl, rfl⟩⟩
  · by_cases hv : isStrLike v
    · obtain ⟨x, hx⟩ := pop_str_pos v hv rest rs dict cb vld dbg
      refine ⟨fun _ => ⟨_, by simp only [unaryStrWord, hx]; rfl, by simp [VM.push]⟩,
              fun h => absurd h (by simp [needTop1, hv])⟩
    · simp only [Bool.not_eq_true] at hv
      refine ⟨fun h => absurd h (by simp [needTop1, hv]), fun _ => ?_⟩
      exact ⟨.typeError "Str" v.type_name, _,
        by simp only [unaryStrWord, pop_str_neg v hv rest rs dict cb vld dbg]; rfl, rfl⟩

theorem c2_unaryDoc (g : Document → Value) (vm : VM) :
    (needTop1 isDocV vm.stack = true →
      ∃ vm', unaryDocWord g vm = .ok vm' ∧
        vm'.stack.length + 1 = vm.stack.length + 1) ∧
    (needTop1 isDocV vm.stack = false →
      ∃ e vm', unaryDocWord g vm = .err e vm' ∧ isTypeOrUnderflow e = true) := by
  obtain ⟨stack, rs, dict, cb, vld, dbg⟩ := vm
  rcases stack with _ | ⟨v, rest⟩
  · exact ⟨fun h => by simp [needTop1] at h,
      fun _ => ⟨.stackUnderflow "Stack is empty", _, rfl, rfl⟩⟩
  · by_cases hv : isDocV v
    · obtain ⟨x, hx⟩ := pop_doc_pos v hv rest rs dict cb vld dbg
      refine ⟨fun _ => ⟨_, by simp only [unaryDocWord, hx]; rfl, by simp [VM.push]⟩,
              fun h => absurd h (by simp [needTop1, hv])⟩
    · simp only [Bool.not_eq_true] at hv
      refine ⟨fun h => absurd h (by simp [needTop1, hv]), fun _ => ?_⟩
      exact ⟨.typeError "Doc" v.type_name, _,
        by simp only [unaryDocWord, pop_doc_neg v hv rest rs dict cb vld dbg]; rfl, rfl⟩


theorem c2h_dup (vm : VM) :
    (needTop1 anyV vm.stack = true →
      ∃ vm', builtin_dup vm = .ok vm' ∧
        vm'.stack.length + 1 = vm.stack.length + 2) ∧
    (needTop1 anyV vm.stack = false →
      ∃ e vm', builtin_dup vm = .err e vm' ∧ isTypeOrUnderflow e = true) := by
  obtain ⟨stack, rs, dict, cb, vld, dbg⟩ := vm
  rcases stack with _ | ⟨v, rest⟩
  · exact ⟨fun h => by simp [needTop1, needTop2, needTop3] at h,
      fun _ => ⟨.stackUnderflow "Stack is empty", _, rfl, rfl⟩⟩
  · exact ⟨fun _ => ⟨_, rfl, by simp only [VM.push, List.length_cons]; try omega⟩,
      fun h => absurd h (by simp [needTop1, needTop2, needTop3, anyV])⟩

theorem c2h_drop (vm : VM) :
    (needTop1 anyV vm.stack = true →
      ∃ vm', builtin_drop vm = .ok vm' ∧
        vm'.stack.length + 1 = vm.stack.length + 0) ∧
    (needTop1 anyV vm.stack = false →
      ∃ e vm', builtin_drop vm = .err e vm' ∧ isTypeOrUnderflow e = true) := by
  obtain ⟨stack, rs, dict, cb, vld, dbg⟩ := vm
  rcases stack with _ | ⟨v, rest⟩
  · exact ⟨fun h => by simp [needTop1, needTop2, needTop3] at h,
      fun _ => ⟨.stackUnderflow "Stack is empty", _, rfl, rfl⟩⟩
  · exact ⟨fun _ => ⟨_, rfl, by simp only [VM.push, List.length_cons]; try omega⟩,
      fun h => absurd h (by simp [needTop1, needTop2, needTop3, anyV])⟩

theorem c2h_swap (vm : VM) :
    (needTop2 anyV anyV vm.stack = true →
      ∃ vm', builtin_swap vm = .ok vm' ∧
        vm'.stack.length + 2 = vm.stack.length + 2) ∧
    (needTop2 anyV anyV vm.stack = false →
      ∃ e vm', builtin_swap vm = .err e vm' ∧ isTypeOrUnderflow e = true) := by
  obtain ⟨stack, rs, dict, cb, vld, dbg⟩ := vm
  rcases stack with _ | ⟨b, _ | ⟨a, rest⟩⟩
  · exact ⟨fun h => by simp [needTop1, needTop2, needTop3] at h,
      fun _ => ⟨.stackUnderflow "Stack is empty", _, rfl, rfl⟩⟩
  · exact ⟨fun h => by simp [needTop1, needTop2, needTop3] at h,
      fun _ => ⟨.stackUnderflow "Stack is empty", _, rfl, rfl⟩⟩
  · exact ⟨fun _ => ⟨_, rfl, by simp only [VM.push, List.length_cons]; try omega⟩,
      fun h => absurd h (by simp [needTop1, needTop2, needTop3, anyV])⟩

theorem c2h_over (vm : VM) :
    (needTop2 anyV anyV vm.stack = true →
      ∃ vm', builtin_over vm = .ok vm' ∧
        vm'.stack.length + 2 = vm.stack.length + 3) ∧
    (needTop2 anyV anyV vm.stack = false →
      ∃ e vm', builtin_over vm = .err e vm' ∧ isTypeOrUnderflow e = true) := by
  obtain ⟨stack, rs, dict, cb, vld, dbg⟩ := vm
  rcases stack with _ | ⟨b, _ | ⟨a, rest⟩⟩
  · exact ⟨fun h => by simp [needTop1, needTop2, needTop3] at h,
      fun _ => ⟨.stackUnderflow "Stack is empty", _, rfl, rfl⟩⟩
  · exact ⟨fun h => by simp [needTop1, needTop2, needTop3] at h,
      fun _ => ⟨.stackUnderflow "Stack is empty", _, rfl, rfl⟩⟩
  · exact ⟨fun _ => ⟨_, rfl, by simp only [VM.push, List.length_cons]; try omega⟩,
      fun h => absurd h (by simp [needTop1, needTop2, needTop3, anyV])⟩

theorem c2h_rot (vm : VM) :
    (needTop3 anyV anyV anyV vm.stack = true →
      ∃ vm', builtin_rot vm = .ok vm' ∧
        vm'.stack.length + 3 = vm.stack.length + 3) ∧
    (needTop3 anyV anyV anyV vm.stack = false →
      ∃ e vm', builtin_rot vm = .err e vm' ∧ isTypeOrUnderflow e = true) := by
  obtain ⟨stack, rs, dict, cb, vld, dbg⟩ := vm
  rcases stack with _ | ⟨c, _ | ⟨b, _ | ⟨a, rest⟩⟩⟩
  · exact ⟨fun h => by simp [needTop1, needTop2, needTop3] at h,
      fun _ => ⟨.stackUnderflow "Stack is empty", _, rfl, rfl⟩⟩
  · exact ⟨fun h => by simp [needTop1, needTop2, needTop3] at h,
      fun _ => ⟨.stackUnderflow "Stack is empty", _, rfl, rfl⟩⟩
  · exact ⟨fun h => by simp [needTop1, needTop2, needTop3] at h,
      fun _ => ⟨.stackUnderflow "Stack is empty", _, rfl, rfl⟩⟩
  · exact ⟨fun _ => ⟨_, rfl, by simp only [VM.push, List.length_cons]; try omega⟩,
      fun h => absurd h (by simp [needTop1, needTop2, needTop3, anyV])⟩

theorem c2h_nip (vm : VM) :
    (needTop2 anyV anyV vm.stack = true →
      ∃ vm', builtin_nip vm = .ok vm' ∧
        vm'.stack.length + 2 = vm.stack.length + 1) ∧
    (needTop2 anyV anyV vm.stack = false →
      ∃ e vm', builtin_nip vm = .err e vm' ∧ isTypeOrUnderflow e = true) := by
  obtain ⟨stack, rs, dict, cb, vld, dbg⟩ := vm
  rcases stack with _ | ⟨b, _ | ⟨a, rest⟩⟩
  · exact ⟨fun h => by simp [needTop1, needTop2, needTop3] at h,
      fun _ => ⟨.stackUnderflow "Stack is empty", _, rfl, rfl⟩⟩
  · exact ⟨fun h => by simp [needTop1, needTop2, needTop3] at h,
      fun _ => ⟨.stackUnderflow "Stack is empty", _, rfl, rfl⟩⟩
  · exact ⟨fun _ => ⟨_, rfl, by simp only [VM.push, List.length_cons]; try omega⟩,
      fun h => absurd h (by simp [needTop1, needTop2, needTop3, anyV])⟩

theorem c2h_tuck (vm : VM) :
    (needTop2 anyV anyV vm.stack = true →
      ∃ vm', builtin_tuck vm = .ok vm' ∧
        vm'.stack.length + 2 = vm.stack.length + 3) ∧
    (needTop2 anyV anyV vm.stack = false →
      ∃ e vm', builtin_tuck vm = .err e vm' ∧ isTypeOrUnderflow e = true) := by
  obtain ⟨stack, rs, dict, cb, vld, dbg⟩ := vm
  rcases stack with _ | ⟨b, _ | ⟨a, rest⟩⟩
  · exact ⟨fun h => by simp [needTop1, needTop2, needTop3] at h,
      fun _ => ⟨.stackUnderflow "Stack is empty", _, rfl, rfl⟩⟩
  · exact ⟨fun h => by simp [needTop1, needTop2, needTop3] at h,
      fun _ => ⟨.stackUnderflow "Stack is empty", _, rfl, rfl⟩⟩
  · exact ⟨fun _ => ⟨_, rfl, by simp only [VM.push, List.length_cons]; try omega⟩,
      fun h => absurd h (by simp [needTop1, needTop2, needTop3, anyV])⟩

theorem c2h_eq (vm : VM) :
    (needTop2 anyV anyV vm.stack = true →
      ∃ vm', builtin_eq vm = .ok vm' ∧
        vm'.stack.length + 2 = vm.stack.length + 1) ∧
    (needTop2 anyV anyV vm.stack = false →
      ∃ e vm', builtin_eq vm = .err e vm' ∧ isTypeOrUnderflow e = true) := by
  obtain ⟨stack, rs, dict, cb, vld, dbg⟩ := vm
  rcases stack with _ | ⟨b, _ | ⟨a, rest⟩⟩
  · exact ⟨fun h => by simp [needTop1, needTop2, needTop3] at h,
      fun _ => ⟨.stackUnderflow "Stack is empty", _, rfl, rfl⟩⟩
  · exact ⟨fun h => by simp [needTop1, needTop2, needTop3] at h,
      fun _ => ⟨.stackUnderflow "Stack is empty", _, rfl, rfl⟩⟩
  · exact ⟨fun _ => ⟨_, rfl, by simp only [VM.push, List.length_cons]; try omega⟩,
      fun h => absurd h (by simp [needTop1, needTop2, needTop3, anyV])⟩

theorem c2h_neq (vm : VM) :
    (needTop2 anyV anyV vm.stack = true →
      ∃ vm', builtin_neq vm = .ok vm' ∧
        vm'.stack.length + 2 = vm.stack.length + 1) ∧
    (needTop2 anyV anyV vm.stack = false →
      ∃ e vm', builtin_neq vm = .err e vm' ∧ isTypeOrUnderflow e = true) := by
  obtain ⟨stack, rs, dict, cb, vld, dbg⟩ := vm
  rcases stack with _ | ⟨b, _ | ⟨a, rest⟩⟩
  · exact ⟨fun h => by simp [needTop1, needTop2, needTop3] at h,
      fun _ => ⟨.stackUnderflow "Stack is empty", _, rfl, rfl⟩⟩
  · exact ⟨fun h => by simp [needTop1, needTop2, needTop3] at h,
      fun _ => ⟨.stackUnderflow "Stack is empty", _, rfl, rfl⟩⟩
  · exact ⟨fun _ => ⟨_, rfl, by simp only [VM.push, List.length_cons]; try omega⟩,
      fun h => absurd h (by simp [needTop1, needTop2, needTop3, anyV])⟩

theorem c2h_depth (vm : VM) :
    (needNothing vm.stack = true →
      ∃ vm', builtin_depth vm = .ok vm' ∧
        vm'.stack.length + 0 = vm.stack.length + 1) ∧
    (needNothing vm.stack = false →
      ∃ e vm', builtin_depth vm = .err e vm' ∧ isTypeOrUnderflow e = true) := by
  exact ⟨fun _ => ⟨_, rfl, by simp [VM.push, builtin_depth]⟩,
    fun h => by simp [needNothing] at h⟩

theorem c2_pushWord (v : Value) (vm : VM) :
    (needNothing vm.stack = true →
      ∃ vm', pushWord v vm = .ok vm' ∧
        vm'.stack.length + 0 = vm.stack.length + 1) ∧
    (needNothing vm.stack = false →
      ∃ e vm', pushWord v vm = .err e vm' ∧ isTypeOrUnderflow e = true) := by
  exact ⟨fun _ => ⟨_, rfl, by simp [VM.push, pushWord]⟩,
    fun h => by simp [needNothing] at h⟩

theorem c2h_not (vm : VM) :
    (needTop1 isBoolLike vm.stack = true →
      ∃ vm', builtin_not vm = .ok vm' ∧
        vm'.stack.length + 1 = vm.stack.length + 1) ∧
    (needTop1 isBoolLike vm.stack = false →
      ∃ e vm', builtin_not vm = .err e vm' ∧ isTypeOrUnderflow e = true) := by
  obtain ⟨stack, rs, dict, cb, vld, dbg⟩ := vm
  rcases stack with _ | ⟨v, rest⟩
  · exact ⟨fun h => by simp [needTop1] at h,
      fun _ => ⟨.stackUnderflow "Stack is empty", _, rfl, rfl⟩⟩
  · by_cases hv : isBoolLike v
    · obtain ⟨x, hxv, hx⟩ := pop_bool_pos v hv rest rs dict cb vld dbg
      refine ⟨fun _ => ⟨_, by simp only [builtin_not, hx]; rfl, by simp [VM.push]⟩,
              fun h => absurd h (by simp [needTop1, hv])⟩
    · simp only [Bool.not_eq_true] at hv
      refine ⟨fun h => absurd h (by simp [needTop1, hv]), fun _ => ?_⟩
      exact ⟨.typeError "Bool" v.type_name, _,
        by simp only [builtin_not, pop_bool_neg v hv rest rs dict cb vld dbg]; rfl, rfl⟩

theorem c2h_div (vm : VM) :
    (needTop2 isIntLike isIntLike vm.stack = true →
      guardOk .div vm.stack = true →
      ∃ vm', builtin_div vm = .ok vm' ∧
        vm'.stack.length + 2 = vm.stack.length + 1) ∧
    (needTop2 isIntLike isIntLike vm.stack = false →
      ∃ e vm', builtin_div vm = .err e vm' ∧ isTypeOrUnderflow e = true) := by
  obtain ⟨stack, rs, dict, cb, vld, dbg⟩ := vm
  rcases stack with _ | ⟨b, _ | ⟨a, rest⟩⟩
  · exact ⟨fun h => by simp [needTop2] at h,
      fun _ => ⟨.stackUnderflow "Stack is empty", _, rfl, rfl⟩⟩
  · refine ⟨fun h => by simp [needTop2] at h, fun _ => ?_⟩
    by_cases hb : isIntLike b
    · obtain ⟨bi, hbv, hbi⟩ := pop_int_pos b hb [] rs dict cb vld dbg
      exact ⟨.stackUnderflow "Stack is empty", _,
        by simp only [builtin_div, hbi]; rfl, rfl⟩
    · simp only [Bool.not_eq_true] at hb
      exact ⟨.typeError "Int" b.type_name, _,
        by simp only [builtin_div, pop_int_neg b hb [] rs dict cb vld dbg]; rfl, rfl⟩
  · by_cases hb : isIntLike b
    · obtain ⟨bi, hbv, hbi⟩ := pop_int_pos b hb (a :: rest) rs dict cb vld dbg
      by_cases ha : isIntLike a
      · obtain ⟨ai, hav, hai⟩ := pop_int_pos a ha rest rs dict cb vld dbg
        refine ⟨fun _ hg => ?_, fun h => absurd h (by simp [needTop2, hb, ha])⟩
        have hbz : (bi == 0) = false := by
          by_cases h0 : bi = 0
          · exfalso
            rw [h0] at hbv
            simp [guardOk, hbv] at hg
          · rcases hbe : bi == 0
            · rfl
            · exact absurd (eq_of_beq hbe) h0
        have hA : (ai == -9223372036854775808 && bi == -1) = false := by
          by_cases hAi : ai = -9223372036854775808
          · by_cases hBi : bi = -1
            · exfalso
              rw [hAi] at hav
              rw [hBi] at hbv
              simp [guardOk, hbv, hav] at hg
            · have h2 : (bi == -1) = false := by
                rcases hbe : bi == -1
                · rfl
                · exact absurd (eq_of_beq hbe) hBi
              simp [h2]
          · have h1 : (ai == -9223372036854775808) = false := by
              rcases hbe : ai == -9223372036854775808
              · rfl
              · exact absurd (eq_of_beq hbe) hAi
            simp [h1]
        exact ⟨_, by simp only [builtin_div, hbi, hai, hbz, hA,
          Bool.false_eq_true, if_false]; rfl, by simp [VM.push]⟩
      · simp only [Bool.not_eq_true] at ha
        refine ⟨fun h => absurd h (by simp [needTop2, hb, ha]), fun _ => ?_⟩
        exact ⟨.typeError "Int" a.type_name, _,
          by simp only [builtin_div, hbi, pop_int_neg a ha rest rs dict cb vld dbg]; rfl, rfl⟩
    · simp only [Bool.not_eq_true] at hb
      refine ⟨fun h => absurd h (by simp [needTop2, hb]), fun _ => ?_⟩
      exact ⟨.typeError "Int" b.type_name, _,
        by simp only [builtin_div, pop_int_neg b hb (a :: rest) rs dict cb vld dbg]; rfl, rfl⟩

theorem c2h_mod (vm : VM) :
    (needTop2 isIntLike isIntLike vm.stack = true →
      guardOk .mod vm.stack = true →
      ∃ vm', builtin_mod vm = .ok vm' ∧
        vm'.stack.length + 2 = vm.stack.length + 1) ∧
    (needTop2 isIntLike isIntLike vm.stack = false →
      ∃ e vm', builtin_mod vm = .err e vm' ∧ isTypeOrUnderflow e = true) := by
  obtain ⟨stack, rs, dict, cb, vld, dbg⟩ := vm
  rcases stack with _ | ⟨b, _ | ⟨a, rest⟩⟩
  · exact ⟨fun h => by simp [needTop2] at h,
      fun _ => ⟨.stackUnderflow "Stack is empty", _, rfl, rfl⟩⟩
  · refine ⟨fun h => by simp [needTop2] at h, fun _ => ?_⟩
    by_cases hb : isIntLike b
    · obtain ⟨bi, hbv, hbi⟩ := pop_int_pos b hb [] rs dict cb vld dbg
      exact ⟨.stackUnderflow "Stack is empty", _,
        by simp only [builtin_mod, hbi]; rfl, rfl⟩
    · simp only [Bool.not_eq_true] at hb
      exact ⟨.typeError "Int" b.type_name, _,
        by simp only [builtin_mod, pop_int_neg b hb [] rs dict cb vld dbg]; rfl, rfl⟩
  · by_cases hb : isIntLike b
    · obtain ⟨bi, hbv, hbi⟩ := pop_int_pos b hb (a :: rest) rs dict cb vld dbg
      by_cases ha : isIntLike a
      · obtain ⟨ai, hav, hai⟩ := pop_int_pos a ha rest rs dict cb vld dbg
        refine ⟨fun _ hg => ?_, fun h => absurd h (by simp [needTop2, hb, ha])⟩
        have hbz : (bi == 0) = false := by
          by_cases h0 : bi = 0
          · exfalso
            rw [h0] at hbv
            simp [guardOk, hbv] at hg
          · rcases hbe : bi == 0
            · rfl
            · exact absurd (eq_of_beq hbe) h0
        have hA : (ai == -9223372036854775808 && bi == -1) = false := by
          by_cases hAi : ai = -9223372036854775808
          · by_cases hBi : bi = -1
            · exfalso
              rw [hAi] at hav
              rw [hBi] at hbv
              simp [guardOk, hbv, hav] at hg
            · have h2 : (bi == -1) = false := by
                rcases hbe : bi == -1
                · rfl
                · exact absurd (eq_of_beq hbe) hBi
              simp [h2]
          · have h1 : (ai == -9223372036854775808) = false := by
              rcases hbe : ai == -9223372036854775808
              · rfl
              · exact absurd (eq_of_beq hbe) hAi
            simp [h1]
        exact ⟨_, by simp only [builtin_mod, hbi, hai, hbz, hA,
          Bool.false_eq_true, if_false]; rfl, by simp [VM.push]⟩
      · simp only [Bool.not_eq_true] at ha
        refine ⟨fun h => absurd h (by simp [needTop2, hb, ha]), fun _ => ?_⟩
        exact ⟨.typeError "Int" a.type_name, _,
          by simp only [builtin_mod, hbi, pop_int_neg a ha rest rs dict cb vld dbg]; rfl, rfl⟩
    · simp only [Bool.not_eq_true] at hb
      refine ⟨fun h => absurd h (by simp [needTop2, hb]), fun _ => ?_⟩
      exact ⟨.typeError "Int" b.type_name, _,
        by simp only [builtin_mod, pop_int_neg b hb (a :: rest) rs dict cb vld dbg]; rfl, rfl⟩


theorem c2h_bundle_add (vm : VM) :
    (needTop2 isDocV isBundleV vm.stack = true →
      ∃ vm', builtin_bundle_add vm = .ok vm' ∧
        vm'.stack.length + 2 = vm.stack.length + 1) ∧
    (needTop2 isDocV isBundleV vm.stack = false →
      ∃ e vm', builtin_bundle_add vm = .err e vm' ∧ isTypeOrUnderflow e = true) := by
  obtain ⟨stack, rs, dict, cb, vld, dbg⟩ := vm
  rcases stack with _ | ⟨b, _ | ⟨a, rest⟩⟩
  · exact ⟨fun h => by simp [needTop2] at h, fun _ => ⟨.stackUnderflow "Stack is empty", _, rfl, rfl⟩⟩
  · refine ⟨fun h => by simp [needTop2] at h, fun _ => ?_⟩
    by_cases hb : isDocV b
    · obtain ⟨xb, hbi⟩ := pop_doc_pos b hb [] rs dict cb vld dbg
      exact ⟨.stackUnderflow "Stack is empty", _,
        by simp only [builtin_bundle_add, hbi]; rfl, rfl⟩
    · simp only [Bool.not_eq_true] at hb
      exact ⟨.typeError "Doc" b.type_name, _,
        by simp only [builtin_bundle_add, pop_doc_neg b hb [] rs dict cb vld dbg]; rfl, rfl⟩
  · by_cases hb : isDocV b
    · obtain ⟨xb, hbi⟩ := pop_doc_pos b hb (a :: rest) rs dict cb vld dbg
      by_cases ha : isBundleV a
      · obtain ⟨xa, hai⟩ := pop_bundle_pos a ha rest rs dict cb vld dbg
        refine ⟨fun _ => ?_, fun h => absurd h (by simp [needTop2, hb, ha])⟩
        exact ⟨_, by simp only [builtin_bundle_add, hbi, hai]; rfl, by simp only [VM.push, VM.report_error, VM.report_warning, VM.report_suggestion, List.length_cons]; try omega⟩
      · simp only [Bool.not_eq_true] at ha
        refine ⟨fun h => absurd h (by simp [needTop2, hb, ha]), fun _ => ?_⟩
        exact ⟨.typeError "Bundle" a.type_name, _,
          by simp only [builtin_bundle_add, hbi, pop_bundle_neg a ha rest rs dict cb vld dbg]; rfl, rfl⟩
    · simp only [Bool.not_eq_true] at hb
      refine ⟨fun h => absurd h (by simp [needTop2, hb]), fun _ => ?_⟩
      exact ⟨.typeError "Doc" b.type_name, _,
        by simp only [builtin_bundle_add, pop_doc_neg b hb (a :: rest) rs dict cb vld dbg]; rfl, rfl⟩

theorem c2h_bundle_has_type (vm : VM) :
    (needTop2 isStrLike isBundleV vm.stack = true →
      ∃ vm', builtin_bundle_has_type vm = .ok vm' ∧
        vm'.stack.length + 2 = vm.stack.length + 2) ∧
    (needTop2 isStrLike isBundleV vm.stack = false →
      ∃ e vm', builtin_bundle_has_type vm = .err e vm' ∧ isTypeOrUnderflow e = true) := by
  obtain ⟨stack, rs, dict, cb, vld, dbg⟩ := vm
  rcases stack with _ | ⟨b, _ | ⟨a, rest⟩⟩
  · exact ⟨fun h => by simp [needTop2] at h, fun _ => ⟨.stackUnderflow "Stack is empty", _, rfl, rfl⟩⟩
  · refine ⟨fun h => by simp [needTop2] at h, fun _ => ?_⟩
    by_cases hb : isStrLike b
    · obtain ⟨xb, hbi⟩ := pop_str_pos b hb [] rs dict cb vld dbg
      exact ⟨.stackUnderflow "Stack is empty", _,
        by simp only [builtin_bundle_has_type, hbi]; rfl, rfl⟩
    · simp only [Bool.not_eq_true] at hb
      exact ⟨.typeError "Str" b.type_name, _,
        by simp only [builtin_bundle_has_type, pop_str_neg b hb [] rs dict cb vld dbg]; rfl, rfl⟩
  · by_cases hb : isStrLike b
    · obtain ⟨xb, hbi⟩ := pop_str_pos b hb (a :: rest) rs dict cb vld dbg
      by_cases ha : isBundleV a
      · obtain ⟨xa, hai⟩ := pop_bundle_pos a ha rest rs dict cb vld dbg
        refine ⟨fun _ => ?_, fun h => absurd h (by simp [needTop2, hb, ha])⟩
        exact ⟨_, by simp only [builtin_bundle_has_type, hbi, hai]; rfl, by simp only [VM.push, VM.report_error, VM.report_warning, VM.report_suggestion, List.length_cons]; try omega⟩
      · simp only [Bool.not_eq_true] at ha
        refine ⟨fun h => absurd h (by simp [needTop2, hb, ha]), fun _ => ?_⟩
        exact ⟨.typeError "Bundle" a.type_name, _,
          by simp only [builtin_bundle_has_type, hbi, pop_bundle_neg a ha rest rs dict cb vld dbg]; rfl, rfl⟩
    · simp only [Bool.not_eq_true] at hb
      refine ⟨fun h => absurd h (by simp [needTop2, hb]), fun _ => ?_⟩
      exact ⟨.typeError "Str" b.type_name, _,
        by simp only [builtin_bundle_has_type, pop_str_neg b hb (a :: rest) rs dict cb vld dbg]; rfl, rfl⟩

theorem c2h_pack_require (vm : VM) :
    (needTop2 isStrLike isPackV vm.stack = true →
      ∃ vm', builtin_pack_require vm = .ok vm' ∧
        vm'.stack.length + 2 = vm.stack.length + 1) ∧
    (needTop2 isStrLike isPackV vm.stack = false →
      ∃ e vm', builtin_pack_require vm = .err e vm' ∧ isTypeOrUnderflow e = true) := by
  obtain ⟨stack, rs, dict, cb, vld, dbg⟩ := vm
  rcases stack with _ | ⟨b, _ | ⟨a, rest⟩⟩
  · exact ⟨fun h => by simp [needTop2] at h, fun _ => ⟨.stackUnderflow "Stack is empty", _, rfl, rfl⟩⟩
  · refine ⟨fun h => by simp [needTop2] at h, fun _ => ?_⟩
    by_cases hb : isStrLike b
    · obtain ⟨xb, hbi⟩ := pop_str_pos b hb [] rs dict cb vld dbg
      exact ⟨.stackUnderflow "Stack is empty", _,
        by simp only [builtin_pack_require, hbi]; rfl, rfl⟩
    · simp only [Bool.not_eq_true] at hb
      exact ⟨.typeError "Str" b.type_name, _,
        by simp only [builtin_pack_require, pop_str_neg b hb [] rs dict cb vld dbg]; rfl, rfl⟩
  · by_cases hb : isStrLike b
    · obtain ⟨xb, hbi⟩ := pop_str_pos b hb (a :: rest) rs dict cb vld dbg
      by_cases ha : isPackV a
      · obtain ⟨xa, hai⟩ := pop_pack_pos a ha rest rs dict cb vld dbg
        refine ⟨fun _ => ?_, fun h => absurd h (by simp [needTop2, hb, ha])⟩
        exact ⟨_, by simp only [builtin_pack_require, hbi, hai]; rfl, by simp only [VM.push, VM.report_error, VM.report_warning, VM.report_suggestion, List.length_cons]; try omega⟩
      · simp only [Bool.not_eq_true] at ha
        refine ⟨fun h => absurd h (by simp [needTop2, hb, ha]), fun _ => ?_⟩
        exact ⟨.typeError "Pack" a.type_name, _,
          by simp only [builtin_pack_require, hbi, pop_pack_neg a ha rest rs dict cb vld dbg]; rfl, rfl⟩
    · simp only [Bool.not_eq_true] at hb
      refine ⟨fun h => absurd h (by simp [needTop2, hb]), fun _ => ?_⟩
      exact ⟨.typeError "Str" b.type_name, _,
        by simp only [builtin_pack_require, pop_str_neg b hb (a :: rest) rs dict cb vld dbg]; rfl, rfl⟩

theorem c2h_pack_optional (vm : VM) :
    (needTop2 isStrLike isPackV vm.stack = true →
      ∃ vm', builtin_pack_optional vm = .ok vm' ∧
        vm'.stack.length + 2 = vm.stack.length + 1) ∧
    (needTop2 isStrLike isPackV vm.stack = false →
      ∃ e vm', builtin_pack_optional vm = .err e vm' ∧ isTypeOrUnderflow e = true) := by
  obtain ⟨stack, rs, dict, cb, vld, dbg⟩ := vm
  rcases stack with _ | ⟨b, _ | ⟨a, rest⟩⟩
  · exact ⟨fun h => by simp [needTop2] at h, fun _ => ⟨.stackUnderflow "Stack is empty", _, rfl, rfl⟩⟩
  · refine ⟨fun h => by simp [needTop2] at h, fun _ => ?_⟩
    by_cases hb : isStrLike b
    · obtain ⟨xb, hbi⟩ := pop_str_pos b hb [] rs dict cb vld dbg
      exact ⟨.stackUnderflow "Stack is empty", _,
        by simp only [builtin_pack_optional, hbi]; rfl, rfl⟩
    · simp only [Bool.not_eq_true] at hb
      exact ⟨.typeError "Str" b.type_name, _,
        by simp only [builtin_pack_optional, pop_str_neg b hb [] rs dict cb vld dbg]; rfl, rfl⟩
  · by_cases hb : isStrLike b
    · obtain ⟨xb, hbi⟩ := pop_str_pos b hb (a :: rest) rs dict cb vld dbg
      by_cases ha : isPackV a
      · obtain ⟨xa, hai⟩ := pop_pack_pos a ha rest rs dict cb vld dbg
        refine ⟨fun _ => ?_, fun h => absurd h (by simp [needTop2, hb, ha])⟩
        exact ⟨_, by simp only [builtin_pack_optional, hbi, hai]; rfl, by simp only [VM.push, VM.report_error, VM.report_warning, VM.report_suggestion, List.length_cons]; try omega⟩
      · simp only [Bool.not_eq_true] at ha
        refine ⟨fun h => absurd h (by simp [needTop2, hb, ha]), fun _ => ?_⟩
        exact ⟨.typeError "Pack" a.type_name, _,
          by simp only [builtin_pack_optional, hbi, pop_pack_neg a ha rest rs dict cb vld dbg]; rfl, rfl⟩
    · simp only [Bool.not_eq_true] at hb
      refine ⟨fun h => absurd h (by simp [needTop2, hb]), fun _ => ?_⟩
      exact ⟨.typeError "Str" b.type_name, _,
        by simp only [builtin_pack_optional, pop_str_neg b hb (a :: rest) rs dict cb vld dbg]; rfl, rfl⟩

theorem c2h_list_get (vm : VM) :
    (needTop2 isIntLike isListV vm.stack = true →
      ∃ vm', builtin_list_get vm = .ok vm' ∧
        vm'.stack.length + 2 = vm.stack.length + 1) ∧
    (needTop2 isIntLike isListV vm.stack = false →
      ∃ e vm', builtin_list_get vm = .err e vm' ∧ isTypeOrUnderflow e = true) := by
  obtain ⟨stack, rs, dict, cb, vld, dbg⟩ := vm
  rcases stack with _ | ⟨b, _ | ⟨a, rest⟩⟩
  · exact ⟨fun h => by simp [needTop2] at h, fun _ => ⟨.stackUnderflow "Stack is empty", _, rfl, rfl⟩⟩
  · refine ⟨fun h => by simp [needTop2] at h, fun _ => ?_⟩
    by_cases hb : isIntLike b
    · obtain ⟨xb, hbv, hbi⟩ := pop_int_pos b hb [] rs dict cb vld dbg
      exact ⟨.stackUnderflow "Stack is empty", _,
        by simp only [builtin_list_get, hbi]; rfl, rfl⟩
    · simp only [Bool.not_eq_true] at hb
      exact ⟨.typeError "Int" b.type_name, _,
        by simp only [builtin_list_get, pop_int_neg b hb [] rs dict cb vld dbg]; rfl, rfl⟩
  · by_cases hb : isIntLike b
    · obtain ⟨xb, hbv, hbi⟩ := pop_int_pos b hb (a :: rest) rs dict cb vld dbg
      by_cases ha : isListV a
      · obtain ⟨xa, hai⟩ := pop_list_pos a ha rest rs dict cb vld dbg
        refine ⟨fun _ => ?_, fun h => absurd h (by simp [needTop2, hb, ha])⟩
        rcases hg : xa[(xb % 4294967296).toNat]? with _ | item <;>
          exact ⟨_, by simp only [builtin_list_get, hbi, hai, hg]; rfl, by simp only [VM.push, VM.report_error, VM.report_warning, VM.report_suggestion, List.length_cons]; try omega⟩
      · simp only [Bool.not_eq_true] at ha
        refine ⟨fun h => absurd h (by simp [needTop2, hb, ha]), fun _ => ?_⟩
        exact ⟨.typeError "List" a.type_name, _,
          by simp only [builtin_list_get, hbi, pop_list_neg a ha rest rs dict cb vld dbg]; rfl, rfl⟩
    · simp only [Bool.not_eq_true] at hb
      refine ⟨fun h => absurd h (by simp [needTop2, hb]), fun _ => ?_⟩
      exact ⟨.typeError "Int" b.type_name, _,
        by simp only [builtin_list_get, pop_int_neg b hb (a :: rest) rs dict cb vld dbg]; rfl, rfl⟩

theorem c2h_bundle_get_type (vm : VM) :
    (needTop2 isStrLike isBundleV vm.stack = true →
      ∃ vm', builtin_bundle_get_type vm = .ok vm' ∧
        vm'.stack.length + 2 = vm.stack.length + 2) ∧
    (needTop2 isStrLike isBundleV vm.stack = false →
      ∃ e vm', builtin_bundle_get_type vm = .err e vm' ∧ isTypeOrUnderflow e = true) := by
  obtain ⟨stack, rs, dict, cb, vld, dbg⟩ := vm
  rcases stack with _ | ⟨b, _ | ⟨a, rest⟩⟩
  · exact ⟨fun h => by simp [needTop2] at h, fun _ => ⟨.stackUnderflow "Stack is empty", _, rfl, rfl⟩⟩
  · refine ⟨fun h => by simp [needTop2] at h, fun _ => ?_⟩
    by_cases hb : isStrLike b
    · obtain ⟨xb, hbi⟩ := pop_str_pos b hb [] rs dict cb vld dbg
      exact ⟨.stackUnderflow "Stack is empty", _,
        by simp only [builtin_bundle_get_type, hbi]; rfl, rfl⟩
    · simp only [Bool.not_eq_true] at hb
      exact ⟨.typeError "Str" b.type_name, _,
        by simp only [builtin_bundle_get_type, pop_str_neg b hb [] rs dict cb vld dbg]; rfl, rfl⟩
  · by_cases hb : isStrLike b
    · obtain ⟨xb, hbi⟩ := pop_str_pos b hb (a :: rest) rs dict cb vld dbg
      by_cases ha : isBundleV a
      · obtain ⟨xa, hai⟩ := pop_bundle_pos a ha rest rs dict cb vld dbg
        refine ⟨fun _ => ?_, fun h => absurd h (by simp [needTop2, hb, ha])⟩
        rcases hg : xa.get_type xb with _ | d <;>
          exact ⟨_, by simp only [builtin_bundle_get_type, hbi, hai, hg]; rfl, by simp only [VM.push, VM.report_error, VM.report_warning, VM.report_suggestion, List.length_cons]; try omega⟩
      · simp only [Bool.not_eq_true] at ha
        refine ⟨fun h => absurd h (by simp [needTop2, hb, ha]), fun _ => ?_⟩
        exact ⟨.typeError "Bundle" a.type_name, _,
          by simp only [builtin_bundle_get_type, hbi, pop_bundle_neg a ha rest rs dict cb vld dbg]; rfl, rfl⟩
    · simp only [Bool.not_eq_true] at hb
      refine ⟨fun h => absurd h (by simp [needTop2, hb]), fun _ => ?_⟩
      exact ⟨.typeError "Str" b.type_name, _,
        by simp only [builtin_bundle_get_type, pop_str_neg b hb (a :: rest) rs dict cb vld dbg]; rfl, rfl⟩

theorem c2h_require (vm : VM) :
    (needTop2 isStrLike isBoolLike vm.stack = true →
      ∃ vm', builtin_require vm = .ok vm' ∧
        vm'.stack.length + 2 = vm.stack.length + 0) ∧
    (needTop2 isStrLike isBoolLike vm.stack = false →
      ∃ e vm', builtin_require vm = .err e vm' ∧ isTypeOrUnderflow e = true) := by
  obtain ⟨stack, rs, dict, cb, vld, dbg⟩ := vm
  rcases stack with _ | ⟨b, _ | ⟨a, rest⟩⟩
  · exact ⟨fun h => by simp [needTop2] at h, fun _ => ⟨.stackUnderflow "Stack is empty", _, rfl, rfl⟩⟩
  · refine ⟨fun h => by simp [needTop2] at h, fun _ => ?_⟩
    by_cases hb : isStrLike b
    · obtain ⟨xb, hbi⟩ := pop_str_pos b hb [] rs dict cb vld dbg
      exact ⟨.stackUnderflow "Stack is empty", _,
        by simp only [builtin_require, hbi]; rfl, rfl⟩
    · simp only [Bool.not_eq_true] at hb
      exact ⟨.typeError "Str" b.type_name, _,
        by simp only [builtin_require, pop_str_neg b hb [] rs dict cb vld dbg]; rfl, rfl⟩
  · by_cases hb : isStrLike b
    · obtain ⟨xb, hbi⟩ := pop_str_pos b hb (a :: rest) rs dict cb vld dbg
      by_cases ha : isBoolLike a
      · obtain ⟨xa, hav, hai⟩ := pop_bool_pos a ha rest rs dict cb vld dbg
        refine ⟨fun _ => ?_, fun h => absurd h (by simp [needTop2, hb, ha])⟩
        cases xa <;>
          exact ⟨_, by simp only [builtin_require, hbi, hai]; rfl, by simp only [VM.push, VM.report_error, VM.report_warning, VM.report_suggestion, List.length_cons]; try omega⟩
      · simp only [Bool.not_eq_true] at ha
        refine ⟨fun h => absurd h (by simp [needTop2, hb, ha]), fun _ => ?_⟩
        exact ⟨.typeError "Bool" a.type_name, _,
          by simp only [builtin_require, hbi, pop_bool_neg a ha rest rs dict cb vld dbg]; rfl, rfl⟩
    · simp only [Bool.not_eq_true] at hb
      refine ⟨fun h => absurd h (by simp [needTop2, hb]), fun _ => ?_⟩
      exact ⟨.typeError "Str" b.type_name, _,
        by simp only [builtin_require, pop_str_neg b hb (a :: rest) rs dict cb vld dbg]; rfl, rfl⟩

theorem c2h_bundle_docs (vm : VM) :
    (needTop1 isBundleV vm.stack = true →
      ∃ vm', builtin_bundle_docs vm = .ok vm' ∧
        vm'.stack.length + 1 = vm.stack.length + 1) ∧
    (needTop1 isBundleV vm.stack = false →
      ∃ e vm', builtin_bundle_docs vm = .err e vm' ∧ isTypeOrUnderflow e = true) := by
  obtain ⟨stack, rs, dict, cb, vld, dbg⟩ := vm
  rcases stack with _ | ⟨v, rest⟩
  · exact ⟨fun h => by simp [needTop1] at h, fun _ => ⟨.stackUnderflow "Stack is empty", _, rfl, rfl⟩⟩
  · by_cases hv : isBundleV v
    · obtain ⟨x, hx⟩ := pop_bundle_pos v hv rest rs dict cb vld dbg
      refine ⟨fun _ => ?_, fun h => absurd h (by simp [needTop1, hv])⟩
      exact ⟨_, by simp only [builtin_bundle_docs, hx]; rfl, by simp only [VM.push, VM.report_error, VM.report_warning, VM.report_suggestion, List.length_cons]; try omega⟩
    · simp only [Bool.not_eq_true] at hv
      refine ⟨fun h => absurd h (by simp [needTop1, hv]), fun _ => ?_⟩
      exact ⟨.typeError "Bundle" v.type_name, _,
        by simp only [builtin_bundle_docs, pop_bundle_neg v hv rest rs dict cb vld dbg]; rfl, rfl⟩

theorem c2h_bundle_count (vm : VM) :
    (needTop1 isBundleV vm.stack = true →
      ∃ vm', builtin_bundle_count vm = .ok vm' ∧
        vm'.stack.length + 1 = vm.stack.length + 2) ∧
    (needTop1 isBundleV vm.stack = false →
      ∃ e vm', builtin_bundle_count vm = .err e vm' ∧ isTypeOrUnderflow e = true) := by
  obtain ⟨stack, rs, dict, cb, vld, dbg⟩ := vm
  rcases stack with _ | ⟨v, rest⟩
  · exact ⟨fun h => by simp [needTop1] at h, fun _ => ⟨.stackUnderflow "Stack is empty", _, rfl, rfl⟩⟩
  · by_cases hv : isBundleV v
    · obtain ⟨x, hx⟩ := pop_bundle_pos v hv rest rs dict cb vld dbg
      refine ⟨fun _ => ?_, fun h => absurd h (by simp [needTop1, hv])⟩
      exact ⟨_, by simp only [builtin_bundle_count, hx]; rfl, by simp only [VM.push, VM.report_error, VM.report_warning, VM.report_suggestion, List.length_cons]; try omega⟩
    · simp only [Bool.not_eq_true] at hv
      refine ⟨fun h => absurd h (by simp [needTop1, hv]), fun _ => ?_⟩
      exact ⟨.typeError "Bundle" v.type_name, _,
        by simp only [builtin_bundle_count, pop_bundle_neg v hv rest rs dict cb vld dbg]; rfl, rfl⟩

theorem c2h_list_len (vm : VM) :
    (needTop1 isListV vm.stack = true →
      ∃ vm', builtin_list_len vm = .ok vm' ∧
        vm'.stack.length + 1 = vm.stack.length + 2) ∧
    (needTop1 isListV vm.stack = false →
      ∃ e vm', builtin_list_len vm = .err e vm' ∧ isTypeOrUnderflow e = true) := by
  obtain ⟨stack, rs, dict, cb, vld, dbg⟩ := vm
  rcases stack with _ | ⟨v, rest⟩
  · exact ⟨fun h => by simp [needTop1] at h, fun _ => ⟨.stackUnderflow "Stack is empty", _, rfl, rfl⟩⟩
  · by_cases hv : isListV v
    · obtain ⟨x, hx⟩ := pop_list_pos v hv rest rs dict cb vld dbg
      refine ⟨fun _ => ?_, fun h => absurd h (by simp [needTop1, hv])⟩
      exact ⟨_, by simp only [builtin_list_len, hx]; rfl, by simp only [VM.push, VM.report_error, VM.report_warning, VM.report_suggestion, List.length_cons]; try omega⟩
    · simp only [Bool.not_eq_true] at hv
      refine ⟨fun h => absurd h (by simp [needTop1, hv]), fun _ => ?_⟩
      exact ⟨.typeError "List" v.type_name, _,
        by simp only [builtin_list_len, pop_list_neg v hv rest rs dict cb vld dbg]; rfl, rfl⟩

theorem c2h_error (vm : VM) :
    (needTop1 isStrLike vm.stack = true →
      ∃ vm', builtin_error vm = .ok vm' ∧
        vm'.stack.length + 1 = vm.stack.length + 0) ∧
    (needTop1 isStrLike vm.stack = false →
      ∃ e vm', builtin_error vm = .err e vm' ∧ isTypeOrUnderflow e = true) := by
  obtain ⟨stack, rs, dict, cb, vld, dbg⟩ := vm
  rcases stack with _ | ⟨v, rest⟩
  · exact ⟨fun h => by simp [needTop1] at h, fun _ => ⟨.stackUnderflow "Stack is empty", _, rfl, rfl⟩⟩
  · by_cases hv : isStrLike v
    · obtain ⟨x, hx⟩ := pop_str_pos v hv rest rs dict cb vld dbg
      refine ⟨fun _ => ?_, fun h => absurd h (by simp [needTop1, hv])⟩
      exact ⟨_, by simp only [builtin_error, hx]; rfl, by simp only [VM.push, VM.report_error, VM.report_warning, VM.report_suggestion, List.length_cons]; try omega⟩
    · simp only [Bool.not_eq_true] at hv
      refine ⟨fun h => absurd h (by simp [needTop1, hv]), fun _ => ?_⟩
      exact ⟨.typeError "Str" v.type_name, _,
        by simp only [builtin_error, pop_str_neg v hv rest rs dict cb vld dbg]; rfl, rfl⟩

theorem c2h_warn (vm : VM) :
    (needTop1 isStrLike vm.stack = true →
      ∃ vm', builtin_warn vm = .ok vm' ∧
        vm'.stack.length + 1 = vm.stack.length + 0) ∧
    (needTop1 isStrLike vm.stack = false →
      ∃ e vm', builtin_warn vm = .err e vm' ∧ isTypeOrUnderflow e = true) := by
  obtain ⟨stack, rs, dict, cb, vld, dbg⟩ := vm
  rcases stack with _ | ⟨v, rest⟩
  · exact ⟨fun h => by simp [needTop1] at h, fun _ => ⟨.stackUnderflow "Stack is empty", _, rfl, rfl⟩⟩
  · by_cases hv : isStrLike v
    · obtain ⟨x, hx⟩ := pop_str_pos v hv rest rs dict cb vld dbg
      refine ⟨fun _ => ?_, fun h => absurd h (by simp [needTop1, hv])⟩
      exact ⟨_, by simp only [builtin_warn, hx]; rfl, by simp only [VM.push, VM.report_error, VM.report_warning, VM.report_suggestion, List.length_cons]; try omega⟩
    · simp only [Bool.not_eq_true] at hv
      refine ⟨fun h => absurd h (by simp [needTop1, hv]), fun _ => ?_⟩
      exact ⟨.typeError "Str" v.type_name, _,
        by simp only [builtin_warn, pop_str_neg v hv rest rs dict cb vld dbg]; rfl, rfl⟩

theorem c2h_suggest (vm : VM) :
    (needTop1 isStrLike vm.stack = true →
      ∃ vm', builtin_suggest vm = .ok vm' ∧
        vm'.stack.length + 1 = vm.stack.length + 0) ∧
    (needTop1 isStrLike vm.stack = false →
      ∃ e vm', builtin_suggest vm = .err e vm' ∧ isTypeOrUnderflow e = true) := by
  obtain ⟨stack, rs, dict, cb, vld, dbg⟩ := vm
  rcases stack with _ | ⟨v, rest⟩
  · exact ⟨fun h => by simp [needTop1] at h, fun _ => ⟨.stackUnderflow "Stack is empty", _, rfl, rfl⟩⟩
  · by_cases hv : isStrLike v
    · obtain ⟨x, hx⟩ := pop_str_pos v hv rest rs dict cb vld dbg
      refine ⟨fun _ => ?_, fun h => absurd h (by simp [needTop1, hv])⟩
      exact ⟨_, by simp only [builtin_suggest, hx]; rfl, by simp only [VM.push, VM.report_error, VM.report_warning, VM.report_suggestion, List.length_cons]; try omega⟩
    · simp only [Bool.not_eq_true] at hv
      refine ⟨fun h => absurd h (by simp [needTop1, hv]), fun _ => ?_⟩
      exact ⟨.typeError "Str" v.type_name, _,
        by simp only [builtin_suggest, pop_str_neg v hv rest rs dict cb vld dbg]; rfl, rfl⟩

theorem c2h_list_pop (vm : VM) :
    (needTop1 isListV vm.stack = true →
      ∃ vm', builtin_list_pop vm = .ok vm' ∧
        vm'.stack.length + 1 = vm.stack.length + 2) ∧
    (needTop1 isListV vm.stack = false →
      ∃ e vm', builtin_list_pop vm = .err e vm' ∧ isTypeOrUnderflow e = true) := by
  obtain ⟨stack, rs, dict, cb, vld, dbg⟩ := vm
  rcases stack with _ | ⟨v, rest⟩
  · exact ⟨fun h => by simp [needTop1] at h, fun _ => ⟨.stackUnderflow "Stack is empty", _, rfl, rfl⟩⟩
  · by_cases hv : isListV v
    · obtain ⟨x, hx⟩ := pop_list_pos v hv rest rs dict cb vld dbg
      refine ⟨fun _ => ?_, fun h => absurd h (by simp [needTop1, hv])⟩
      rcases hg : x.getLast? with _ | item <;>
          exact ⟨_, by simp only [builtin_list_pop, hx, hg]; rfl, by simp only [VM.push, VM.report_error, VM.report_warning, VM.report_suggestion, List.length_cons]; try omega⟩
    · simp only [Bool.not_eq_true] at hv
      refine ⟨fun h => absurd h (by simp [needTop1, hv]), fun _ => ?_⟩
      exact ⟨.typeError "List" v.type_name, _,
        by simp only [builtin_list_pop, pop_list_neg v hv rest rs dict cb vld dbg]; rfl, rfl⟩

theorem c2h_list_push (vm : VM) :
    (needTop2 anyV isListV vm.stack = true →
      ∃ vm', builtin_list_push vm = .ok vm' ∧
        vm'.stack.length + 2 = vm.stack.length + 1) ∧
    (needTop2 anyV isListV vm.stack = false →
      ∃ e vm', builtin_list_push vm = .err e vm' ∧ isTypeOrUnderflow e = true) := by
  obtain ⟨stack, rs, dict, cb, vld, dbg⟩ := vm
  rcases stack with _ | ⟨b, _ | ⟨a, rest⟩⟩
  · exact ⟨fun h => by simp [needTop2] at h, fun _ => ⟨.stackUnderflow "Stack is empty", _, rfl, rfl⟩⟩
  · exact ⟨fun h => by simp [needTop2] at h, fun _ => ⟨.stackUnderflow "Stack is empty", _, rfl, rfl⟩⟩
  · by_cases ha : isListV a
    · obtain ⟨xl, hxa⟩ := pop_list_pos a ha rest rs dict cb vld dbg
      refine ⟨fun _ => ⟨_, by simp only [builtin_list_push, VM.pop, hxa]; rfl,
          by simp only [VM.push, VM.report_error, VM.report_warning, VM.report_suggestion, List.length_cons]; try omega⟩,
        fun h => absurd h (by simp [needTop2, anyV, ha])⟩
    · simp only [Bool.not_eq_true] at ha
      refine ⟨fun h => absurd h (by simp [needTop2, anyV, ha]), fun _ => ?_⟩
      exact ⟨.typeError "List" a.type_name, _,
        by simp only [builtin_list_push, VM.pop,
          pop_list_neg a ha rest rs dict cb vld dbg]; rfl, rfl⟩

theorem c2h_pack_rule (vm : VM) :
    (needTop3 isQuotV isStrLike isPackV vm.stack = true →
      ∃ vm', builtin_pack_rule vm = .ok vm' ∧
        vm'.stack.length + 3 = vm.stack.length + 1) ∧
    (needTop3 isQuotV isStrLike isPackV vm.stack = false →
      ∃ e vm', builtin_pack_rule vm = .err e vm' ∧ isTypeOrUnderflow e = true) := by
  obtain ⟨stack, rs, dict, cb, vld, dbg⟩ := vm
  rcases stack with _ | ⟨c, _ | ⟨b, _ | ⟨a, rest⟩⟩⟩
  · exact ⟨fun h => by simp [needTop3] at h, fun _ => ⟨.stackUnderflow "Stack is empty", _, rfl, rfl⟩⟩
  · refine ⟨fun h => by simp [needTop3] at h, fun _ => ?_⟩
    by_cases hc : isQuotV c
    · obtain ⟨xc, hci⟩ := pop_quot_pos c hc [] rs dict cb vld dbg
      exact ⟨.stackUnderflow "Stack is empty", _,
        by simp only [builtin_pack_rule, hci]; rfl, rfl⟩
    · simp only [Bool.not_eq_true] at hc
      exact ⟨.typeError "Quotation" c.type_name, _,
        by simp only [builtin_pack_rule,
          pop_quot_neg c hc [] rs dict cb vld dbg]; rfl, rfl⟩
  · refine ⟨fun h => by simp [needTop3] at h, fun _ => ?_⟩
    by_cases hc : isQuotV c
    · obtain ⟨xc, hci⟩ := pop_quot_pos c hc [b] rs dict cb vld dbg
      by_cases hb : isStrLike b
      · obtain ⟨xb, hbi⟩ := pop_str_pos b hb [] rs dict cb vld dbg
        exact ⟨.stackUnderflow "Stack is empty", _,
          by simp only [builtin_pack_rule, hci, hbi]; rfl, rfl⟩
      · simp only [Bool.not_eq_true] at hb
        exact ⟨.typeError "Str" b.type_name, _,
          by simp only [builtin_pack_rule, hci,
            pop_str_neg b hb [] rs dict cb vld dbg]; rfl, rfl⟩
    · simp only [Bool.not_eq_true] at hc
      exact ⟨.typeError "Quotation" c.type_name, _,
        by simp only [builtin_pack_rule,
          pop_quot_neg c hc [b] rs dict cb vld dbg]; rfl, rfl⟩
  · by_cases hc : isQuotV c
    · obtain ⟨xc, hci⟩ := pop_quot_pos c hc (b :: a :: rest) rs dict cb vld dbg
      by_cases hb : isStrLike b
      · obtain ⟨xb, hbi⟩ := pop_str_pos b hb (a :: rest) rs dict cb vld dbg
        by_cases ha : isPackV a
        · obtain ⟨xa, hai⟩ := pop_pack_pos a ha rest rs dict cb vld dbg
          refine ⟨fun _ => ⟨_, by simp only [builtin_pack_rule, hci, hbi, hai]; rfl,
              by simp only [VM.push, VM.report_error, VM.report_warning, VM.report_suggestion, List.length_cons]; try omega⟩,
            fun h => absurd h (by simp [needTop3, hc, hb, ha])⟩
        · simp only [Bool.not_eq_true] at ha
          refine ⟨fun h => absurd h (by simp [needTop3, hc, hb, ha]), fun _ => ?_⟩
          exact ⟨.typeError "Pack" a.type_name, _,
            by simp only [builtin_pack_rule, hci, hbi,
              pop_pack_neg a ha rest rs dict cb vld dbg]; rfl, rfl⟩
      · simp only [Bool.not_eq_true] at hb
        refine ⟨fun h => absurd h (by simp [needTop3, hc, hb]), fun _ => ?_⟩
        exact ⟨.typeError "Str" b.type_name, _,
          by simp only [builtin_pack_rule, hci,
            pop_str_neg b hb (a :: rest) rs dict cb vld dbg]; rfl, rfl⟩
    · simp only [Bool.not_eq_true] at hc
      refine ⟨fun h => absurd h (by simp [needTop3, hc]), fun _ => ?_⟩
      exact ⟨.typeError "Quotation" c.type_name, _,
        by simp only [builtin_pack_rule,
          pop_quot_neg c hc (b :: a :: rest) rs dict cb vld dbg]; rfl, rfl⟩


theorem checkRequired_spec (b : Bundle) (reqs : List String) (vm : VM) :
    checkRequired b reqs vm =
      { vm with validation :=
          { vm.validation with
            success := vm.validation.success && (missingMsgs b reqs).isEmpty
            errors := vm.validation.errors ++ missingMsgs b reqs } } := by
  induction reqs generalizing vm with
  | nil => simp [checkRequired, missingMsgs]
  | cons req rest ih =>
    by_cases h : b.has_type req
    · simp [checkRequired, h, ih, missingMsgs]
    · simp [checkRequired, h, ih, missingMsgs, VM.report_error]


theorem bundle_validate_norules (recurse : List Token → VM → ExecRes)
    (vm : VM) (b : Bundle) (p : PackSpec) (rest : List Value)
    (h : vm.stack = .pack p :: .bundle b :: rest) (hrules : p.rules = []) :
    builtin_bundle_validate recurse vm =
      .ok { vm with
            stack := .validationResult (requiredResult b p.required) ::
                     .bundle b :: rest
            validation := requiredResult b p.required } := by
  simp only [builtin_bundle_validate, VM.pop_pack, h, VM.pop_bundle,
    checkRequired_spec, hrules, runRules, VM.reset_validation,
    ValidationResult.default, VM.push, requiredResult]
  simp

/-- C2 (corrected): every built-in word with a documented stack effect
`(a1 .. am -- b1 .. bn)` changes the stack depth by exactly `n - m` when
its inputs type-check and its run-time guards (nonzero divisor for `/` and
`mod`) hold, and raises a type or underflow error when the inputs do not
type-check; `bundle-validate` attains its documented net depth change of 0
for every rule-free pack.  (The original claim extended the net-zero
effect to every pack; the rules phase pops one value per rule after
running it, so a rule that consumes the pushed bundle shrinks the stack --
see the counterexample.) -/
theorem c2_effects :
    (∀ (w : NativeWord) (m n : Nat) (recurse : List Token → VM → ExecRes) (vm : VM),
      docEffect w = some (m, n) →
      ((inputsOk w vm.stack = true → guardOk w vm.stack = true →
        ∃ vm', execNative recurse w vm = .ok vm' ∧
          vm'.stack.length + m = vm.stack.length + n) ∧
       (inputsOk w vm.stack = false →
        ∃ e vm', execNative recurse w vm = .err e vm' ∧
          isTypeOrUnderflow e = true))) ∧
    (∀ (recurse : List Token → VM → ExecRes) (vm : VM) (b : Bundle)
       (p : PackSpec) (rest : List Value),
      vm.stack = .pack p :: .bundle b :: rest → p.rules = [] →
      ∃ vm', builtin_bundle_validate recurse vm = .ok vm' ∧
        vm'.stack.length = vm.stack.length) := by
  constructor
  · intro w m n recurse vm h
    cases w
    case dup =>
      simp only [docEffect, Option.some.injEq, Prod.mk.injEq] at h
      obtain ⟨rfl, rfl⟩ := h
      exact ⟨fun h1 _ => (c2h_dup vm).1 h1, (c2h_dup vm).2⟩
    case drop =>
      simp only [docEffect, Option.some.injEq, Prod.mk.injEq] at h
      obtain ⟨rfl, rfl⟩ := h
      exact ⟨fun h1 _ => (c2h_drop vm).1 h1, (c2h_drop vm).2⟩
    case swap =>
      simp only [docEffect, Option.some.injEq, Prod.mk.injEq] at h
      obtain ⟨rfl, rfl⟩ := h
      exact ⟨fun h1 _ => (c2h_swap vm).1 h1, (c2h_swap vm).2⟩
    case over =>
      simp only [docEffect, Option.some.injEq, Prod.mk.injEq] at h
      obtain ⟨rfl, rfl⟩ := h
      exact ⟨fun h1 _ => (c2h_over vm).1 h1, (c2h_over vm).2⟩
    case rot =>
      simp only [docEffect, Option.some.injEq, Prod.mk.injEq] at h
      obtain ⟨rfl, rfl⟩ := h
      exact ⟨fun h1 _ => (c2h_rot vm).1 h1, (c2h_rot vm).2⟩
    case nip =>
      simp only [docEffect, Option.some.injEq, Prod.mk.injEq] at h
      obtain ⟨rfl, rfl⟩ := h
      exact ⟨fun h1 _ => (c2h_nip vm).1 h1, (c2h_nip vm).2⟩
    case tuck =>
      simp only [docEffect, Option.some.injEq, Prod.mk.injEq] at h
      obtain ⟨rfl, rfl⟩ := h
      exact ⟨fun h1 _ => (c2h_tuck vm).1 h1, (c2h_tuck vm).2⟩
    case eq =>
      simp only [docEffect, Option.some.injEq, Prod.mk.injEq] at h
      obtain ⟨rfl, rfl⟩ := h
      exact ⟨fun h1 _ => (c2h_eq vm).1 h1, (c2h_eq vm).2⟩
    case neq =>
      simp only [docEffect, Option.some.injEq, Prod.mk.injEq] at h
      obtain ⟨rfl, rfl⟩ := h
      exact ⟨fun h1 _ => (c2h_neq vm).1 h1, (c2h_neq vm).2⟩
    case depth =>
      simp only [docEffect, Option.some.injEq, Prod.mk.injEq] at h
      obtain ⟨rfl, rfl⟩ := h
      exact ⟨fun h1 _ => (c2h_depth vm).1 h1, (c2h_depth vm).2⟩
    case add =>
      simp only [docEffect, Option.some.injEq, Prod.mk.injEq] at h
      obtain ⟨rfl, rfl⟩ := h
      exact ⟨fun h1 _ => (c2_binInt _ vm).1 h1, (c2_binInt _ vm).2⟩
    case sub =>
      simp only [docEffect, Option.some.injEq, Prod.mk.injEq] at h
      obtain ⟨rfl, rfl⟩ := h
      exact ⟨fun h1 _ => (c2_binInt _ vm).1 h1, (c2_binInt _ vm).2⟩
    case mul =>
      simp only [docEffect, Option.some.injEq, Prod.mk.injEq] at h
      obtain ⟨rfl, rfl⟩ := h
      exact ⟨fun h1 _ => (c2_binInt _ vm).1 h1, (c2_binInt _ vm).2⟩
    case lt =>
      simp only [docEffect, Option.some.injEq, Prod.mk.injEq] at h
      obtain ⟨rfl, rfl⟩ := h
      exact ⟨fun h1 _ => (c2_binInt _ vm).1 h1, (c2_binInt _ vm).2⟩
    case gt =>
      simp only [docEffect, Option.some.injEq, Prod.mk.injEq] at h
      obtain ⟨rfl, rfl⟩ := h
      exact ⟨fun h1 _ => (c2_binInt _ vm).1 h1, (c2_binInt _ vm).2⟩
    case le =>
      simp only [docEffect, Option.some.injEq, Prod.mk.injEq] at h
      obtain ⟨rfl, rfl⟩ := h
      exact ⟨fun h1 _ => (c2_binInt _ vm).1 h1, (c2_binInt _ vm).2⟩
    case ge =>
      simp only [docEffect, Option.some.injEq, Prod.mk.injEq] at h
      obtain ⟨rfl, rfl⟩ := h
      exact ⟨fun h1 _ => (c2_binInt _ vm).1 h1, (c2_binInt _ vm).2⟩
    case abs =>
      simp only [docEffect, Option.some.injEq, Prod.mk.injEq] at h
      obtain ⟨rfl, rfl⟩ := h
      exact ⟨fun h1 _ => (c2_unaryInt _ vm).1 h1, (c2_unaryInt _ vm).2⟩
    case negate =>
      simp only [docEffect, Option.some.injEq, Prod.mk.injEq] at h
      obtain ⟨rfl, rfl⟩ := h
      exact ⟨fun h1 _ => (c2_unaryInt _ vm).1 h1, (c2_unaryInt _ vm).2⟩
    case and_ =>
      simp only [docEffect, Option.some.injEq, Prod.mk.injEq] at h
      obtain ⟨rfl, rfl⟩ := h
      exact ⟨fun h1 _ => (c2_binBool _ vm).1 h1, (c2_binBool _ vm).2⟩
    case or_ =>
      simp only [docEffect, Option.some.injEq, Prod.mk.injEq] at h
      obtain ⟨rfl, rfl⟩ := h
      exact ⟨fun h1 _ => (c2_binBool _ vm).1 h1, (c2_binBool _ vm).2⟩
    case not_ =>
      simp only [docEffect, Option.some.injEq, Prod.mk.injEq] at h
      obtain ⟨rfl, rfl⟩ := h
      exact ⟨fun h1 _ => (c2h_not vm).1 h1, (c2h_not vm).2⟩
    case true_ =>
      simp only [docEffect, Option.some.injEq, Prod.mk.injEq] at h
      obtain ⟨rfl, rfl⟩ := h
      exact ⟨fun h1 _ => (c2_pushWord _ vm).1 h1, (c2_pushWord _ vm).2⟩
    case false_ =>
      simp only [docEffect, Option.some.injEq, Prod.mk.injEq] at h
      obtain ⟨rfl, rfl⟩ := h
      exact ⟨fun h1 _ => (c2_pushWord _ vm).1 h1, (c2_pushWord _ vm).2⟩
    case nil_ =>
      simp only [docEffect, Option.some.injEq, Prod.mk.injEq] at h
      obtain ⟨rfl, rfl⟩ := h
      exact ⟨fun h1 _ => (c2_pushWord _ vm).1 h1, (c2_pushWord _ vm).2⟩
    case str_concat =>
      simp only [docEffect, Option.some.injEq, Prod.mk.injEq] at h
      obtain ⟨rfl, rfl⟩ := h
      exact ⟨fun h1 _ => (c2_binStr _ vm).1 h1, (c2_binStr _ vm).2⟩
    case str_contains =>
      simp only [docEffect, Option.some.injEq, Prod.mk.injEq] at h
      obtain ⟨rfl, rfl⟩ := h
      exact ⟨fun h1 _ => (c2_binStr _ vm).1 h1, (c2_binStr _ vm).2⟩
    case str_starts =>
      simp only [docEffect, Option.some.injEq, Prod.mk.injEq] at h
      obtain ⟨rfl, rfl⟩ := h
      exact ⟨fun h1 _ => (c2_binStr _ vm).1 h1, (c2_binStr _ vm).2⟩
    case str_ends =>
      simp only [docEffect, Option.some.injEq, Prod.mk.injEq] at h
      obtain ⟨rfl, rfl⟩ := h
      exact ⟨fun h1 _ => (c2_binStr _ vm).1 h1, (c2_binStr _ vm).2⟩
    case str_split =>
      simp only [docEffect, Option.some.injEq, Prod.mk.injEq] at h
      obtain ⟨rfl, rfl⟩ := h
      exact ⟨fun h1 _ => (c2_binStr _ vm).1 h1, (c2_binStr _ vm).2⟩
    case str_trim =>
      simp only [docEffect, Option.some.injEq, Prod.mk.injEq] at h
      obtain ⟨rfl, rfl⟩ := h
      exact ⟨fun h1 _ => (c2_unaryStr _ vm).1 h1, (c2_unaryStr _ vm).2⟩
    case str_upper =>
      simp only [docEffect, Option.some.injEq, Prod.mk.injEq] at h
      obtain ⟨rfl, rfl⟩ := h
      exact ⟨fun h1 _ => (c2_unaryStr _ vm).1 h1, (c2_unaryStr _ vm).2⟩
    case str_lower =>
      simp only [docEffect, Option.some.injEq, Prod.mk.injEq] at h
      obtain ⟨rfl, rfl⟩ := h
      exact ⟨fun h1 _ => (c2_unaryStr _ vm).1 h1, (c2_unaryStr _ vm).2⟩
    case str_len =>
      simp only [docEffect, Option.some.injEq, Prod.mk.injEq] at h
      obtain ⟨rfl, rfl⟩ := h
      exact ⟨fun h1 _ => (c2_unaryStr _ vm).1 h1, (c2_unaryStr _ vm).2⟩
    case list_new =>
      simp only [docEffect, Option.some.injEq, Prod.mk.injEq] at h
      obtain ⟨rfl, rfl⟩ := h
      exact ⟨fun h1 _ => (c2_pushWord _ vm).1 h1, (c2_pushWord _ vm).2⟩
    case list_push =>
      simp only [docEffect, Option.some.injEq, Prod.mk.injEq] at h
      obtain ⟨rfl, rfl⟩ := h
      exact ⟨fun h1 _ => (c2h_list_push vm).1 h1, (c2h_list_push vm).2⟩
    case list_pop =>
      simp only [docEffect, Option.some.injEq, Prod.mk.injEq] at h
      obtain ⟨rfl, rfl⟩ := h
      exact ⟨fun h1 _ => (c2h_list_pop vm).1 h1, (c2h_list_pop vm).2⟩
    case list_get =>
      simp only [docEffect, Option.some.injEq, Prod.mk.injEq] at h
      obtain ⟨rfl, rfl⟩ := h
      exact ⟨fun h1 _ => (c2h_list_get vm).1 h1, (c2h_list_get vm).2⟩
    case list_len =>
      simp only [docEffect, Option.some.injEq, Prod.mk.injEq] at h
      obtain ⟨rfl, rfl⟩ := h
      exact ⟨fun h1 _ => (c2h_list_len vm).1 h1, (c2h_list_len vm).2⟩
    case doc_hash =>
      simp only [docEffect, Option.some.injEq, Prod.mk.injEq] at h
      obtain ⟨rfl, rfl⟩ := h
      exact ⟨fun h1 _ => (c2_unaryDoc _ vm).1 h1, (c2_unaryDoc _ vm).2⟩
    case doc_type =>
      simp only [docEffect, Option.some.injEq, Prod.mk.injEq] at h
      obtain ⟨rfl, rfl⟩ := h
      exact ⟨fun h1 _ => (c2_unaryDoc _ vm).1 h1, (c2_unaryDoc _ vm).2⟩
    case doc_path =>
      simp only [docEffect, Option.some.injEq, Prod.mk.injEq] at h
      obtain ⟨rfl, rfl⟩ := h
      exact ⟨fun h1 _ => (c2_unaryDoc _ vm).1 h1, (c2_unaryDoc _ vm).2⟩
    case doc_content =>
      simp only [docEffect, Option.some.injEq, Prod.mk.injEq] at h
      obtain ⟨rfl, rfl⟩ := h
      exact ⟨fun h1 _ => (c2_unaryDoc _ vm).1 h1, (c2_unaryDoc _ vm).2⟩
    case doc_version =>
      simp only [docEffect, Option.some.injEq, Prod.mk.injEq] at h
      obtain ⟨rfl, rfl⟩ := h
      exact ⟨fun h1 _ => (c2_unaryDoc _ vm).1 h1, (c2_unaryDoc _ vm).2⟩
    case doc_canonical =>
      simp only [docEffect, Option.some.injEq, Prod.mk.injEq] at h
      obtain ⟨rfl, rfl⟩ := h
      exact ⟨fun h1 _ => (c2_unaryDoc _ vm).1 h1, (c2_unaryDoc _ vm).2⟩
    case docs_same_hash =>
      simp only [docEffect, Option.some.injEq, Prod.mk.injEq] at h
      obtain ⟨rfl, rfl⟩ := h
      exact ⟨fun h1 _ => (c2_binDoc _ vm).1 h1, (c2_binDoc _ vm).2⟩
    case docs_same_type =>
      simp only [docEffect, Option.some.injEq, Prod.mk.injEq] at h
      obtain ⟨rfl, rfl⟩ := h
      exact ⟨fun h1 _ => (c2_binDoc _ vm).1 h1, (c2_binDoc _ vm).2⟩
    case bundle_new =>
      simp only [docEffect, Option.some.injEq, Prod.mk.injEq] at h
      obtain ⟨rfl, rfl⟩ := h
      exact ⟨fun h1 _ => (c2_pushWord _ vm).1 h1, (c2_pushWord _ vm).2⟩
    case bundle_add =>
      simp only [docEffect, Option.some.injEq, Prod.mk.injEq] at h
      obtain ⟨rfl, rfl⟩ := h
      exact ⟨fun h1 _ => (c2h_bundle_add vm).1 h1, (c2h_bundle_add vm).2⟩
    case bundle_docs =>
      simp only [docEffect, Option.some.injEq, Prod.mk.injEq] at h
      obtain ⟨rfl, rfl⟩ := h
      exact ⟨fun h1 _ => (c2h_bundle_docs vm).1 h1, (c2h_bundle_docs vm).2⟩
    case bundle_count =>
      simp only [docEffect, Option.some.injEq, Prod.mk.injEq] at h
      obtain ⟨rfl, rfl⟩ := h
      exact ⟨fun h1 _ => (c2h_bundle_count vm).1 h1, (c2h_bundle_count vm).2⟩
    case bundle_has_type =>
      simp only [docEffect, Option.some.injEq, Prod.mk.injEq] at h
      obtain ⟨rfl, rfl⟩ := h
      exact ⟨fun h1 _ => (c2h_bundle_has_type vm).1 h1, (c2h_bundle_has_type vm).2⟩
    case bundle_get_type =>
      simp only [docEffect, Option.some.injEq, Prod.mk.injEq] at h
      obtain ⟨rfl, rfl⟩ := h
      exact ⟨fun h1 _ => (c2h_bundle_get_type vm).1 h1, (c2h_bundle_get_type vm).2⟩
    case pack_new =>
      simp only [docEffect, Option.some.injEq, Prod.mk.injEq] at h
      obtain ⟨rfl, rfl⟩ := h
      exact ⟨fun h1 _ => (c2_unaryStr _ vm).1 h1, (c2_unaryStr _ vm).2⟩
    case pack_require =>
      simp only [docEffect, Option.some.injEq, Prod.mk.injEq] at h
      obtain ⟨rfl, rfl⟩ := h
      exact ⟨fun h1 _ => (c2h_pack_require vm).1 h1, (c2h_pack_require vm).2⟩
    case pack_optional =>
      simp only [docEffect, Option.some.injEq, Prod.mk.injEq] at h
      obtain ⟨rfl, rfl⟩ := h
      exact ⟨fun h1 _ => (c2h_pack_optional vm).1 h1, (c2h_pack_optional vm).2⟩
    case pack_rule =>
      simp only [docEffect, Option.some.injEq, Prod.mk.injEq] at h
      obtain ⟨rfl, rfl⟩ := h
      exact ⟨fun h1 _ => (c2h_pack_rule vm).1 h1, (c2h_pack_rule vm).2⟩
    case error_bang =>
      simp only [docEffect, Option.some.injEq, Prod.mk.injEq] at h
      obtain ⟨rfl, rfl⟩ := h
      exact ⟨fun h1 _ => (c2h_error vm).1 h1, (c2h_error vm).2⟩
    case warn_bang =>
      simp only [docEffect, Option.some.injEq, Prod.mk.injEq] at h
      obtain ⟨rfl, rfl⟩ := h
      exact ⟨fun h1 _ => (c2h_warn vm).1 h1, (c2h_warn vm).2⟩
    case suggest_bang =>
      simp only [docEffect, Option.some.injEq, Prod.mk.injEq] at h
      obtain ⟨rfl, rfl⟩ := h
      exact ⟨fun h1 _ => (c2h_suggest vm).1 h1, (c2h_suggest vm).2⟩
    case require_bang =>
      simp only [docEffect, Option.some.injEq, Prod.mk.injEq] at h
      obtain ⟨rfl, rfl⟩ := h
      exact ⟨fun h1 _ => (c2h_require vm).1 h1, (c2h_require vm).2⟩
    case hash_content =>
      simp only [docEffect, Option.some.injEq, Prod.mk.injEq] at h
      obtain ⟨rfl, rfl⟩ := h
      exact ⟨fun h1 _ => (c2_unaryStr _ vm).1 h1, (c2_unaryStr _ vm).2⟩
    case div =>
      simp only [docEffect, Option.some.injEq, Prod.mk.injEq] at h
      obtain ⟨rfl, rfl⟩ := h
      exact ⟨(c2h_div vm).1, (c2h_div vm).2⟩
    case mod =>
      simp only [docEffect, Option.some.injEq, Prod.mk.injEq] at h
      obtain ⟨rfl, rfl⟩ := h
      exact ⟨(c2h_mod vm).1, (c2h_mod vm).2⟩
    case if_ => simp [docEffect] at h
    case when_ => simp [docEffect] at h
    case unless_ => simp [docEffect] at h
    case call_ => simp [docEffect] at h
    case each => simp [docEffect] at h
    case map => simp [docEffect] at h
    case filter => simp [docEffect] at h
    case reduce => simp [docEffect] at h
    case bundle_validate => simp [docEffect] at h
    case pack_ship => simp [docEffect] at h
    case print_stack => simp [docEffect] at h
    case print_validation => simp [docEffect] at h
  · intro recurse vm b p rest h hrules
    exact ⟨_, bundle_validate_norules recurse vm b p rest h hrules, by simp [h]⟩

/-- C2 counterexample: a pack whose single rule `drop` consumes the
bundle pushed for it makes `bundle-validate` finish at stack depth 2 from
depth 3 -- the documented `( bundle pack -- bundle result )` net-zero
effect does not extend to every pack; `/` on type-correct inputs `5 0`
raises a runtime error instead of realizing its `(2 -- 1)` effect; and on
the type-correct nonzero-divisor pair `i64::MIN -1` the Rust overflow
check panics instead of pushing. -/
theorem c2_counterexample :
    (vmC2.stack.length = 3 ∧ packDrop.rules ≠ [] ∧
      ∃ vm', builtin_bundle_validate (execute 9) vmC2 = .ok vm' ∧
        vm'.stack.length = 2) ∧
    (inputsOk NativeWord.div vmDiv0.stack = true ∧
      builtin_div vmDiv0 =
        .err (.runtimeError "Division by zero") { vmDiv0 with stack := [] }) ∧
    (inputsOk NativeWord.div vmOvf.stack = true ∧ (-1 : Int) ≠ 0 ∧
      builtin_div vmOvf = .panic "attempt to divide with overflow") :=
  ⟨⟨rfl, List.cons_ne_nil _ _, ⟨_, rfl, rfl⟩⟩, ⟨rfl, rfl⟩, rfl, by decide, rfl⟩

/-- C2 witness: `+` on two ints realizes its documented `(2 -- 1)` effect,
and a rule-free pack keeps `bundle-validate` at net depth 0. -/
theorem c2_witness :
    (∃ vm', execNative (fun _ vm => ExecRes.ok vm) NativeWord.add
        { VM.new with stack := [Value.int 3, Value.int 4] } = .ok vm' ∧
      vm'.stack.length + 2 =
        ({ VM.new with stack := [Value.int 3, Value.int 4] } : VM).stack.length
          + 1) ∧
    (∃ vm', builtin_bundle_validate (fun _ vm => ExecRes.ok vm) vmC1 =
        .ok vm' ∧
      vm'.stack.length = vmC1.stack.length) :=
  ⟨(c2_effects.1 NativeWord.add 2 1 (fun _ vm => ExecRes.ok vm)
      { VM.new with stack := [Value.int 3, Value.int 4] } rfl).1 rfl rfl,
   c2_effects.2 (fun _ vm => ExecRes.ok vm) vmC1 bundleR packLicense [] rfl rfl⟩

/-- C9: `=` on two `Float` values pushes `Bool(false)` regardless of the
payloads: `Float` is not among the structurally compared variants, so the
comparison falls into the catch-all `false` case. -/
theorem c9_float_eq_false (vm : VM) (x y : Int) (rest : List Value)
    (h : vm.stack = .float y :: .float x :: rest) :
    builtin_eq vm = .ok { vm with stack := .bool false :: rest } := by
  simp [builtin_eq, VM.pop, h, VM.push]

/-- C9 witness: `1.0 1.0 =` pushes `false` although the floats are
numerically equal. -/
theorem c9_witness :
    vmC9.stack = .float 1 :: .float 1 :: [] ∧
    builtin_eq vmC9 = .ok { vmC9 with stack := [.bool false] } :=
  ⟨rfl, c9_float_eq_false vmC9 1 1 [] rfl⟩

/-- C7 (corrected): with two int-coercible values on the stack (`b` on
top), `/` and `mod` raise `RuntimeError("Division by zero")` respectively
`RuntimeError("Modulo by zero")` exactly when `b` coerces to 0.  For a
nonzero divisor the claimed error-free push of the truncated quotient
(`Int.tdiv`, Rust `/`) and truncation remainder (`Int.tmod`, Rust `%`)
holds in every case but one: at `a = i64::MIN, b = -1` the result
overflows `i64` and Rust panics -- a mandatory overflow check present in
every build profile -- instead of pushing. -/
theorem c7_div_mod (vm : VM) (va vb : Value) (a b : Int) (rest : List Value)
    (h : vm.stack = vb :: va :: rest)
    (ha : va.as_int = some a) (hb : vb.as_int = some b) :
    (b = 0 →
      builtin_div vm = .err (.runtimeError "Division by zero") { vm with stack := rest } ∧
      builtin_mod vm = .err (.runtimeError "Modulo by zero") { vm with stack := rest }) ∧
    (b ≠ 0 → ¬(a = -9223372036854775808 ∧ b = -1) →
      builtin_div vm = .ok { vm with stack := .int (Int.tdiv a b) :: rest } ∧
      builtin_mod vm = .ok { vm with stack := .int (Int.tmod a b) :: rest }) ∧
    (a = -9223372036854775808 → b = -1 →
      builtin_div vm = .panic "attempt to divide with overflow" ∧
      builtin_mod vm =
        .panic "attempt to calculate the remainder with overflow") := by
  refine ⟨?_, ?_, ?_⟩
  · rintro rfl
    simp [builtin_div, builtin_mod, VM.pop_int, h, ha, hb]
  · intro hbne hno
    have hA : (a == -9223372036854775808 && b == -1) = false := by
      by_cases hAi : a = -9223372036854775808
      · have hBi : b ≠ -1 := fun hB => hno ⟨hAi, hB⟩
        have h2 : (b == -1) = false := by
          rcases hbe : b == -1
          · rfl
          · exact absurd (eq_of_beq hbe) hBi
        simp [h2]
      · have h1 : (a == -9223372036854775808) = false := by
          rcases hbe : a == -9223372036854775808
          · rfl
          · exact absurd (eq_of_beq hbe) hAi
        simp [h1]
    simp [builtin_div, builtin_mod, VM.pop_int, h, ha, hb, hbne, hA, VM.push]
  · rintro rfl rfl
    simp [builtin_div, builtin_mod, VM.pop_int, h, ha, hb]

/-- C7 counterexample: the divisor `-1` is nonzero, yet at `a = i64::MIN`
neither `/` nor `mod` pushes a result -- the mandatory Rust overflow check
panics, refuting the claim that no error is raised for every nonzero
divisor. -/
theorem c7_counterexample :
    ((-1 : Int) ≠ 0) ∧
    builtin_div vmOvf = .panic "attempt to divide with overflow" ∧
    builtin_mod vmOvf =
      .panic "attempt to calculate the remainder with overflow" :=
  ⟨by decide, rfl, rfl⟩

/-- C10 (corrected): `list-get` never fails beyond its type/underflow
pops: it always returns `ok`, pushing the element at index `i mod 2^32`
(the wasm32 `as usize` truncation of the popped `i64`) when that lands
below the list length, and `Nil` otherwise.  In particular it pushes the
element at `i` for `0 <= i < length`, and `Nil` for every negative `i`
down to `length - 2^32`; but -- contrary to the original claim -- not for
*every* out-of-range index: the truncation maps e.g. `-2^32` on a
non-empty list back to index 0 (see the counterexample). -/
theorem c10_list_get (vm : VM) (l : List Value) (i : Int) (rest : List Value)
    (h : vm.stack = .int i :: .list l :: rest) :
    builtin_list_get vm =
      .ok { vm with stack := l.getD (i % 4294967296).toNat .nil :: rest } ∧
    (0 ≤ i → i < (l.length : Int) → (l.length : Int) ≤ 4294967296 →
      l.getD (i % 4294967296).toNat .nil = l.getD i.toNat .nil) ∧
    (i < 0 → -(4294967296) ≤ i → (l.length : Int) ≤ 4294967296 + i →
      l.getD (i % 4294967296).toNat .nil = .nil) := by
  refine ⟨?_, ?_, ?_⟩
  · simp only [builtin_list_get, VM.pop_int, h, Value.as_int, VM.pop_list]
    rcases hg : l[(i % 4294967296).toNat]? with _ | item <;>
      simp [hg, List.getD_eq_getElem?_getD, VM.push]
  · intro h0 hlt hlen
    have hidx : (i % 4294967296).toNat = i.toNat := by omega
    rw [hidx]
  · intro hneg hlo hlen
    have hge : l.length ≤ (i % 4294967296).toNat := by omega
    simp [List.getD_eq_getElem?_getD, List.getElem?_eq_none hge]

/-- C10 counterexample: index `-2^32` on a two-element list is negative
and out of range, but the wasm32 truncation maps it to index 0 and the
first element is pushed, not `Nil` -- refuting "pushes Nil for every other
i, negative indices included". -/
theorem c10_counterexample :
    ((-4294967296 : Int) < 0) ∧
    builtin_list_get vmC10c = .ok { vmC10c with stack := [Value.int 10] } :=
  ⟨by decide, rfl⟩

theorem takeWhile_body (body rest' : List Token) (h : Token.defEnd ∉ body) :
    (body ++ Token.defEnd :: rest').takeWhile (fun t => t != Token.defEnd) = body ∧
    (body ++ Token.defEnd :: rest').dropWhile (fun t => t != Token.defEnd) =
      Token.defEnd :: rest' := by
  induction body with
  | nil => simp
  | cons t ts ih =>
    have ht : t ≠ Token.defEnd := fun hc => h (by simp [hc])
    have hts : Token.defEnd ∉ ts := fun hc => h (List.mem_cons_of_mem _ hc)
    simp [List.takeWhile_cons, List.dropWhile_cons, ht, (ih hts).1, (ih hts).2]

theorem dictLookup_dictInsert (name : String) (w : WordDef) (d : Dictionary) :
    dictLookup name (dictInsert name w d) = some w := by
  induction d with
  | nil => simp [dictInsert, dictLookup]
  | cons kv rest ih =>
    obtain ⟨k, v⟩ := kv
    by_cases hk : k = name
    · simp [dictInsert, dictLookup, hk]
    · simp [dictInsert, dictLookup, hk, ih]

/-- C8: executing a definition form `: name body ;` installs the collected
body as the dictionary entry for `name`, replacing any existing entry --
built-ins included (`dictInsert` replaces) -- and every subsequent `name`
dispatches to the stored user body. -/
theorem c8_define_replaces (fuel : Nat) (name : String)
    (body rest : List Token) (vm : VM)
    (h1 : Token.defEnd ∉ body) (h2 : body.head? ≠ some Token.stackEffectStart) :
    (execute (fuel + 1) (.defStart :: .word name :: (body ++ .defEnd :: rest)) vm
      = execute fuel rest (vm.define_word name body)) ∧
    dictLookup name (vm.define_word name body).dictionary = some (.user body) ∧
    (∀ (fuel2 : Nat) (rest2 : List Token) (vm2 : VM),
      dictLookup name vm2.dictionary = some (.user body) →
      execute (fuel2 + 1) (.word name :: rest2) vm2 =
        match execute fuel2 body vm2 with
        | .ok vm3 => execute fuel2 rest2 vm3
        | .err e vm3 => .err e vm3
        | .timeout => .timeout
        | .panic m => .panic m) := by
  refine ⟨?_, ?_, ?_⟩
  · cases body with
    | nil => simp [execute, List.takeWhile_cons, List.dropWhile_cons]
    | cons t ts =>
      have ht : t ≠ Token.stackEffectStart := by
        intro hc
        simp [hc] at h2
      have hTD := takeWhile_body (t :: ts) rest h1
      cases t <;> simp_all [execute]
  · exact dictLookup_dictInsert name (.user body) vm.dictionary
  · intro fuel2 rest2 vm2 hlook
    simp only [execute, hlook]

/-- C5 counterexample: `"ab"` underlined by `"==="` (length 3) satisfies
the claim's `len >= 3` pattern and none of the earlier format heuristics,
yet `detect_format` answers `PlainText`: the code requires `l.len() > 3`,
i.e. byte length at least 4. -/
theorem c5_counterexample :
    (orgCond1 (strTrim "ab\n===") = false ∧ orgCond2 (strTrim "ab\n===") = false ∧
     asciidocCond (strTrim "ab\n===") = false ∧ typstCond (strTrim "ab\n===") = false ∧
     djotCond (strTrim "ab\n===") = false ∧ c5_underline_pattern "ab\n===" = true) ∧
    detect_format "ab\n===" = .plainText :=
  ⟨⟨rfl, rfl, rfl, rfl, rfl, rfl⟩, rfl⟩

/-- C5 (corrected): if the content matches none of the org-mode, AsciiDoc,
Typst, or Djot heuristics and the trimmed content has an adjacent line
pair whose second line consists only of `=`/`-`/`~`, has byte length at
least 4 (the code tests `l.len() > 3`, not the claimed `>= 3`), and is at
least as long as the line before it, then `detect_format` returns
`ReStructuredText`. -/
theorem c5_underline_detects_rst (content : String)
    (h1 : orgCond1 (strTrim content) = false)
    (h2 : orgCond2 (strTrim content) = false)
    (h3 : asciidocCond (strTrim content) = false)
    (h4 : typstCond (strTrim content) = false)
    (h5 : djotCond (strTrim content) = false)
    (prev cur : String)
    (hmem : (prev, cur) ∈
      (strLines (strTrim content)).zip (strLines (strTrim content)).tail)
    (hu : cur.toList.all isUnderlineChar = true)
    (hlen : 4 ≤ byteLen cur)
    (hprev : byteLen prev ≤ byteLen cur) :
    detect_format content = .reStructuredText := by
  have hgate : rstGate (strTrim content) = true := by
    unfold rstGate
    have hcur : cur ∈ strLines (strTrim content) :=
      List.mem_of_mem_tail (List.of_mem_zip hmem).2
    refine List.any_eq_true.mpr ⟨cur, hcur, ?_⟩
    simp only [hu, Bool.true_and, gt_iff_lt, decide_eq_true_eq]
    omega
  have hscan : rstScan (strTrim content) = true := by
    unfold rstScan
    refine List.any_eq_true.mpr ⟨(prev, cur), hmem, ?_⟩
    simp only [hu, Bool.true_and, ge_iff_le, decide_eq_true_eq]
    omega
  unfold detect_format
  by_cases h6 : rstDirectiveCond (strTrim content) <;>
    simp [h1, h2, h3, h4, h5, h6, hgate, hscan]

/-- C5 witness: `"ab"` underlined by `"===="` (length 4) is detected as
reStructuredText. -/
theorem c5_witness :
    orgCond1 (strTrim "ab\n====") = false ∧
    c5_underline_pattern "ab\n====" = true ∧
    detect_format "ab\n====" = .reStructuredText :=
  ⟨rfl, rfl,
    c5_underline_detects_rst "ab\n====" rfl rfl rfl rfl rfl "ab" "===="
      (by decide) rfl (by decide) (by decide)⟩

theorem splitGoAux_ne_nil (s0 : Char) (sr : List Char) (n : Nat) (s : List Char) :
    splitGoAux s0 sr n s ≠ [] := by
  match n, s with
  | _, [] => simp [splitGoAux]
  | 0, _ :: _ => simp [splitGoAux]
  | n + 1, c :: cs =>
    simp only [splitGoAux]
    by_cases hp : (s0 :: sr).isPrefixOf (c :: cs) <;> simp [hp] <;> split <;> simp

theorem joinSep_cons_head (rep : List Char) (c : Char) (h : List Char)
    (t : List (List Char)) :
    joinSep rep ((c :: h) :: t) = c :: joinSep rep (h :: t) := by
  cases t <;> simp [joinSep]

theorem joinSep_splitGoAux (s0 : Char) (sr rep : List Char) :
    ∀ (n : Nat) (s : List Char), s.length ≤ n →
      joinSep rep (splitGoAux s0 sr n s) = replaceGoAux s0 sr rep n s := by
  intro n
  induction n with
  | zero =>
    intro s hs
    obtain rfl : s = [] := List.length_eq_zero.mp (Nat.le_zero.mp hs)
    rfl
  | succ n ih =>
    intro s hs
    cases s with
    | nil => rfl
    | cons c cs =>
      have hcs : cs.length ≤ n := by
        simp only [List.length_cons] at hs
        omega
      simp only [splitGoAux, replaceGoAux]
      by_cases hp : (s0 :: sr).isPrefixOf (c :: cs)
      · have hd : (List.drop sr.length cs).length ≤ n := by
          simp only [List.length_drop]
          omega
        simp only [hp, if_true]
        rw [← ih _ hd]
        obtain ⟨h, t, hht⟩ :=
          List.exists_cons_of_ne_nil (splitGoAux_ne_nil s0 sr n (List.drop sr.length cs))
        rw [hht]
        simp [joinSep]
      · simp only [hp, if_false]
        obtain ⟨h, t, hht⟩ := List.exists_cons_of_ne_nil (splitGoAux_ne_nil s0 sr n cs)
        rw [hht, ← ih cs hcs, hht]
        simp [joinSep_cons_head]

/-- C6: `normalize_content` equals the claim's description -- trim the
whole string, convert CRLF to LF, right-trim every line, collapse each run
of three newlines to two -- and maps the claim's example to
`"Hello\n\nWorld"`. -/
theorem c6_normalize :
    (∀ s, normalize_content s = normalize_content_spec s) ∧
    normalize_content "  Hello  \r\n\r\n\r\nWorld  " = "Hello\n\nWorld" := by
  constructor
  · intro s
    simp only [normalize_content, normalize_content_spec]
    refine congrArg List.asString ?_
    rw [show ("\n\n\n".toList) = '\n' :: '\n' :: '\n' :: [] from rfl]
    simp only [splitL, replaceL, splitGo, replaceGo]
    exact joinSep_splitGoAux '\n' ['\n', '\n'] "\n\n".toList _ _ le_rfl
  · rfl

/-- C1: `bundle-validate` (and its alias `pack-ship`) on a stack holding a
pack over a bundle resets the validation accumulator, records one error
`"Missing required document: <t>"` for each required type `t` the bundle
lacks (in `required` order), and — whenever the rules phase completes —
pushes the original bundle back followed by the accumulator snapshot as a
`ValidationResult`; with no required types and no rules the pushed result
is the pristine accumulator (`success = true`, no messages), for every
bundle. -/
theorem c1_bundle_validate_required (recurse : List Token → VM → ExecRes)
    (vm : VM) (b : Bundle) (p : PackSpec) (rest : List Value)
    (h : vm.stack = .pack p :: .bundle b :: rest) :
    builtin_pack_ship recurse vm = builtin_bundle_validate recurse vm ∧
    (checkRequired b p.required
        ({ vm with stack := rest } : VM).reset_validation).validation =
      requiredResult b p.required ∧
    (∀ vm4, runRules recurse b p.rules
        (checkRequired b p.required
          ({ vm with stack := rest } : VM).reset_validation) =
        RulesOut.done vm4 →
      builtin_bundle_validate recurse vm =
        .ok ((vm4.push (.bundle b)).push (.validationResult vm4.validation))) ∧
    (p.rules = [] →
      builtin_bundle_validate recurse vm =
        .ok { vm with
              stack := .validationResult (requiredResult b p.required) ::
                       .bundle b :: rest
              validation := requiredResult b p.required }) ∧
    ((requiredResult b p.required).errors.map (fun m => m.message) =
      (p.required.filter (fun t => !(b.has_type t))).map
        (fun t => "Missing required document: " ++ t)) ∧
    ((requiredResult b p.required).success = true ↔
      p.required.filter (fun t => !(b.has_type t)) = []) ∧
    (requiredResult b p.required).warnings = [] ∧
    (requiredResult b p.required).suggestions = [] ∧
    (p.required = [] → requiredResult b p.required = ValidationResult.default) := by
  refine ⟨rfl, ?_, ?_, ?_, ?_, ?_, rfl, rfl, ?_⟩
  · rw [checkRequired_spec]
    simp [VM.reset_validation, ValidationResult.default, requiredResult]
  · intro vm4 hr
    simp only [builtin_bundle_validate, VM.pop_pack, h, VM.pop_bundle, hr]
  · intro hrules
    exact bundle_validate_norules recurse vm b p rest h hrules
  · simp [requiredResult, missingMsgs, ValidationMessage.new]
  · simp [requiredResult, missingMsgs, List.isEmpty_iff]
  · intro hreq
    simp [requiredResult, missingMsgs, hreq, ValidationResult.default]

/-- C1 witness: validating `bundleR` (one README) against a pack that
requires a LICENSE and has no rules yields the missing-document error and
a pushed snapshot with `success = false`. -/
theorem c1_witness :
    builtin_bundle_validate (fun _ vm => ExecRes.ok vm) vmC1 =
      .ok { vmC1 with
            stack := [Value.validationResult (requiredResult bundleR ["LICENSE"]),
                      Value.bundle bundleR]
            validation := requiredResult bundleR ["LICENSE"] } ∧
    (requiredResult bundleR ["LICENSE"]).success = false ∧
    (requiredResult bundleR ["LICENSE"]).errors =
      [ValidationMessage.new "Missing required document: LICENSE"] :=
  ⟨(c1_bundle_validate_required (fun _ vm => ExecRes.ok vm) vmC1 bundleR
      packLicense [] rfl).2.2.2.1 rfl, rfl, rfl⟩

/-- C3: the rules phase of `bundle-validate` pushes a clone of the bundle
before each rule body and runs the body as a quotation; a body that ends
in an execution error is caught: the validation error
`"Rule '<name>' failed: <err>"` is recorded, the loop continues with the
remaining rules on the partially-mutated state, and `bundle-validate`
itself never returns an execution error: its outcomes are `ok`, the fuel
artifact `timeout`, or a propagated Rust panic (an abort, not an `Error`
value, and not what the catch concerns). -/
theorem c3_rule_errors_caught (recurse : List Token → VM → ExecRes) (vm : VM)
    (b : Bundle) (p : PackSpec) (rest : List Value)
    (h : vm.stack = .pack p :: .bundle b :: rest) :
    (∀ e vm', builtin_bundle_validate recurse vm ≠ .err e vm') ∧
    (∀ (rule : Rule) (rs : List Rule) (vmq vm2 : VM) (e : Error),
      recurse rule.body (vmq.push (.bundle b)) = .err e vm2 →
      runRules recurse b (rule :: rs) vmq =
        runRules recurse b rs
          ((vm2.report_error (ruleFailedMsg rule.name e)).dropTop) ∧
      (vm2.report_error (ruleFailedMsg rule.name e)).validation.errors =
        vm2.validation.errors ++
          [ValidationMessage.new (ruleFailedMsg rule.name e)]) := by
  constructor
  · intro e vm'
    simp only [builtin_bundle_validate, VM.pop_pack, h, VM.pop_bundle]
    rcases hr : runRules recurse b p.rules
        (checkRequired b p.required
          ({ vm with stack := rest } : VM).reset_validation)
      with vm4 | _ | m <;> simp [hr]
  · intro rule rs vmq vm2 e hrec
    constructor
    · simp only [runRules, hrec]
    · simp [VM.report_error]

/-- C3 witness: a rule body raising `UndefinedWord` (pack `packBad`) is
caught — `bundle-validate` returns `ok`, never an execution error — and
the caught-error bookkeeping at a concrete erroring rule records exactly
the message `Rule (quote) r (quote) failed: Runtime error: boom`. -/
theorem c3_witness :
    builtin_bundle_validate (execute 9) vmC3 ≠
      ExecRes.err (Error.undefinedWord "no-such") vmC3 ∧
    (∃ vm', builtin_bundle_validate (execute 9) vmC3 = .ok vm') ∧
    (runRules (fun _ vm => ExecRes.err (Error.runtimeError "boom") vm) bundleR
        [{ name := "r", body := [] }] VM.new =
      runRules (fun _ vm => ExecRes.err (Error.runtimeError "boom") vm) bundleR
        []
        (((VM.new.push (Value.bundle bundleR)).report_error
            (ruleFailedMsg "r" (Error.runtimeError "boom"))).dropTop) ∧
      ((VM.new.push (Value.bundle bundleR)).report_error
          (ruleFailedMsg "r" (Error.runtimeError "boom"))).validation.errors =
        (VM.new.push (Value.bundle bundleR)).validation.errors ++
          [ValidationMessage.new (ruleFailedMsg "r" (Error.runtimeError "boom"))]) :=
  ⟨(c3_rule_errors_caught (execute 9) vmC3 bundleR packBad [] rfl).1
     (Error.undefinedWord "no-such") vmC3,
   ⟨_, rfl⟩,
   (c3_rule_errors_caught
      (fun _ vm => ExecRes.err (Error.runtimeError "boom") vm)
      vmC3 bundleR packBad [] rfl).2
     { name := "r", body := [] } [] VM.new
     (VM.new.push (Value.bundle bundleR)) (Error.runtimeError "boom") rfl⟩

/-- C7 witness: `5 0 /` and `5 0 mod` raise the zero-divisor runtime
errors; `-7 2 /` yields the truncated quotient `-3` and `-7 2 mod` the
truncation remainder `-1`. -/
theorem c7_witness :
    (builtin_div vmDiv0 =
        .err (.runtimeError "Division by zero") { vmDiv0 with stack := [] } ∧
      builtin_mod vmDiv0 =
        .err (.runtimeError "Modulo by zero") { vmDiv0 with stack := [] }) ∧
    (builtin_div vmC7 = .ok { vmC7 with stack := [.int (-3)] } ∧
      builtin_mod vmC7 = .ok { vmC7 with stack := [.int (-1)] }) ∧
    (builtin_div vmOvf = .panic "attempt to divide with overflow" ∧
      builtin_mod vmOvf =
        .panic "attempt to calculate the remainder with overflow") :=
  ⟨(c7_div_mod vmDiv0 (.int 5) (.int 0) 5 0 [] rfl rfl rfl).1 rfl,
   (c7_div_mod vmC7 (.int (-7)) (.int 2) (-7) 2 [] rfl rfl rfl).2.1
     (by decide) (by decide),
   (c7_div_mod vmOvf (.int (-9223372036854775808)) (.int (-1))
     (-9223372036854775808) (-1) [] rfl rfl rfl).2.2 rfl rfl⟩

/-- C8 witness: `: dup ;` replaces the built-in `dup` with the empty user
body, and a later `dup` dispatches to that body. -/
theorem c8_witness :
    (execute 2 [Token.defStart, Token.word "dup", Token.defEnd] VM.new =
      execute 1 [] (VM.new.define_word "dup" [])) ∧
    dictLookup "dup" (VM.new.define_word "dup" []).dictionary =
      some (WordDef.user []) ∧
    (execute 2 [Token.word "dup"] (VM.new.define_word "dup" []) =
      match execute 1 [] (VM.new.define_word "dup" []) with
      | .ok vm3 => execute 1 [] vm3
      | .err e vm3 => .err e vm3
      | .timeout => .timeout
      | .panic m => .panic m) :=
  ⟨(c8_define_replaces 1 "dup" [] [] VM.new (by simp) (by simp)).1,
   (c8_define_replaces 1 "dup" [] [] VM.new (by simp) (by simp)).2.1,
   (c8_define_replaces 1 "dup" [] [] VM.new (by simp) (by simp)).2.2 1 []
     (VM.new.define_word "dup" [])
     ((c8_define_replaces 1 "dup" [] [] VM.new (by simp) (by simp)).2.1)⟩

/-- C10 witness: `list-get` at index `-1` of a two-element list pushes
`Nil` without error; at index `1` it pushes the element. -/
theorem c10_witness :
    builtin_list_get vmC10 =
      .ok { vmC10 with stack := [Value.nil] } ∧
    builtin_list_get vmC10b =
      .ok { vmC10b with stack := [Value.int 20] } :=
  ⟨by
    rw [(c10_list_get vmC10 [.int 10, .int 20] (-1) [] rfl).1]
    rfl,
   by
    rw [(c10_list_get vmC10b [.int 10, .int 20] 1 [] rfl).1]
    rfl⟩


theorem pop_ok_vld (vm vm' : VM) (v : Value) (h : vm.pop = .ok (v, vm')) :
    vm'.validation = vm.validation := by
  unfold VM.pop at h
  rcases hs : vm.stack with _ | ⟨w, rest⟩ <;> rw [hs] at h
  · exact absurd h (by simp)
  · injection h with h1
    obtain ⟨rfl, rfl⟩ : w = v ∧ { vm with stack := rest } = vm' := by
      constructor <;> injection h1 <;> simp_all
    rfl

/-- Carrying `successInv` across a state with equal accumulator. -/
theorem successInv_of_eq (vm vm1 : VM) (h : vm1.validation = vm.validation)
    (hv : successInv vm) : successInv vm1 := by
  unfold successInv
  rw [h]
  exact hv

theorem pop_int_preserves : popPreserves VM.pop_int := by
  intro vm
  obtain ⟨stack, rs, dict, cb, vld, dbg⟩ := vm
  rcases stack with _ | ⟨v, rest⟩
  · rfl
  · rcases hvi : v.as_int with _ | i <;> simp [VM.pop_int, hvi]

theorem pop_bool_preserves : popPreserves VM.pop_bool := by
  intro vm
  obtain ⟨stack, rs, dict, cb, vld, dbg⟩ := vm
  rcases stack with _ | ⟨v, rest⟩
  · rfl
  · rcases hvb : v.as_bool with _ | b <;> simp [VM.pop_bool, hvb]

theorem pop_str_preserves : popPreserves VM.pop_str := by
  intro vm
  obtain ⟨stack, rs, dict, cb, vld, dbg⟩ := vm
  rcases stack with _ | ⟨v, rest⟩
  · rfl
  · cases v <;> rfl

theorem pop_doc_preserves : popPreserves VM.pop_doc := by
  intro vm
  obtain ⟨stack, rs, dict, cb, vld, dbg⟩ := vm
  rcases stack with _ | ⟨v, rest⟩
  · rfl
  · cases v <;> rfl

theorem pop_bundle_preserves : popPreserves VM.pop_bundle := by
  intro vm
  obtain ⟨stack, rs, dict, cb, vld, dbg⟩ := vm
  rcases stack with _ | ⟨v, rest⟩
  · rfl
  · cases v <;> rfl

theorem pop_pack_preserves : popPreserves VM.pop_pack := by
  intro vm
  obtain ⟨stack, rs, dict, cb, vld, dbg⟩ := vm
  rcases stack with _ | ⟨v, rest⟩
  · rfl
  · cases v <;> rfl

theorem pop_quot_preserves : popPreserves VM.pop_quotation := by
  intro vm
  obtain ⟨stack, rs, dict, cb, vld, dbg⟩ := vm
  rcases stack with _ | ⟨v, rest⟩
  · rfl
  · cases v <;> rfl

theorem pop_list_preserves : popPreserves VM.pop_list := by
  intro vm
  obtain ⟨stack, rs, dict, cb, vld, dbg⟩ := vm
  rcases stack with _ | ⟨v, rest⟩
  · rfl
  · cases v <;> rfl

theorem pop_int_vld (vm : VM) {r : Except Error Int} {vm1 : VM}
    (h : vm.pop_int = (r, vm1)) : vm1.validation = vm.validation := by
  have e := pop_int_preserves vm
  rw [h] at e
  exact e

theorem pop_bool_vld (vm : VM) {r : Except Error Bool} {vm1 : VM}
    (h : vm.pop_bool = (r, vm1)) : vm1.validation = vm.validation := by
  have e := pop_bool_preserves vm
  rw [h] at e
  exact e

theorem pop_str_vld (vm : VM) {r : Except Error String} {vm1 : VM}
    (h : vm.pop_str = (r, vm1)) : vm1.validation = vm.validation := by
  have e := pop_str_preserves vm
  rw [h] at e
  exact e

theorem pop_doc_vld (vm : VM) {r : Except Error Document} {vm1 : VM}
    (h : vm.pop_doc = (r, vm1)) : vm1.validation = vm.validation := by
  have e := pop_doc_preserves vm
  rw [h] at e
  exact e

theorem pop_bundle_vld (vm : VM) {r : Except Error Bundle} {vm1 : VM}
    (h : vm.pop_bundle = (r, vm1)) : vm1.validation = vm.validation := by
  have e := pop_bundle_preserves vm
  rw [h] at e
  exact e

theorem pop_pack_vld (vm : VM) {r : Except Error PackSpec} {vm1 : VM}
    (h : vm.pop_pack = (r, vm1)) : vm1.validation = vm.validation := by
  have e := pop_pack_preserves vm
  rw [h] at e
  exact e

theorem pop_quot_vld (vm : VM) {r : Except Error (List Token)} {vm1 : VM}
    (h : vm.pop_quotation = (r, vm1)) : vm1.validation = vm.validation := by
  have e := pop_quot_preserves vm
  rw [h] at e
  exact e

theorem pop_list_vld (vm : VM) {r : Except Error (List Value)} {vm1 : VM}
    (h : vm.pop_list = (r, vm1)) : vm1.validation = vm.validation := by
  have e := pop_list_preserves vm
  rw [h] at e
  exact e

theorem inv_of_vldEq {r : ExecRes} {vm : VM} (h : resVldEq r vm)
    (hv : successInv vm) : resInv r := by
  cases r with
  | ok vm1 => exact successInv_of_eq vm vm1 h hv
  | err e vm1 => exact successInv_of_eq vm vm1 h hv
  | timeout => exact trivial
  | panic m => exact trivial

theorem vldEq_trans {r : ExecRes} {vm1 vm : VM} (h1 : resVldEq r vm1)
    (h2 : vm1.validation = vm.validation) : resVldEq r vm := by
  cases r with
  | ok vm2 => exact Eq.trans h1 h2
  | err e vm2 => exact Eq.trans h1 h2
  | timeout => exact trivial
  | panic m => exact trivial

/-! vldEq lemmas for the combinator-shaped built-ins -/

theorem vldEq_binIntWord (g : Int → Int → Value) (vm : VM) :
    resVldEq (binIntWord g vm) vm := by
  unfold binIntWord
  rcases h1 : vm.pop_int with ⟨e | b, vm1⟩ <;> simp only [h1]
  · exact pop_int_vld vm h1
  · rcases h2 : vm1.pop_int with ⟨e | a, vm2⟩ <;> simp only [h2] <;>
      exact (Eq.trans (pop_int_vld vm1 h2) (pop_int_vld vm h1) :
        vm2.validation = vm.validation)

theorem vldEq_unaryIntWord (g : Int → Value) (vm : VM) :
    resVldEq (unaryIntWord g vm) vm := by
  unfold unaryIntWord
  rcases h1 : vm.pop_int with ⟨e | a, vm1⟩ <;> simp only [h1] <;>
    exact (pop_int_vld vm h1 : vm1.validation = vm.validation)

theorem vldEq_binBoolWord (g : Bool → Bool → Value) (vm : VM) :
    resVldEq (binBoolWord g vm) vm := by
  unfold binBoolWord
  rcases h1 : vm.pop_bool with ⟨e | b, vm1⟩ <;> simp only [h1]
  · exact pop_bool_vld vm h1
  · rcases h2 : vm1.pop_bool with ⟨e | a, vm2⟩ <;> simp only [h2] <;>
      exact (Eq.trans (pop_bool_vld vm1 h2) (pop_bool_vld vm h1) :
        vm2.validation = vm.validation)

theorem vldEq_binStrWord (g : String → String → Value) (vm : VM) :
    resVldEq (binStrWord g vm) vm := by
  unfold binStrWord
  rcases h1 : vm.pop_str with ⟨e | b, vm1⟩ <;> simp only [h1]
  · exact pop_str_vld vm h1
  · rcases h2 : vm1.pop_str with ⟨e | a, vm2⟩ <;> simp only [h2] <;>
      exact (Eq.trans (pop_str_vld vm1 h2) (pop_str_vld vm h1) :
        vm2.validation = vm.validation)

theorem vldEq_unaryStrWord (g : String → Value) (vm : VM) :
    resVldEq (unaryStrWord g vm) vm := by
  unfold unaryStrWord
  rcases h1 : vm.pop_str with ⟨e | s, vm1⟩ <;> simp only [h1] <;>
    exact (pop_str_vld vm h1 : vm1.validation = vm.validation)

theorem vldEq_unaryDocWord (g : Document → Value) (vm : VM) :
    resVldEq (unaryDocWord g vm) vm := by
  unfold unaryDocWord
  rcases h1 : vm.pop_doc with ⟨e | d, vm1⟩ <;> simp only [h1] <;>
    exact (pop_doc_vld vm h1 : vm1.validation = vm.validation)

theorem vldEq_binDocWord (g : Document → Document → Value) (vm : VM) :
    resVldEq (binDocWord g vm) vm := by
  unfold binDocWord
  rcases h1 : vm.pop_doc with ⟨e | d2, vm1⟩ <;> simp only [h1]
  · exact pop_doc_vld vm h1
  · rcases h2 : vm1.pop_doc with ⟨e | d1, vm2⟩ <;> simp only [h2] <;>
      exact (Eq.trans (pop_doc_vld vm1 h2) (pop_doc_vld vm h1) :
        vm2.validation = vm.validation)

theorem vldEq_pushWord (v : Value) (vm : VM) : resVldEq (pushWord v vm) vm :=
  rfl

/-! vldEq lemmas for the bespoke built-ins that leave validation alone -/

theorem vldEq_dup (vm : VM) : resVldEq (builtin_dup vm) vm := by
  unfold builtin_dup
  rcases h1 : vm.pop with e | ⟨v, vm1⟩ <;> simp only [h1]
  · rfl
  · exact (pop_ok_vld vm vm1 v h1 : vm1.validation = vm.validation)

theorem vldEq_drop (vm : VM) : resVldEq (builtin_drop vm) vm := by
  unfold builtin_drop
  rcases h1 : vm.pop with e | ⟨v, vm1⟩ <;> simp only [h1]
  · rfl
  · exact (pop_ok_vld vm vm1 v h1 : vm1.validation = vm.validation)

theorem vldEq_swap (vm : VM) : resVldEq (builtin_swap vm) vm := by
  unfold builtin_swap
  rcases h1 : vm.pop with e | ⟨b, vm1⟩ <;> simp only [h1]
  · rfl
  · rcases h2 : vm1.pop with e | ⟨a, vm2⟩ <;> simp only [h2]
    · exact pop_ok_vld vm vm1 b h1
    · exact (Eq.trans (pop_ok_vld vm1 vm2 a h2) (pop_ok_vld vm vm1 b h1) :
        vm2.validation = vm.validation)

theorem vldEq_over (vm : VM) : resVldEq (builtin_over vm) vm := by
  unfold builtin_over
  rcases h1 : vm.pop with e | ⟨b, vm1⟩ <;> simp only [h1]
  · rfl
  · rcases h2 : vm1.pop with e | ⟨a, vm2⟩ <;> simp only [h2]
    · exact pop_ok_vld vm vm1 b h1
    · exact (Eq.trans (pop_ok_vld vm1 vm2 a h2) (pop_ok_vld vm vm1 b h1) :
        vm2.validation = vm.validation)

theorem vldEq_rot (vm : VM) : resVldEq (builtin_rot vm) vm := by
  unfold builtin_rot
  rcases h1 : vm.pop with e | ⟨c, vm1⟩ <;> simp only [h1]
  · rfl
  · rcases h2 : vm1.pop with e | ⟨b, vm2⟩ <;> simp only [h2]
    · exact pop_ok_vld vm vm1 c h1
    · rcases h3 : vm2.pop with e | ⟨a, vm3⟩ <;> simp only [h3]
      · exact (Eq.trans (pop_ok_vld vm1 vm2 b h2) (pop_ok_vld vm vm1 c h1) :
          vm2.validation = vm.validation)
      · exact (Eq.trans (pop_ok_vld vm2 vm3 a h3)
          (Eq.trans (pop_ok_vld vm1 vm2 b h2) (pop_ok_vld vm vm1 c h1)) :
          vm3.validation = vm.validation)

theorem vldEq_nip (vm : VM) : resVldEq (builtin_nip vm) vm := by
  unfold builtin_nip
  rcases h1 : vm.pop with e | ⟨b, vm1⟩ <;> simp only [h1]
  · rfl
  · rcases h2 : vm1.pop with e | ⟨a, vm2⟩ <;> simp only [h2]
    · exact pop_ok_vld vm vm1 b h1
    · exact (Eq.trans (pop_ok_vld vm1 vm2 a h2) (pop_ok_vld vm vm1 b h1) :
        vm2.validation = vm.validation)

theorem vldEq_tuck (vm : VM) : resVldEq (builtin_tuck vm) vm := by
  unfold builtin_tuck
  rcases h1 : vm.pop with e | ⟨b, vm1⟩ <;> simp only [h1]
  · rfl
  · rcases h2 : vm1.pop with e | ⟨a, vm2⟩ <;> simp only [h2]
    · exact pop_ok_vld vm vm1 b h1
    · exact (Eq.trans (pop_ok_vld vm1 vm2 a h2) (pop_ok_vld vm vm1 b h1) :
        vm2.validation = vm.validation)

theorem vldEq_depth (vm : VM) : resVldEq (builtin_depth vm) vm := rfl

theorem vldEq_div (vm : VM) : resVldEq (builtin_div vm) vm := by
  unfold builtin_div
  rcases h1 : vm.pop_int with ⟨e | b, vm1⟩ <;> simp only [h1]
  · exact pop_int_vld vm h1
  · rcases h2 : vm1.pop_int with ⟨e | a, vm2⟩ <;> simp only [h2]
    · exact Eq.trans (pop_int_vld vm1 h2) (pop_int_vld vm h1)
    · split
      · exact (Eq.trans (pop_int_vld vm1 h2) (pop_int_vld vm h1) :
          vm2.validation = vm.validation)
      · split
        · exact trivial
        · exact (Eq.trans (pop_int_vld vm1 h2) (pop_int_vld vm h1) :
            vm2.validation = vm.validation)

theorem vldEq_mod (vm : VM) : resVldEq (builtin_mod vm) vm := by
  unfold builtin_mod
  rcases h1 : vm.pop_int with ⟨e | b, vm1⟩ <;> simp only [h1]
  · exact pop_int_vld vm h1
  · rcases h2 : vm1.pop_int with ⟨e | a, vm2⟩ <;> simp only [h2]
    · exact Eq.trans (pop_int_vld vm1 h2) (pop_int_vld vm h1)
    · split
      · exact (Eq.trans (pop_int_vld vm1 h2) (pop_int_vld vm h1) :
          vm2.validation = vm.validation)
      · split
        · exact trivial
        · exact (Eq.trans (pop_int_vld vm1 h2) (pop_int_vld vm h1) :
            vm2.validation = vm.validation)

theorem vldEq_eq (vm : VM) : resVldEq (builtin_eq vm) vm := by
  unfold builtin_eq
  rcases h1 : vm.pop with e | ⟨b, vm1⟩ <;> simp only [h1]
  · rfl
  · rcases h2 : vm1.pop with e | ⟨a, vm2⟩ <;> simp only [h2]
    · exact pop_ok_vld vm vm1 b h1
    · exact (Eq.trans (pop_ok_vld vm1 vm2 a h2) (pop_ok_vld vm vm1 b h1) :
        vm2.validation = vm.validation)

theorem vldEq_not (vm : VM) : resVldEq (builtin_not vm) vm := by
  unfold builtin_not
  rcases h1 : vm.pop_bool with ⟨e | a, vm1⟩ <;> simp only [h1] <;>
    exact (pop_bool_vld vm h1 : vm1.validation = vm.validation)

theorem vldEq_neq (vm : VM) : resVldEq (builtin_neq vm) vm := by
  unfold builtin_neq
  have he := vldEq_eq vm
  rcases h : builtin_eq vm with vm1 | ⟨e, vm1⟩ | _ | m <;> rw [h] at he <;>
    simp only [h]
  · exact vldEq_trans (vldEq_not vm1) he
  · exact he
  · exact trivial
  · exact trivial

theorem vldEq_list_push (vm : VM) : resVldEq (builtin_list_push vm) vm := by
  unfold builtin_list_push
  rcases h1 : vm.pop with e | ⟨item, vm1⟩ <;> simp only [h1]
  · rfl
  · rcases h2 : vm1.pop_list with ⟨e | l, vm2⟩ <;> simp only [h2] <;>
      exact (Eq.trans (pop_list_vld vm1 h2) (pop_ok_vld vm vm1 item h1) :
        vm2.validation = vm.validation)

theorem vldEq_list_pop (vm : VM) : resVldEq (builtin_list_pop vm) vm := by
  unfold builtin_list_pop
  rcases h1 : vm.pop_list with ⟨e | l, vm1⟩ <;> simp only [h1]
  · exact pop_list_vld vm h1
  · rcases h2 : l.getLast? with _ | item <;> simp only [h2] <;>
      exact (pop_list_vld vm h1 : vm1.validation = vm.validation)

theorem vldEq_list_get (vm : VM) : resVldEq (builtin_list_get vm) vm := by
  unfold builtin_list_get
  rcases h1 : vm.pop_int with ⟨e | i, vm1⟩ <;> simp only [h1]
  · exact pop_int_vld vm h1
  · rcases h2 : vm1.pop_list with ⟨e | l, vm2⟩ <;> simp only [h2]
    · exact Eq.trans (pop_list_vld vm1 h2) (pop_int_vld vm h1)
    · rcases h3 : l[(i % 4294967296).toNat]? with _ | item <;>
        simp only [h3] <;>
        exact (Eq.trans (pop_list_vld vm1 h2) (pop_int_vld vm h1) :
          vm2.validation = vm.validation)

theorem vldEq_list_len (vm : VM) : resVldEq (builtin_list_len vm) vm := by
  unfold builtin_list_len
  rcases h1 : vm.pop_list with ⟨e | l, vm1⟩ <;> simp only [h1] <;>
    exact (pop_list_vld vm h1 : vm1.validation = vm.validation)

theorem vldEq_bundle_add (vm : VM) : resVldEq (builtin_bundle_add vm) vm := by
  unfold builtin_bundle_add
  rcases h1 : vm.pop_doc with ⟨e | doc, vm1⟩ <;> simp only [h1]
  · exact pop_doc_vld vm h1
  · rcases h2 : vm1.pop_bundle with ⟨e | b, vm2⟩ <;> simp only [h2] <;>
      exact (Eq.trans (pop_bundle_vld vm1 h2) (pop_doc_vld vm h1) :
        vm2.validation = vm.validation)

theorem vldEq_bundle_docs (vm : VM) : resVldEq (builtin_bundle_docs vm) vm := by
  unfold builtin_bundle_docs
  rcases h1 : vm.pop_bundle with ⟨e | b, vm1⟩ <;> simp only [h1] <;>
    exact (pop_bundle_vld vm h1 : vm1.validation = vm.validation)

theorem vldEq_bundle_count (vm : VM) :
    resVldEq (builtin_bundle_count vm) vm := by
  unfold builtin_bundle_count
  rcases h1 : vm.pop_bundle with ⟨e | b, vm1⟩ <;> simp only [h1] <;>
    exact (pop_bundle_vld vm h1 : vm1.validation = vm.validation)

theorem vldEq_bundle_has_type (vm : VM) :
    resVldEq (builtin_bundle_has_type vm) vm := by
  unfold builtin_bundle_has_type
  rcases h1 : vm.pop_str with ⟨e | dt, vm1⟩ <;> simp only [h1]
  · exact pop_str_vld vm h1
  · rcases h2 : vm1.pop_bundle with ⟨e | b, vm2⟩ <;> simp only [h2] <;>
      exact (Eq.trans (pop_bundle_vld vm1 h2) (pop_str_vld vm h1) :
        vm2.validation = vm.validation)

theorem vldEq_bundle_get_type (vm : VM) :
    resVldEq (builtin_bundle_get_type vm) vm := by
  unfold builtin_bundle_get_type
  rcases h1 : vm.pop_str with ⟨e | dt, vm1⟩ <;> simp only [h1]
  · exact pop_str_vld vm h1
  · rcases h2 : vm1.pop_bundle with ⟨e | b, vm2⟩ <;> simp only [h2]
    · exact Eq.trans (pop_bundle_vld vm1 h2) (pop_str_vld vm h1)
    · rcases h3 : b.get_type dt with _ | doc <;> simp only [h3] <;>
        exact (Eq.trans (pop_bundle_vld vm1 h2) (pop_str_vld vm h1) :
          vm2.validation = vm.validation)

theorem vldEq_pack_require (vm : VM) :
    resVldEq (builtin_pack_require vm) vm := by
  unfold builtin_pack_require
  rcases h1 : vm.pop_str with ⟨e | dt, vm1⟩ <;> simp only [h1]
  · exact pop_str_vld vm h1
  · rcases h2 : vm1.pop_pack with ⟨e | p, vm2⟩ <;> simp only [h2] <;>
      exact (Eq.trans (pop_pack_vld vm1 h2) (pop_str_vld vm h1) :
        vm2.validation = vm.validation)

theorem vldEq_pack_optional (vm : VM) :
    resVldEq (builtin_pack_optional vm) vm := by
  unfold builtin_pack_optional
  rcases h1 : vm.pop_str with ⟨e | dt, vm1⟩ <;> simp only [h1]
  · exact pop_str_vld vm h1
  · rcases h2 : vm1.pop_pack with ⟨e | p, vm2⟩ <;> simp only [h2] <;>
      exact (Eq.trans (pop_pack_vld vm1 h2) (pop_str_vld vm h1) :
        vm2.validation = vm.validation)

theorem vldEq_pack_rule (vm : VM) : resVldEq (builtin_pack_rule vm) vm := by
  unfold builtin_pack_rule
  rcases h1 : vm.pop_quotation with ⟨e | body, vm1⟩ <;> simp only [h1]
  · exact pop_quot_vld vm h1
  · rcases h2 : vm1.pop_str with ⟨e | name, vm2⟩ <;> simp only [h2]
    · exact Eq.trans (pop_str_vld vm1 h2) (pop_quot_vld vm h1)
    · rcases h3 : vm2.pop_pack with ⟨e | p, vm3⟩ <;> simp only [h3] <;>
        exact (Eq.trans (pop_pack_vld vm2 h3)
          (Eq.trans (pop_str_vld vm1 h2) (pop_quot_vld vm h1)) :
          vm3.validation = vm.validation)

/-! Reporting words: they may change validation but re-establish the
invariant. -/

theorem inv_report_error (vm : VM) (msg : String) :
    successInv (vm.report_error msg) := by
  simp [successInv, VM.report_error]

theorem inv_error (vm : VM) (hv : successInv vm) :
    resInv (builtin_error vm) := by
  unfold builtin_error
  rcases h1 : vm.pop_str with ⟨e | msg, vm1⟩ <;> simp only [h1]
  · exact successInv_of_eq vm vm1 (pop_str_vld vm h1) hv
  · exact inv_report_error vm1 msg

theorem inv_warn (vm : VM) (hv : successInv vm) :
    resInv (builtin_warn vm) := by
  unfold builtin_warn
  rcases h1 : vm.pop_str with ⟨e | msg, vm1⟩ <;> simp only [h1] <;>
    exact successInv_of_eq vm vm1 (pop_str_vld vm h1) hv

theorem inv_suggest (vm : VM) (hv : successInv vm) :
    resInv (builtin_suggest vm) := by
  unfold builtin_suggest
  rcases h1 : vm.pop_str with ⟨e | msg, vm1⟩ <;> simp only [h1] <;>
    exact successInv_of_eq vm vm1 (pop_str_vld vm h1) hv

theorem inv_require (vm : VM) (hv : successInv vm) :
    resInv (builtin_require vm) := by
  unfold builtin_require
  rcases h1 : vm.pop_str with ⟨e | msg, vm1⟩ <;> simp only [h1]
  · exact successInv_of_eq vm vm1 (pop_str_vld vm h1) hv
  · have hv1 := successInv_of_eq vm vm1 (pop_str_vld vm h1) hv
    rcases h2 : vm1.pop_bool with ⟨e | cond, vm2⟩ <;> simp only [h2]
    · exact successInv_of_eq vm1 vm2 (pop_bool_vld vm1 h2) hv1
    · have hv2 := successInv_of_eq vm1 vm2 (pop_bool_vld vm1 h2) hv1
      cases cond
      · exact inv_report_error vm2 msg
      · exact hv2

/-! Quotation-invoking words, with the invariant assumed of `recurse`. -/

theorem inv_if (recurse : List Token → VM → ExecRes)
    (hrec : ∀ ts vm, successInv vm → resInv (recurse ts vm))
    (vm : VM) (hv : successInv vm) : resInv (builtin_if recurse vm) := by
  unfold builtin_if
  rcases h1 : vm.pop_quotation with ⟨e | els, vm1⟩ <;> simp only [h1]
  · exact successInv_of_eq vm vm1 (pop_quot_vld vm h1) hv
  · have hv1 := successInv_of_eq vm vm1 (pop_quot_vld vm h1) hv
    rcases h2 : vm1.pop_quotation with ⟨e | thn, vm2⟩ <;> simp only [h2]
    · exact successInv_of_eq vm1 vm2 (pop_quot_vld vm1 h2) hv1
    · have hv2 := successInv_of_eq vm1 vm2 (pop_quot_vld vm1 h2) hv1
      rcases h3 : vm2.pop_bool with ⟨e | cond, vm3⟩ <;> simp only [h3]
      · exact successInv_of_eq vm2 vm3 (pop_bool_vld vm2 h3) hv2
      · have hv3 := successInv_of_eq vm2 vm3 (pop_bool_vld vm2 h3) hv2
        cases cond
        · exact hrec els vm3 hv3
        · exact hrec thn vm3 hv3

theorem inv_when (recurse : List Token → VM → ExecRes)
    (hrec : ∀ ts vm, successInv vm → resInv (recurse ts vm))
    (vm : VM) (hv : successInv vm) : resInv (builtin_when recurse vm) := by
  unfold builtin_when
  rcases h1 : vm.pop_quotation with ⟨e | body, vm1⟩ <;> simp only [h1]
  · exact successInv_of_eq vm vm1 (pop_quot_vld vm h1) hv
  · have hv1 := successInv_of_eq vm vm1 (pop_quot_vld vm h1) hv
    rcases h2 : vm1.pop_bool with ⟨e | cond, vm2⟩ <;> simp only [h2]
    · exact successInv_of_eq vm1 vm2 (pop_bool_vld vm1 h2) hv1
    · have hv2 := successInv_of_eq vm1 vm2 (pop_bool_vld vm1 h2) hv1
      cases cond
      · exact hv2
      · exact hrec body vm2 hv2

theorem inv_unless (recurse : List Token → VM → ExecRes)
    (hrec : ∀ ts vm, successInv vm → resInv (recurse ts vm))
    (vm : VM) (hv : successInv vm) : resInv (builtin_unless recurse vm) := by
  unfold builtin_unless
  rcases h1 : vm.pop_quotation with ⟨e | body, vm1⟩ <;> simp only [h1]
  · exact successInv_of_eq vm vm1 (pop_quot_vld vm h1) hv
  · have hv1 := successInv_of_eq vm vm1 (pop_quot_vld vm h1) hv
    rcases h2 : vm1.pop_bool with ⟨e | cond, vm2⟩ <;> simp only [h2]
    · exact successInv_of_eq vm1 vm2 (pop_bool_vld vm1 h2) hv1
    · have hv2 := successInv_of_eq vm1 vm2 (pop_bool_vld vm1 h2) hv1
      cases cond
      · exact hrec body vm2 hv2
      · exact hv2

theorem inv_call (recurse : List Token → VM → ExecRes)
    (hrec : ∀ ts vm, successInv vm → resInv (recurse ts vm))
    (vm : VM) (hv : successInv vm) : resInv (builtin_call recurse vm) := by
  unfold builtin_call
  rcases h1 : vm.pop_quotation with ⟨e | q, vm1⟩ <;> simp only [h1]
  · exact successInv_of_eq vm vm1 (pop_quot_vld vm h1) hv
  · exact hrec q vm1 (successInv_of_eq vm vm1 (pop_quot_vld vm h1) hv)

theorem eachLoop_inv (recurse : List Token → VM → ExecRes)
    (hrec : ∀ ts vm, successInv vm → resInv (recurse ts vm))
    (body : List Token) :
    ∀ items vm, successInv vm → resInv (eachLoop recurse body items vm)
  | [], _, hv => hv
  | item :: items, vm, hv => by
    have h0 := hrec body (vm.push item) hv
    rcases h : recurse body (vm.push item) with vm2 | ⟨e, vm2⟩ | _ | m <;>
      rw [h] at h0 <;> simp only [eachLoop, h]
    · exact eachLoop_inv recurse hrec body items vm2 h0
    · exact h0
    · exact trivial
    · exact trivial

theorem mapLoop_inv (recurse : List Token → VM → ExecRes)
    (hrec : ∀ ts vm, successInv vm → resInv (recurse ts vm))
    (body : List Token) :
    ∀ items acc vm, successInv vm → resInv (mapLoop recurse body items acc vm)
  | [], _, _, hv => hv
  | item :: items, acc, vm, hv => by
    have h0 := hrec body (vm.push item) hv
    rcases h : recurse body (vm.push item) with vm2 | ⟨e, vm2⟩ | _ | m <;>
      rw [h] at h0 <;> simp only [mapLoop, h]
    · rcases h2 : vm2.pop with e2 | ⟨v, vm3⟩ <;> simp only [h2]
      · exact h0
      · exact mapLoop_inv recurse hrec body items (acc ++ [v]) vm3
          (successInv_of_eq vm2 vm3 (pop_ok_vld vm2 vm3 v h2) h0)
    · exact h0
    · exact trivial
    · exact trivial

theorem filterLoop_inv (recurse : List Token → VM → ExecRes)
    (hrec : ∀ ts vm, successInv vm → resInv (recurse ts vm))
    (body : List Token) :
    ∀ items acc vm, successInv vm →
      resInv (filterLoop recurse body items acc vm)
  | [], _, _, hv => hv
  | item :: items, acc, vm, hv => by
    have h0 := hrec body (vm.push item) hv
    rcases h : recurse body (vm.push item) with vm2 | ⟨e, vm2⟩ | _ | m <;>
      rw [h] at h0 <;> simp only [filterLoop, h]
    · rcases h2 : vm2.pop_bool with ⟨e2 | keep, vm3⟩ <;> simp only [h2]
      · exact successInv_of_eq vm2 vm3 (pop_bool_vld vm2 h2) h0
      · exact filterLoop_inv recurse hrec body items
          (if keep then acc ++ [item] else acc) vm3
          (successInv_of_eq vm2 vm3 (pop_bool_vld vm2 h2) h0)
    · exact h0
    · exact trivial
    · exact trivial

theorem inv_each (recurse : List Token → VM → ExecRes)
    (hrec : ∀ ts vm, successInv vm → resInv (recurse ts vm))
    (vm : VM) (hv : successInv vm) : resInv (builtin_each recurse vm) := by
  unfold builtin_each
  rcases h1 : vm.pop_quotation with ⟨e | body, vm1⟩ <;> simp only [h1]
  · exact successInv_of_eq vm vm1 (pop_quot_vld vm h1) hv
  · have hv1 := successInv_of_eq vm vm1 (pop_quot_vld vm h1) hv
    rcases h2 : vm1.pop_list with ⟨e | list, vm2⟩ <;> simp only [h2]
    · exact successInv_of_eq vm1 vm2 (pop_list_vld vm1 h2) hv1
    · exact eachLoop_inv recurse hrec body list vm2
        (successInv_of_eq vm1 vm2 (pop_list_vld vm1 h2) hv1)

theorem inv_map (recurse : List Token → VM → ExecRes)
    (hrec : ∀ ts vm, successInv vm → resInv (recurse ts vm))
    (vm : VM) (hv : successInv vm) : resInv (builtin_map recurse vm) := by
  unfold builtin_map
  rcases h1 : vm.pop_quotation with ⟨e | body, vm1⟩ <;> simp only [h1]
  · exact successInv_of_eq vm vm1 (pop_quot_vld vm h1) hv
  · have hv1 := successInv_of_eq vm vm1 (pop_quot_vld vm h1) hv
    rcases h2 : vm1.pop_list with ⟨e | list, vm2⟩ <;> simp only [h2]
    · exact successInv_of_eq vm1 vm2 (pop_list_vld vm1 h2) hv1
    · exact mapLoop_inv recurse hrec body list [] vm2
        (successInv_of_eq vm1 vm2 (pop_list_vld vm1 h2) hv1)

theorem inv_filter (recurse : List Token → VM → ExecRes)
    (hrec : ∀ ts vm, successInv vm → resInv (recurse ts vm))
    (vm : VM) (hv : successInv vm) : resInv (builtin_filter recurse vm) := by
  unfold builtin_filter
  rcases h1 : vm.pop_quotation with ⟨e | body, vm1⟩ <;> simp only [h1]
  · exact successInv_of_eq vm vm1 (pop_quot_vld vm h1) hv
  · have hv1 := successInv_of_eq vm vm1 (pop_quot_vld vm h1) hv
    rcases h2 : vm1.pop_list with ⟨e | list, vm2⟩ <;> simp only [h2]
    · exact successInv_of_eq vm1 vm2 (pop_list_vld vm1 h2) hv1
    · exact filterLoop_inv recurse hrec body list [] vm2
        (successInv_of_eq vm1 vm2 (pop_list_vld vm1 h2) hv1)

theorem inv_reduce (recurse : List Token → VM → ExecRes)
    (hrec : ∀ ts vm, successInv vm → resInv (recurse ts vm))
    (vm : VM) (hv : successInv vm) : resInv (builtin_reduce recurse vm) := by
  unfold builtin_reduce
  rcases h1 : vm.pop_quotation with ⟨e | body, vm1⟩ <;> simp only [h1]
  · exact successInv_of_eq vm vm1 (pop_quot_vld vm h1) hv
  · have hv1 := successInv_of_eq vm vm1 (pop_quot_vld vm h1) hv
    rcases h2 : vm1.pop with e2 | ⟨init, vm2⟩ <;> simp only [h2]
    · exact hv1
    · have hv2 := successInv_of_eq vm1 vm2 (pop_ok_vld vm1 vm2 init h2) hv1
      rcases h3 : vm2.pop_list with ⟨e | list, vm3⟩ <;> simp only [h3]
      · exact successInv_of_eq vm2 vm3 (pop_list_vld vm2 h3) hv2
      · exact eachLoop_inv recurse hrec body list (vm3.push init)
          (successInv_of_eq vm2 vm3 (pop_list_vld vm2 h3) hv2)

/-! `bundle-validate` -/

theorem checkRequired_inv (bundle : Bundle) :
    ∀ reqs vm, successInv vm → successInv (checkRequired bundle reqs vm)
  | [], _, hv => hv
  | req :: rest, vm, hv => by
    unfold checkRequired
    split
    · exact checkRequired_inv bundle rest vm hv
    · exact checkRequired_inv bundle rest _ (inv_report_error vm _)

theorem runRules_inv (recurse : List Token → VM → ExecRes)
    (hrec : ∀ ts vm, successInv vm → resInv (recurse ts vm))
    (bundle : Bundle) :
    ∀ rules vm vm', successInv vm →
      runRules recurse bundle rules vm = .done vm' → successInv vm'
  | [], vm, vm', hv, heq => by
    simp only [runRules] at heq
    injection heq with h
    rw [← h]
    exact hv
  | rule :: rest, vm, vm', hv, heq => by
    have h0 := hrec rule.body (vm.push (.bundle bundle)) hv
    rcases h : recurse rule.body (vm.push (.bundle bundle))
      with vm2 | ⟨e, vm2⟩ | _ | m <;> rw [h] at h0 <;>
      simp only [runRules, h] at heq
    · exact runRules_inv recurse hrec bundle rest vm2.dropTop vm' h0 heq
    · exact runRules_inv recurse hrec bundle rest
        ((vm2.report_error (ruleFailedMsg rule.name e)).dropTop) vm'
        (inv_report_error vm2 (ruleFailedMsg rule.name e)) heq
    · exact RulesOut.noConfusion heq
    · exact RulesOut.noConfusion heq

theorem inv_bundle_validate (recurse : List Token → VM → ExecRes)
    (hrec : ∀ ts vm, successInv vm → resInv (recurse ts vm))
    (vm : VM) (hv : successInv vm) :
    resInv (builtin_bundle_validate recurse vm) := by
  unfold builtin_bundle_validate
  rcases h1 : vm.pop_pack with ⟨e | pack, vm1⟩ <;> simp only [h1]
  · exact successInv_of_eq vm vm1 (pop_pack_vld vm h1) hv
  · have hv1 := successInv_of_eq vm vm1 (pop_pack_vld vm h1) hv
    rcases h2 : vm1.pop_bundle with ⟨e | bundle, vm2⟩ <;> simp only [h2]
    · exact successInv_of_eq vm1 vm2 (pop_bundle_vld vm1 h2) hv1
    · have hv3 :
          successInv (checkRequired bundle pack.required vm2.reset_validation) :=
        checkRequired_inv bundle pack.required vm2.reset_validation rfl
      rcases hr : runRules recurse bundle pack.rules
          (checkRequired bundle pack.required vm2.reset_validation)
        with vm4 | _ | m <;> simp only [hr]
      · exact runRules_inv recurse hrec bundle pack.rules _ vm4 hv3 hr
      · exact trivial
      · exact trivial

theorem execNative_inv (recurse : List Token → VM → ExecRes)
    (hrec : ∀ ts vm, successInv vm → resInv (recurse ts vm))
    (w : NativeWord) (vm : VM) (hv : successInv vm) :
    resInv (execNative recurse w vm) := by
  cases w
  case dup => exact inv_of_vldEq (vldEq_dup vm) hv
  case drop => exact inv_of_vldEq (vldEq_drop vm) hv
  case swap => exact inv_of_vldEq (vldEq_swap vm) hv
  case over => exact inv_of_vldEq (vldEq_over vm) hv
  case rot => exact inv_of_vldEq (vldEq_rot vm) hv
  case nip => exact inv_of_vldEq (vldEq_nip vm) hv
  case tuck => exact inv_of_vldEq (vldEq_tuck vm) hv
  case depth => exact inv_of_vldEq (vldEq_depth vm) hv
  case add => exact inv_of_vldEq (vldEq_binIntWord _ vm) hv
  case sub => exact inv_of_vldEq (vldEq_binIntWord _ vm) hv
  case mul => exact inv_of_vldEq (vldEq_binIntWord _ vm) hv
  case div => exact inv_of_vldEq (vldEq_div vm) hv
  case mod => exact inv_of_vldEq (vldEq_mod vm) hv
  case abs => exact inv_of_vldEq (vldEq_unaryIntWord _ vm) hv
  case negate => exact inv_of_vldEq (vldEq_unaryIntWord _ vm) hv
  case eq => exact inv_of_vldEq (vldEq_eq vm) hv
  case neq => exact inv_of_vldEq (vldEq_neq vm) hv
  case lt => exact inv_of_vldEq (vldEq_binIntWord _ vm) hv
  case gt => exact inv_of_vldEq (vldEq_binIntWord _ vm) hv
  case le => exact inv_of_vldEq (vldEq_binIntWord _ vm) hv
  case ge => exact inv_of_vldEq (vldEq_binIntWord _ vm) hv
  case and_ => exact inv_of_vldEq (vldEq_binBoolWord _ vm) hv
  case or_ => exact inv_of_vldEq (vldEq_binBoolWord _ vm) hv
  case not_ => exact inv_of_vldEq (vldEq_not vm) hv
  case true_ => exact inv_of_vldEq (vldEq_pushWord _ vm) hv
  case false_ => exact inv_of_vldEq (vldEq_pushWord _ vm) hv
  case nil_ => exact inv_of_vldEq (vldEq_pushWord _ vm) hv
  case if_ => exact inv_if recurse hrec vm hv
  case when_ => exact inv_when recurse hrec vm hv
  case unless_ => exact inv_unless recurse hrec vm hv
  case call_ => exact inv_call recurse hrec vm hv
  case str_concat => exact inv_of_vldEq (vldEq_binStrWord _ vm) hv
  case str_contains => exact inv_of_vldEq (vldEq_binStrWord _ vm) hv
  case str_starts => exact inv_of_vldEq (vldEq_binStrWord _ vm) hv
  case str_ends => exact inv_of_vldEq (vldEq_binStrWord _ vm) hv
  case str_split => exact inv_of_vldEq (vldEq_binStrWord _ vm) hv
  case str_trim => exact inv_of_vldEq (vldEq_unaryStrWord _ vm) hv
  case str_upper => exact inv_of_vldEq (vldEq_unaryStrWord _ vm) hv
  case str_lower => exact inv_of_vldEq (vldEq_unaryStrWord _ vm) hv
  case str_len => exact inv_of_vldEq (vldEq_unaryStrWord _ vm) hv
  case list_new => exact inv_of_vldEq (vldEq_pushWord _ vm) hv
  case list_push => exact inv_of_vldEq (vldEq_list_push vm) hv
  case list_pop => exact inv_of_vldEq (vldEq_list_pop vm) hv
  case list_get => exact inv_of_vldEq (vldEq_list_get vm) hv
  case list_len => exact inv_of_vldEq (vldEq_list_len vm) hv
  case each => exact inv_each recurse hrec vm hv
  case map => exact inv_map recurse hrec vm hv
  case filter => exact inv_filter recurse hrec vm hv
  case reduce => exact inv_reduce recurse hrec vm hv
  case doc_hash => exact inv_of_vldEq (vldEq_unaryDocWord _ vm) hv
  case doc_type => exact inv_of_vldEq (vldEq_unaryDocWord _ vm) hv
  case doc_path => exact inv_of_vldEq (vldEq_unaryDocWord _ vm) hv
  case doc_content => exact inv_of_vldEq (vldEq_unaryDocWord _ vm) hv
  case doc_version => exact inv_of_vldEq (vldEq_unaryDocWord _ vm) hv
  case doc_canonical => exact inv_of_vldEq (vldEq_unaryDocWord _ vm) hv
  case docs_same_hash => exact inv_of_vldEq (vldEq_binDocWord _ vm) hv
  case docs_same_type => exact inv_of_vldEq (vldEq_binDocWord _ vm) hv
  case bundle_new => exact inv_of_vldEq (vldEq_pushWord _ vm) hv
  case bundle_add => exact inv_of_vldEq (vldEq_bundle_add vm) hv
  case bundle_docs => exact inv_of_vldEq (vldEq_bundle_docs vm) hv
  case bundle_count => exact inv_of_vldEq (vldEq_bundle_count vm) hv
  case bundle_has_type => exact inv_of_vldEq (vldEq_bundle_has_type vm) hv
  case bundle_get_type => exact inv_of_vldEq (vldEq_bundle_get_type vm) hv
  case bundle_validate => exact inv_bundle_validate recurse hrec vm hv
  case pack_new => exact inv_of_vldEq (vldEq_unaryStrWord _ vm) hv
  case pack_require => exact inv_of_vldEq (vldEq_pack_require vm) hv
  case pack_optional => exact inv_of_vldEq (vldEq_pack_optional vm) hv
  case pack_rule => exact inv_of_vldEq (vldEq_pack_rule vm) hv
  case pack_ship => exact inv_bundle_validate recurse hrec vm hv
  case error_bang => exact inv_error vm hv
  case warn_bang => exact inv_warn vm hv
  case suggest_bang => exact inv_suggest vm hv
  case require_bang => exact inv_require vm hv
  case hash_content => exact inv_of_vldEq (vldEq_unaryStrWord _ vm) hv
  case print_stack => exact hv
  case print_validation => exact hv


theorem execute_inv :
    ∀ fuel toks vm, successInv vm → resInv (execute fuel toks vm) := by
  intro fuel
  induction fuel with
  | zero => intro toks vm _; exact trivial
  | succ fuel ih =>
    intro toks vm hv
    rcases toks with _ | ⟨token, rest⟩
    · exact hv
    · cases token with
      | int n => exact ih rest (vm.push (.int n)) hv
      | float f => exact ih rest (vm.push (.float f)) hv
      | str s => exact ih rest (vm.push (.str s)) hv
      | quoteStart =>
        rcases hq : scanQuote rest 1 with _ | ⟨q, rest2⟩ <;>
          simp only [execute, hq]
        · exact hv
        · exact ih rest2 (vm.push (.quotation q)) hv
      | defStart =>
        rcases rest with _ | ⟨t2, rest2⟩
        · exact hv
        · cases t2
          case word name =>
            simp only [execute]
            split
            · exact ih _ _ hv
            · exact hv
          all_goals exact hv
      | word name =>
        simp only [execute]
        rcases hl : dictLookup name vm.dictionary with _ | wd
        · exact hv
        · rcases wd with w | body
          · show resInv (match execNative (execute fuel) w vm with
              | ExecRes.ok vm2 => execute fuel rest vm2
              | ExecRes.err e vm2 => ExecRes.err e vm2
              | ExecRes.timeout => ExecRes.timeout
              | ExecRes.panic m => ExecRes.panic m)
            have h1 := execNative_inv (execute fuel) (ih) w vm hv
            rcases hn : execNative (execute fuel) w vm
              with vm2 | ⟨e, vm2⟩ | _ | m <;> rw [hn] at h1
            · exact ih rest vm2 h1
            · exact h1
            · exact trivial
            · exact trivial
          · show resInv (match execute fuel body vm with
              | ExecRes.ok vm2 => execute fuel rest vm2
              | ExecRes.err e vm2 => ExecRes.err e vm2
              | ExecRes.timeout => ExecRes.timeout
              | ExecRes.panic m => ExecRes.panic m)
            have h1 := ih body vm hv
            rcases hn : execute fuel body vm with vm2 | ⟨e, vm2⟩ | _ | m <;>
              rw [hn] at h1
            · exact ih rest vm2 h1
            · exact h1
            · exact trivial
            · exact trivial
      | comment s => exact ih rest vm hv
      | stackEffectStart => exact ih rest vm hv
      | stackEffectEnd => exact ih rest vm hv
      | quoteEnd => exact ih rest vm hv
      | defEnd => exact ih rest vm hv

theorem reachable_successInv : ∀ vm : VM, Reachable vm → successInv vm := by
  intro vm h
  induction h with
  | new => rfl
  | step_ok fuel toks vm0 vm1 hr he ih =>
    have h1 := execute_inv fuel toks vm0 ih
    rw [he] at h1
    exact h1
  | step_err fuel toks vm0 vm1 e hr he ih =>
    have h1 := execute_inv fuel toks vm0 ih
    rw [he] at h1
    exact h1
  | load_bundle vm0 b hr ih => exact ih
  | push vm0 v hr ih => exact ih
  | pop vm0 hr ih => exact ih
  | define_word vm0 name body hr ih => exact ih
  | register_native vm0 name w hr ih => exact ih
  | report_error vm0 msg hr ih => exact inv_report_error vm0 msg
  | report_warning vm0 msg hr ih => exact ih
  | report_suggestion vm0 msg hr ih => exact ih
  | reset_validation vm0 hr ih => exact rfl
  | set_debug vm0 d hr ih => exact ih

/-- C4: in every reachable VM state -- `VM::new` followed by any sequence
of `execute` runs and public mutators -- the `success` flag of the
validation accumulator is `true` exactly when the `errors` list is empty:
every path that appends an error clears the flag, no path sets the flag
without clearing the errors, and `reset_validation` re-establishes the
invariant. -/
theorem c4_success_iff_errors_empty (vm : VM) (h : Reachable vm) :
    vm.validation.success = true ↔ vm.validation.errors = [] := by
  have hs := reachable_successInv vm h
  unfold successInv at hs
  rw [hs]
  cases vm.validation.errors <;> simp

/-- C4 witness: the theorem applied at the concrete reachable state
reached from `VM::new` by one `report_error` call. -/
theorem c4_witness :
    ((VM.new.report_error "boom").validation.success = true ↔
      (VM.new.report_error "boom").validation.errors = []) :=
  c4_success_iff_errors_empty (VM.new.report_error "boom")
    (Reachable.report_error VM.new "boom" Reachable.new)

end RF
